import Mathlib

/-!
The volume lifecycle of docker-volume-ceph-rbd (`main.go`).

A shallow embedding of the Ceph RBD volume driver (`src/main.go`) and theorems about
its create / mount / unmount / remove lifecycle.

Modelling conventions.

* The driver table `map[string]*cephRbdVolume` is an association list read by `get`,
  written by `put` (the Go assignment `d.volumes[name] = v`, and the mutation of a record
  through its pointer) and `delete`. Every record is reached through exactly one key, so
  value semantics loses nothing.
* Go `int` is the 64-bit two's complement integer of the platforms the plugin runs on;
  `connections++` and `connections--` wrap (`wrapInt`).
* The operating system is not part of the program: every external step (`os.Lstat`,
  `os.MkdirAll`, the writes to `/host/sys/bus/rbd/add` and `remove`, the `mount`, `umount`
  and `grep` commands, `os.RemoveAll`, the write of the state file) takes its outcome from
  an environment argument of the call, and every operation returns the list of external
  steps it performed (`Effect`). The host is followed through these steps: which device
  numbers are attached and which devices are mounted at each path.
* Library functions whose text is not in the repository (`%q` quoting, the hexadecimal
  MD5 digest, `filepath.Join`) are fields of a `GoLib` parameter.
* Logging is dropped.
-/

/-! ## Go library pieces -/

/-- A Go `error` value produced by `os`, `os/exec`, `io/ioutil` or `strconv`: its text
is never empty (`open p: permission denied`, `exit status 32`, ...). -/
structure OsError where
  msg : String
  nonempty : msg ≠ ""

/-- Library functions used by the driver whose implementation is outside the repository:
`quote` is the `%q` verb of `fmt.Sprintf`, `md5hex s` is
`fmt.Sprintf("%x", md5.Sum([]byte(s)))`, `join` is `filepath.Join`. -/
structure GoLib where
  quote : String → String
  md5hex : String → String
  join : List String → String

/-- Go `int` on a 64-bit platform: the representative of `x` in `[-2^63, 2^63)`. -/
def wrapInt (x : Int) : Int :=
  (x + 9223372036854775808) % 18446744073709551616 - 9223372036854775808

/-- The characters removed by `strings.TrimSpace` (Go's `unicode.IsSpace`). -/
def isSpace (c : Char) : Bool :=
  c.toNat = 9 || c.toNat = 10 || c.toNat = 11 || c.toNat = 12 || c.toNat = 13 ||
  c.toNat = 32 || c.toNat = 133 || c.toNat = 160 || c.toNat = 5760 ||
  (8192 ≤ c.toNat && c.toNat ≤ 8202) || c.toNat = 8232 || c.toNat = 8233 ||
  c.toNat = 8239 || c.toNat = 8287 || c.toNat = 12288

/-- Go `strings.TrimSpace`: leading and trailing white space removed. -/
def trimSpace (s : String) : String :=
  String.mk ((s.toList.dropWhile isSpace).reverse.dropWhile isSpace).reverse

/-- Value of a string of decimal digits. -/
def digitsValue (ds : List Char) : Nat :=
  ds.foldl (fun a c => 10 * a + (c.toNat - 48)) 0

/-- The error `strconv.Atoi` returns for the input `s`:
`strconv.Atoi: parsing "s": invalid syntax` or `... value out of range`. -/
def atoiError (lib : GoLib) (s : String) (what : String) : OsError :=
  ⟨"strconv.Atoi: parsing " ++ (lib.quote s ++ (": " ++ what)), by
    intro h
    have h1 := congrArg String.length h
    rw [String.length_append] at h1
    have h2 : "strconv.Atoi: parsing ".length = 22 := by decide
    have h3 : "".length = 0 := rfl
    omega⟩

/-- Go `strconv.Atoi` on a 64-bit platform: an optional sign followed by at least one
decimal digit; a value outside the `int` range is an error. -/
def atoi (lib : GoLib) (s : String) : Except OsError Int :=
  let cs := s.toList
  let neg := cs.head? = some (Char.ofNat 45)
  let ds := if cs.head? = some (Char.ofNat 45) ∨ cs.head? = some (Char.ofNat 43)
    then cs.tail else cs
  if ds = [] ∨ ds.all Char.isDigit = false then .error (atoiError lib s "invalid syntax")
  else
    let x : Int := if neg then -(digitsValue ds : Int) else (digitsValue ds : Int)
    if x < -9223372036854775808 ∨ 9223372036854775807 < x
    then .error (atoiError lib s "value out of range") else .ok x

/-! ## Data model -/

/-- The volume record (`type cephRbdVolume struct`). `connections` is the reference
count; it is the only unexported field. -/
structure cephRbdVolume where
  Pool : String := ""
  Rbd : String := ""
  Hosts : String := ""
  Username : String := ""
  Secret : String := ""
  RbdNum : Int := 0
  Mountpoint : String := ""
  connections : Int := 0
  deriving DecidableEq, Repr

/-- The value of `map[string]*cephRbdVolume`. -/
abbrev volumeTable := List (String × cephRbdVolume)

namespace volumeTable

/-- Map read `v, ok := t[name]`. -/
def get : volumeTable → String → Option cephRbdVolume
  | [], _ => none
  | (k, v) :: t, name => if k = name then some v else get t name

/-- Map write `t[name] = v`. -/
def put : volumeTable → String → cephRbdVolume → volumeTable
  | [], name, v => [(name, v)]
  | (k, x) :: t, name, v => if k = name then (name, v) :: t else (k, x) :: put t name v

/-- Map removal `delete(t, name)`. -/
def delete : volumeTable → String → volumeTable
  | [], _ => []
  | (k, x) :: t, name => if k = name then delete t name else (k, x) :: delete t name

end volumeTable

/-- The driver (`type cephRbdDriver struct`); the lock is not modelled, every operation
below runs as one atomic step, which is what holding the lock for the whole call gives. -/
structure cephRbdDriver where
  root : String
  statePath : String
  volumes : volumeTable
  deriving DecidableEq, Repr

/-- One entry of the JSON object written by `json.Marshal(d.volumes)`: the exported
fields of a record. `connections` is unexported and is therefore never encoded. -/
structure volumeJSON where
  Pool : String
  Rbd : String
  Hosts : String
  Username : String
  Secret : String
  RbdNum : Int
  Mountpoint : String
  deriving DecidableEq, Repr

/-- The exported fields of a record, as `json.Marshal` encodes them. -/
def cephRbdVolume.toJSON (v : cephRbdVolume) : volumeJSON :=
  ⟨v.Pool, v.Rbd, v.Hosts, v.Username, v.Secret, v.RbdNum, v.Mountpoint⟩

/-- The record `json.Unmarshal` allocates for an encoded entry: a field that is not
encoded keeps its zero value. -/
def volumeJSON.toVolume (j : volumeJSON) : cephRbdVolume :=
  ⟨j.Pool, j.Rbd, j.Hosts, j.Username, j.Secret, j.RbdNum, j.Mountpoint, 0⟩

/-- The JSON object `json.Marshal(d.volumes)` produces, as a value: one member per key. -/
def marshal (t : volumeTable) : List (String × volumeJSON) :=
  t.map fun e => (e.1, e.2.toJSON)

/-- The table `json.Unmarshal(data, &d.volumes)` builds from a JSON object. -/
def unmarshal (j : List (String × volumeJSON)) : volumeTable :=
  j.map fun e => (e.1, e.2.toVolume)

/-- What `ioutil.ReadFile(d.statePath)` and the JSON decoder can meet at start-up. -/
inductive stateFile where
  | absent
  | unreadable (err : OsError)
  | corrupt (err : OsError)
  | json (data : List (String × volumeJSON))

/-- Outcome of `ioutil.WriteFile(d.statePath, ...)`: on failure the file holds whatever the
failed write left behind. -/
inductive writeOutcome where
  | ok
  | failed (err : OsError) (left : stateFile)

/-- Outcome of `os.Lstat(v.Mountpoint)`. -/
inductive lstatResult where
  | notExist
  | failed (err : OsError)
  | found (isDir : Bool)

/-- The external steps a call performs, each with its outcome. `attach` is the write of
the attach line to `/host/sys/bus/rbd/add`; `device` is the number the kernel gives the
device it creates when the write succeeds. `findNum` is the `grep` pipeline of
`findRbdNum`. `mountFs` is `mount device mountpoint`. `umountFs` is `sh -c` of
`umount mountpoint`. `detach` is the write of the decimal text of `num` to
`/host/sys/bus/rbd/remove`. -/
inductive Effect where
  | lstat (path : String) (res : lstatResult)
  | mkdirAll (path : String) (err : Option OsError)
  | attach (mountString : String) (device : Int) (err : Option OsError)
  | findNum (cmd : String) (out : Except OsError String)
  | mountFs (device : String) (mountpoint : String) (err : Option OsError)
  | umountFs (mountpoint : String) (err : Option OsError)
  | detach (num : Int) (err : Option OsError)
  | removeAll (path : String) (err : Option OsError)
  | writeState (path : String) (data : List (String × volumeJSON)) (res : writeOutcome)

/-- A `volume.Volume` of the plugin protocol. -/
structure Volume where
  Name : String
  Mountpoint : String
  deriving DecidableEq, Repr

/-- A `volume.Capability`. -/
structure Capability where
  Scope : String := ""
  deriving DecidableEq, Repr

/-- A `volume.Response`; `Err = ""` is success. -/
structure Response where
  Mountpoint : String := ""
  Err : String := ""
  Volumes : List Volume := []
  Volume : Option Volume := none
  Capabilities : Capability := {}
  deriving DecidableEq, Repr

/-- A `volume.Request`; `Options` lists the entries of the options map in the order the
`range` loop of `Create` visits them. -/
structure Request where
  Name : String
  Options : List (String × String) := []
  deriving DecidableEq, Repr

/-- A `volume.MountRequest`. -/
structure MountRequest where
  Name : String
  ID : String := ""
  deriving DecidableEq, Repr

/-- A `volume.UnmountRequest`. -/
structure UnmountRequest where
  Name : String
  ID : String := ""
  deriving DecidableEq, Repr

/-- What a call leaves behind: the response, the driver and the external steps made. -/
structure Outcome where
  resp : Response
  d : cephRbdDriver
  effects : List Effect

/-- Go `responseError`. -/
def responseError (err : String) : Response := { Err := err }

/-! ## Environment of the calls -/

/-- Outcomes of the external steps of one `Mount` call, used in the order of the code.
`newDevice` is the number the kernel gives the device when the attach write succeeds. -/
structure mountEnv where
  lstat : lstatResult
  mkdirAll : Option OsError
  attach : Option OsError
  newDevice : Int
  findOut : Except OsError String
  mountCmd : Option OsError

/-- Outcomes of the external steps of one `Unmount` call. -/
structure unmountEnv where
  umount : Option OsError
  detach : Option OsError

/-- Outcomes of the external steps of one `Remove` call. -/
structure removeEnv where
  removeAll : Option OsError
  save : writeOutcome

/-! ## The driver -/

/-- Go `newCephRbdDriver`: the table is empty when there is no state file, and is decoded
from it otherwise; a read or decode error is returned. -/
def newCephRbdDriver (lib : GoLib) (root : String) (file : stateFile) :
    Except OsError cephRbdDriver :=
  let d : cephRbdDriver :=
    { root := lib.join [root, "volumes"],
      statePath := lib.join [root, "state", "ceph-rbd-state.json"],
      volumes := [] }
  match file with
  | .absent => .ok d
  | .unreadable err => .error err
  | .corrupt err => .error err
  | .json data => .ok { d with volumes := unmarshal data }

/-- Go `saveState`: the whole table is encoded and written to `statePath`; a failure is
logged and nothing else. (`json.Marshal` cannot fail on this type.) -/
def cephRbdDriver.saveState (d : cephRbdDriver) (res : writeOutcome) : Effect :=
  .writeState d.statePath (marshal d.volumes) res

/-- The `range r.Options` loop of `Create`: each recognised key sets its field, the first
unrecognised key met ends the call with the unknown-option text, built from the value. -/
def Create.loop (lib : GoLib) : List (String × String) → cephRbdVolume →
    Except String cephRbdVolume
  | [], v => .ok v
  | (key, val) :: rest, v =>
    if key = "pool" then Create.loop lib rest { v with Pool := val }
    else if key = "rbd" then Create.loop lib rest { v with Rbd := val }
    else if key = "hosts" then Create.loop lib rest { v with Hosts := val }
    else if key = "username" then Create.loop lib rest { v with Username := val }
    else if key = "secret" then Create.loop lib rest { v with Secret := val }
    else .error ("unknown option " ++ lib.quote val)

/-- Go `Create`. -/
def cephRbdDriver.Create (lib : GoLib) (d : cephRbdDriver) (r : Request)
    (save : writeOutcome) : Outcome :=
  match Create.loop lib r.Options {} with
  | .error err => ⟨responseError err, d, []⟩
  | .ok v =>
    if v.Pool = "" then ⟨responseError "'pool' option required", d, []⟩
    else if v.Rbd = "" then ⟨responseError "'rbd' option required", d, []⟩
    else if v.Hosts = "" then ⟨responseError "'hosts' option required", d, []⟩
    else if v.Username = "" then ⟨responseError "'username' option required", d, []⟩
    else if v.Secret = "" then ⟨responseError "'secret' option required", d, []⟩
    else
      let v1 := { v with Mountpoint := lib.join [d.root, lib.md5hex v.Rbd] }
      let d1 := { d with volumes := d.volumes.put r.Name v1 }
      ⟨{}, d1, [d1.saveState save]⟩

/-- Go `Remove`. -/
def cephRbdDriver.Remove (d : cephRbdDriver) (r : Request) (env : removeEnv) : Outcome :=
  match d.volumes.get r.Name with
  | none => ⟨responseError ("volume " ++ r.Name ++ " not found"), d, []⟩
  | some v =>
    if v.connections ≠ 0 then
      ⟨responseError ("volume " ++ r.Name ++ " is currently used by a container"), d, []⟩
    else
      match env.removeAll with
      | some err => ⟨responseError err.msg, d, [.removeAll v.Mountpoint (some err)]⟩
      | none =>
        let d1 := { d with volumes := d.volumes.delete r.Name }
        ⟨{}, d1, [.removeAll v.Mountpoint none, d1.saveState env.save]⟩

/-- Go `Path`. -/
def cephRbdDriver.Path (d : cephRbdDriver) (r : Request) : Outcome :=
  match d.volumes.get r.Name with
  | none => ⟨responseError ("volume " ++ r.Name ++ " not found"), d, []⟩
  | some v => ⟨{ Mountpoint := v.Mountpoint }, d, []⟩

/-- Go `findRbdNum`: the output of the `grep` pipeline, trimmed, read as a number. -/
def findRbdNum (lib : GoLib) (out : Except OsError String) : Except OsError Int :=
  match out with
  | .error err => .error err
  | .ok output => atoi lib (trimSpace output)

/-- The shell command `findRbdNum` runs for a record. -/
def findRbdNumCmd (v : cephRbdVolume) : String :=
  "grep -l " ++ v.Rbd ++
    " /host/sys/devices/rbd/*/name | egrep -o '[0-9]+' | head -n1"

/-- Go `mountVolume`: the attach line is written to `/host/sys/bus/rbd/add`, the device
number is looked up and stored in the record, and the device is mounted. Returns the
record (changed through the pointer even when the mount fails), the error and the steps
made. -/
def cephRbdDriver.mountVolume (lib : GoLib) (v : cephRbdVolume) (env : mountEnv) :
    cephRbdVolume × Option OsError × List Effect :=
  let mountString := v.Hosts ++ " name=" ++ v.Username ++ ",secret=" ++ v.Secret ++ " " ++
    v.Pool ++ " " ++ v.Rbd
  match env.attach with
  | some err => (v, some err, [.attach mountString env.newDevice (some err)])
  | none =>
    match findRbdNum lib env.findOut with
    | .error err =>
      (v, some err,
        [.attach mountString env.newDevice none, .findNum (findRbdNumCmd v) env.findOut])
    | .ok num =>
      let v1 := { v with RbdNum := num }
      (v1, env.mountCmd,
        [.attach mountString env.newDevice none, .findNum (findRbdNumCmd v) env.findOut,
          .mountFs ("/dev/rbd" ++ toString v1.RbdNum) v1.Mountpoint env.mountCmd])

/-- Go `unmountVolume`: `umount` of the mountpoint, then the device number is written to
`/host/sys/bus/rbd/remove`. -/
def cephRbdDriver.unmountVolume (v : cephRbdVolume) (env : unmountEnv) :
    Option OsError × List Effect :=
  match env.umount with
  | some err => (some err, [.umountFs v.Mountpoint (some err)])
  | none => (env.detach, [.umountFs v.Mountpoint none, .detach v.RbdNum env.detach])

/-- The directory part of `Mount`: `os.Lstat` of the mountpoint, `os.MkdirAll` when it
does not exist, and the refusal of a path that is not a directory. Returns the text of
the error that ends the call, if any, and the steps made. -/
def Mount.directory (v : cephRbdVolume) (env : mountEnv) : Option String × List Effect :=
  match env.lstat with
  | .notExist =>
    match env.mkdirAll with
    | some err =>
      (some err.msg, [.lstat v.Mountpoint .notExist, .mkdirAll v.Mountpoint (some err)])
    | none => (none, [.lstat v.Mountpoint .notExist, .mkdirAll v.Mountpoint none])
  | .failed err => (some err.msg, [.lstat v.Mountpoint (.failed err)])
  | .found isDir =>
    if isDir then (none, [.lstat v.Mountpoint (.found true)])
    else (some (v.Mountpoint ++ " already exist and it's not a directory"),
      [.lstat v.Mountpoint (.found false)])

/-- Go `Mount`. -/
def cephRbdDriver.Mount (lib : GoLib) (d : cephRbdDriver) (r : MountRequest)
    (env : mountEnv) : Outcome :=
  match d.volumes.get r.Name with
  | none => ⟨responseError ("volume " ++ r.Name ++ " not found"), d, []⟩
  | some v =>
    if v.connections = 0 then
      match Mount.directory v env with
      | (some msg, effs) => ⟨responseError msg, d, effs⟩
      | (none, effs) =>
        match cephRbdDriver.mountVolume lib v env with
        | (v1, some err, effs2) =>
          ⟨responseError err.msg, { d with volumes := d.volumes.put r.Name v1 },
            effs ++ effs2⟩
        | (v1, none, effs2) =>
          let v2 := { v1 with connections := wrapInt (v1.connections + 1) }
          ⟨{ Mountpoint := v2.Mountpoint }, { d with volumes := d.volumes.put r.Name v2 },
            effs ++ effs2⟩
    else
      let v2 := { v with connections := wrapInt (v.connections + 1) }
      ⟨{ Mountpoint := v2.Mountpoint }, { d with volumes := d.volumes.put r.Name v2 }, []⟩

/-- Go `Unmount`. -/
def cephRbdDriver.Unmount (d : cephRbdDriver) (r : UnmountRequest) (env : unmountEnv) :
    Outcome :=
  match d.volumes.get r.Name with
  | none => ⟨responseError ("volume " ++ r.Name ++ " not found"), d, []⟩
  | some v =>
    let v1 := { v with connections := wrapInt (v.connections - 1) }
    if v1.connections ≤ 0 then
      match cephRbdDriver.unmountVolume v1 env with
      | (some err, effs) =>
        ⟨responseError err.msg, { d with volumes := d.volumes.put r.Name v1 }, effs⟩
      | (none, effs) =>
        ⟨{}, { d with volumes := d.volumes.put r.Name { v1 with connections := 0 } }, effs⟩
    else ⟨{}, { d with volumes := d.volumes.put r.Name v1 }, []⟩

/-- Go `Get`. -/
def cephRbdDriver.Get (d : cephRbdDriver) (r : Request) : Outcome :=
  match d.volumes.get r.Name with
  | none => ⟨responseError ("volume " ++ r.Name ++ " not found"), d, []⟩
  | some v => ⟨{ Volume := some ⟨r.Name, v.Mountpoint⟩ }, d, []⟩

/-- Go `Capabilities`. -/
def cephRbdDriver.Capabilities (d : cephRbdDriver) : Outcome :=
  ⟨{ Capabilities := ⟨"local"⟩ }, d, []⟩

/-- Go `List`: one entry per key of the table. -/
def cephRbdDriver.List (d : cephRbdDriver) : Outcome :=
  ⟨{ Volumes := d.volumes.map fun e => ⟨e.1, e.2.Mountpoint⟩ }, d, []⟩

/-! ## The driver in its surroundings -/

/-- The driver together with what it acts on: the state file and the host, where
`attached n` says that the device number `n` is attached (`/dev/rbdn` exists) and
`mounts p` lists the devices mounted at the path `p`, the last one mounted first (mounts on
one path stack, and the path shows the filesystem of the first). -/
structure World where
  d : cephRbdDriver
  file : stateFile
  attached : Int → Bool
  mounts : String → List String

/-- Effect of one external step on the surroundings. A successful attach write makes the
device number the kernel gives attached; a successful detach write of a number makes that
number unattached; a successful `mount` puts its device on top of the mounts at its path
and a successful `umount` takes the top one away from its path; a write of the state file
replaces its content (a failed one leaves what the outcome says). A failed step and a
lookup change nothing. (`umount` is run as a shell line, `sh -c "umount <mountpoint>"`: its
success is read as the `umount` of the mountpoint, which supposes a path that the shell
takes as one word.) Two volumes of the same image have the same mountpoint and may hold the
same device number: the steps of one then act on the path and the device of the other. -/
def World.observe (w : World) : Effect → World
  | .attach _ device none =>
    { w with attached := fun n => if n = device then true else w.attached n }
  | .detach num none =>
    { w with attached := fun n => if n = num then false else w.attached n }
  | .mountFs device mountpoint none =>
    { w with mounts := fun p => if p = mountpoint then device :: w.mounts p else w.mounts p }
  | .umountFs mountpoint none =>
    { w with mounts := fun p => if p = mountpoint then (w.mounts p).tail else w.mounts p }
  | .writeState _ data .ok => { w with file := .json data }
  | .writeState _ _ (.failed _ left) => { w with file := left }
  | _ => w

/-- A call of the plugin protocol that can change the table, with the outcomes of its
external steps. -/
inductive Call where
  | create (r : Request) (save : writeOutcome)
  | remove (r : Request) (env : removeEnv)
  | mount (r : MountRequest) (env : mountEnv)
  | unmount (r : UnmountRequest) (env : unmountEnv)

/-- The volume name a call is about. -/
def Call.name : Call → String
  | .create r _ => r.Name
  | .remove r _ => r.Name
  | .mount r _ => r.Name
  | .unmount r _ => r.Name

/-- The driver operation a call runs. -/
def Call.exec (lib : GoLib) (d : cephRbdDriver) : Call → Outcome
  | .create r save => d.Create lib r save
  | .remove r env => d.Remove r env
  | .mount r env => d.Mount lib r env
  | .unmount r env => d.Unmount r env

/-- One call: the driver operation runs and its external steps act on the surroundings. -/
def World.step (lib : GoLib) (w : World) (c : Call) : World :=
  (c.exec lib w.d).effects.foldl World.observe { w with d := (c.exec lib w.d).d }

/-- A sequence of calls, one after the other. -/
def World.run (lib : GoLib) (w : World) (cs : List Call) : World :=
  cs.foldl (World.step lib) w

/-- The driver at first start (`newCephRbdDriver` with no state file): an empty table,
nothing attached, nothing mounted. -/
def World.init (lib : GoLib) (root : String) : World :=
  { d := { root := lib.join [root, "volumes"],
           statePath := lib.join [root, "state", "ceph-rbd-state.json"],
           volumes := [] },
    file := .absent,
    attached := fun _ => false,
    mounts := fun _ => [] }

/-- The table after a sequence of calls. -/
def runCalls (lib : GoLib) (d : cephRbdDriver) (cs : List Call) : cephRbdDriver :=
  cs.foldl (fun d c => (c.exec lib d).d) d

/-- The call is a `Mount`. -/
def Call.isMount : Call → Bool
  | .mount _ _ => true
  | _ => false

/-- The call is an `Unmount`. -/
def Call.isUnmount : Call → Bool
  | .unmount _ _ => true
  | _ => false

/-- The directory step of a `Mount` goes through: the mountpoint is a directory, or it does
not exist and is created. -/
def mountEnv.dirReady (env : mountEnv) : Bool :=
  match env.lstat, env.mkdirAll with
  | .found true, _ => true
  | .notExist, none => true
  | _, _ => false

/-- The attach, device lookup and mount steps of a `Mount` succeed. -/
def mountEnv.attachOk (lib : GoLib) (env : mountEnv) : Bool :=
  env.attach.isNone && (findRbdNum lib env.findOut).toBool && env.mountCmd.isNone

/-- The unmount and detach steps of an `Unmount` succeed. -/
def unmountEnv.ok (env : unmountEnv) : Bool :=
  env.umount.isNone && env.detach.isNone

/-- Every external step of the call succeeds. -/
def Call.succeeds (lib : GoLib) : Call → Bool
  | .create _ .ok => true
  | .create _ (.failed _ _) => false
  | .remove _ env => env.removeAll.isNone &&
      (match env.save with
        | .ok => true
        | .failed _ _ => false)
  | .mount _ env => env.dirReady && env.attachOk lib
  | .unmount _ env => env.ok

/-- The reference count a sequence of calls leaves when it starts at `n`, every `Mount`
adds one and every `Unmount` takes one away unless the count is already 0. -/
def saturatingCount : Nat → List Call → Nat
  | n, [] => n
  | n, c :: cs =>
    if c.isMount then saturatingCount (n + 1) cs
    else if c.isUnmount then saturatingCount (n - 1) cs
    else saturatingCount n cs

/-! ## Concrete values, conditions on a call, invariants -/

/-- An instance of the library functions for evaluating concrete calls: `%q` on a text
without characters to escape, `filepath.Join` on clean elements, and the MD5 digests of
the image names `img1` and `img2` (every other text is given the digest of `img2`). -/
def sampleLib : GoLib where
  quote s := "\"" ++ s ++ "\""
  md5hex s := if s = "img1" then "a8a63b4d63a08aed720d0f5f249e07d9"
    else "fe5067706fde605fcc635835a1e52fc8"
  join xs := "/".intercalate xs

/-- The options of the end-to-end scenario, with the option names of the code. -/
def sampleOptions : List (String × String) :=
  [("pool", "rbd"), ("rbd", "img1"), ("hosts", "10.0.0.1"), ("username", "admin"),
    ("secret", "AQA...")]

/-- An empty driver rooted at `/mnt`, as `main` starts it when there is no state file. -/
def sampleDriver : cephRbdDriver :=
  { root := "/mnt/volumes", statePath := "/mnt/state/ceph-rbd-state.json", volumes := [] }

/-- The record `Create` stores for `sampleOptions`. -/
def sampleVolume : cephRbdVolume :=
  { Pool := "rbd", Rbd := "img1", Hosts := "10.0.0.1", Username := "admin",
    Secret := "AQA...", RbdNum := 0,
    Mountpoint := "/mnt/volumes/a8a63b4d63a08aed720d0f5f249e07d9", connections := 0 }

/-- A `Mount` environment in which every step succeeds: the mountpoint is a directory and
the device created and found is `rbd0`. -/
def okMount : mountEnv :=
  { lstat := .found true, mkdirAll := none, attach := none, newDevice := 0,
    findOut := .ok "0\n", mountCmd := none }

/-- The error of a command that exits with status 32, as `umount` and `mount` do. -/
def exit32 : OsError := ⟨"exit status 32", by decide⟩

/-- An `Unmount` environment in which both steps succeed. -/
def okUnmount : unmountEnv := { umount := none, detach := none }

/-- An `Unmount` environment in which `umount` fails. -/
def failUmount : unmountEnv := { umount := some exit32, detach := none }

/-- The sample driver after `Create("v1", sampleOptions)` with a successful state write. -/
def createdDriver : cephRbdDriver :=
  (sampleDriver.Create sampleLib ⟨"v1", sampleOptions⟩ .ok).d

/-- Two successful mounts followed by a successful unmount of `v1`. -/
def mountMountUnmount : List Call :=
  [.mount ⟨"v1", "c1"⟩ okMount, .mount ⟨"v1", "c2"⟩ okMount, .unmount ⟨"v1", "c1"⟩ okUnmount]

/-- A successful unmount of `v1` followed by a successful mount. -/
def unmountThenMount : List Call :=
  [.unmount ⟨"v1", "c1"⟩ okUnmount, .mount ⟨"v1", "c1"⟩ okMount]

/-- The step is an attach write that succeeded. -/
def Effect.attachOk : Effect → Bool
  | .attach _ _ none => true
  | _ => false

/-- The step is not a device lookup, a `mount`, a `umount` or a detach write that failed.
(A failed directory step or a failed attach write leaves nothing behind.) -/
def Effect.clean (lib : GoLib) : Effect → Bool
  | .findNum _ out => (findRbdNum lib out).toBool
  | .mountFs _ _ err => err.isNone
  | .umountFs _ err => err.isNone
  | .detach _ err => err.isNone
  | _ => true

/-- The call is not a `Create` over a record that is in use: the name is new or its record
has count 0. -/
def Call.noOverwriteInUse (w : World) : Call → Bool
  | .create r _ =>
    match w.d.volumes.get r.Name with
    | some v => decide (v.connections = 0)
    | none => true
  | _ => true

/-- The path of the device of a record, as `mountVolume` gives it to `mount`. -/
def cephRbdVolume.device (v : cephRbdVolume) : String :=
  "/dev/rbd" ++ toString v.RbdNum

/-- No other record in use holds the device number `num`: every record under another name
than `name` has a count of 0 or below, or another device number. -/
def volumeTable.othersFree (t : volumeTable) (name : String) (num : Int) : Bool :=
  t.all fun e => decide (e.1 = name) || decide (e.2.connections ≤ 0) || decide (e.2.RbdNum ≠ num)

/-- An `Unmount` of a record whose count is 0 or below (an `Unmount` that no `Mount` stands
against) runs its two steps with success, and the device number it detaches is not that of
another record in use. An `Unmount` of a record in use is not restricted. -/
def Call.unmountOk (w : World) : Call → Bool
  | .unmount r env =>
    match w.d.volumes.get r.Name with
    | some v => decide (0 < v.connections) || (env.ok && w.d.volumes.othersFree r.Name v.RbdNum)
    | none => true
  | _ => true

/-- The kernel and the lookup behave as the driver expects: when the attach write of a
`Mount` runs and succeeds, the number the kernel gives the new device is not that of a
device already attached, and the device lookup, if it succeeds, returns the number of a
device that is attached (the new one, or one attached before) and that no other record in
use holds. -/
def Call.kernelOk (lib : GoLib) (w : World) : Call → Bool
  | .mount r env =>
    !(w.d.Mount lib r env).effects.any Effect.attachOk ||
      (!w.attached env.newDevice &&
        match findRbdNum lib env.findOut with
        | .ok num =>
          (decide (num = env.newDevice) || w.attached num) &&
            w.d.volumes.othersFree r.Name num
        | .error _ => true)
  | _ => true

/-- The call is not a `Create` that succeeds in storing a record whose mountpoint is that of
a record under another name (as happens for two volumes of one image). -/
def Call.ownMountpoint (lib : GoLib) (w : World) : Call → Bool
  | .create r save =>
    decide ((w.d.Create lib r save).resp.Err ≠ "") ||
      match (w.d.Create lib r save).d.volumes.get r.Name with
      | some v1 =>
        w.d.volumes.all fun e =>
          decide (e.1 = r.Name) || decide (e.2.Mountpoint ≠ v1.Mountpoint)
      | none => true
  | _ => true

/-- The call keeps the volumes apart: an `Unmount` at count 0 succeeds and detaches no
device of another record, the kernel and the lookup behave as the driver expects, and no
record gets the mountpoint of another. -/
def Call.apart (lib : GoLib) (w : World) (c : Call) : Bool :=
  c.unmountOk w && c.kernelOk lib w && c.ownMountpoint lib w

/-- Every call of the sequence satisfies `P` in the state it is made in. -/
def World.allows (lib : GoLib) (P : World → Call → Bool) : World → List Call → Bool
  | _, [] => true
  | w, c :: cs => P w c && World.allows lib P (w.step lib c) cs

/-- The calls `Create v1`, a successful `Mount`, then an `Unmount` whose `umount` fails. -/
def createMountFailedUnmount : List Call :=
  [.create ⟨"v1", sampleOptions⟩ .ok, .mount ⟨"v1", "c1"⟩ okMount,
    .unmount ⟨"v1", "c1"⟩ failUmount]

/-- The call keeps the volumes apart, none of the lookup, `mount`, `umount` and detach
steps it runs fails, and it does not overwrite a record that is in use. -/
def Call.tidy (lib : GoLib) (w : World) (c : Call) : Bool :=
  c.apart lib w && (c.exec lib w.d).effects.all (Effect.clean lib) && c.noOverwriteInUse w

/-- The calls `Create v1`, two successful mounts and a successful unmount. -/
def createMountMountUnmount : List Call :=
  .create ⟨"v1", sampleOptions⟩ .ok :: mountMountUnmount

/-- The step is a write to `/host/sys/bus/rbd/add` (an attach). -/
def Effect.isAttach : Effect → Bool
  | .attach _ _ _ => true
  | _ => false

/-- The step is a run of the `mount` command. -/
def Effect.isMountFs : Effect → Bool
  | .mountFs _ _ _ => true
  | _ => false

/-- The step is a device number lookup. -/
def Effect.isFindNum : Effect → Bool
  | .findNum _ _ => true
  | _ => false

/-- The step is a run of `umount` or a write to `/host/sys/bus/rbd/remove` (a detach). -/
def Effect.isRelease : Effect → Bool
  | .umountFs _ _ => true
  | .detach _ _ => true
  | _ => false

/-- A `Mount` environment in which the mountpoint exists and is not a directory. -/
def notDirMount : mountEnv :=
  { lstat := .found false, mkdirAll := none, attach := none, newDevice := 0,
    findOut := .ok "0\n", mountCmd := none }

/-- A `Mount` environment in which the device found is `rbd3` and `mount` fails. -/
def failMountCmd : mountEnv :=
  { lstat := .found true, mkdirAll := none, attach := none, newDevice := 3,
    findOut := .ok "3\n", mountCmd := some exit32 }

/-- A `Remove` environment in which every step succeeds. -/
def okRemove : removeEnv := { removeAll := none, save := .ok }

/-- The sample driver with `v1` created and mounted once. -/
def mountedDriver : cephRbdDriver :=
  (createdDriver.Mount sampleLib ⟨"v1", "c1"⟩ okMount).d

/-- The option names `Create` recognises, in the order in which it checks that their
values are present. -/
def requiredOptions : List String := ["pool", "rbd", "hosts", "username", "secret"]

/-- The names supplied in an options map. -/
def optionKeys (opts : List (String × String)) : List String := opts.map Prod.fst

/-- Go map read `r.Options[k]`: the value stored under `k`, the empty text when there is
none. -/
def optionValue (opts : List (String × String)) (k : String) : String :=
  match opts.find? (fun e => e.1 = k) with
  | some e => e.2
  | none => ""

/-- The field of a record that the option `k` sets. -/
def cephRbdVolume.field (v : cephRbdVolume) (k : String) : String :=
  if k = "pool" then v.Pool
  else if k = "rbd" then v.Rbd
  else if k = "hosts" then v.Hosts
  else if k = "username" then v.Username
  else if k = "secret" then v.Secret
  else ""

/-- The first required option, in the order of the checks, whose value is empty or which
is not supplied. -/
def firstEmpty (opts : List (String × String)) : Option String :=
  requiredOptions.find? (fun k => optionValue opts k = "")

/-- The first required option, in the order of the checks, which is not supplied. -/
def firstAbsent (opts : List (String × String)) : Option String :=
  requiredOptions.find? (fun k => k ∉ optionKeys opts)

/-- An options map that supplies `pool` with an empty value and nothing else. -/
def emptyPoolOptions : List (String × String) := [("pool", "")]

/-- The options of the negative scenario: `pool` only. -/
def poolOnlyOptions : List (String × String) := [("pool", "rbd")]

/-- An options map with an option the driver does not know, iterated after `pool`. -/
def unknownOptions : List (String × String) := [("pool", "rbd"), ("size", "10G")]

/-- The sample options as a map may iterate them: in another order. -/
def shuffledOptions : List (String × String) :=
  [("secret", "AQA..."), ("hosts", "10.0.0.1"), ("rbd", "img1"), ("pool", "rbd"),
    ("username", "admin")]

/-- The step is a write of the state file. -/
def Effect.isWriteState : Effect → Bool
  | .writeState _ _ _ => true
  | _ => false

/-- The table a restarted driver loads from the state file the surroundings hold, when the
start succeeds. -/
def World.reload (lib : GoLib) (root : String) (w : World) : Option volumeTable :=
  match newCephRbdDriver lib root w.file with
  | .ok d => some d.volumes
  | .error _ => none

/-- The calls `Create v1` and a successful `Mount`. -/
def createMount : List Call :=
  [.create ⟨"v1", sampleOptions⟩ .ok, .mount ⟨"v1", "c1"⟩ okMount]

/-- An `Unmount` of `v1` whose `umount` command fails. -/
def failedUnmount : List Call := [.unmount ⟨"v1", "c1"⟩ failUmount]

/-- The calls `Create v1` and an `Unmount` whose `umount` command fails. -/
def createFailedUnmount : List Call :=
  .create ⟨"v1", sampleOptions⟩ .ok :: failedUnmount

/-- Counts are within `[0, n]`; a record with a positive count has its device number
attached and its device on top of the mounts at its mountpoint; records under different
names have different mountpoints and, when both counts are positive, different device
numbers. -/
def World.Safe (n : Nat) (w : World) : Prop :=
  (∀ name v, w.d.volumes.get name = some v →
    0 ≤ v.connections ∧ v.connections ≤ n ∧
      (0 < v.connections →
        w.attached v.RbdNum = true ∧ (w.mounts v.Mountpoint).head? = some v.device)) ∧
  (∀ n1 n2 v1 v2, n1 ≠ n2 → w.d.volumes.get n1 = some v1 → w.d.volumes.get n2 = some v2 →
    v1.Mountpoint ≠ v2.Mountpoint) ∧
  ∀ n1 n2 v1 v2, n1 ≠ n2 → w.d.volumes.get n1 = some v1 → w.d.volumes.get n2 = some v2 →
    0 < v1.connections → 0 < v2.connections → v1.RbdNum ≠ v2.RbdNum

/-- As `Safe`, and the host holds nothing else: every attached device number is that of a
record with a positive count, and every path with a mount is the mountpoint of a record
with a positive count and holds the device of that record and nothing else. -/
def World.Exact (n : Nat) (w : World) : Prop :=
  w.Safe n ∧
  (∀ k, w.attached k = true →
    ∃ name v, w.d.volumes.get name = some v ∧ 0 < v.connections ∧ v.RbdNum = k) ∧
  ∀ p, w.mounts p ≠ [] →
    ∃ name v, w.d.volumes.get name = some v ∧ 0 < v.connections ∧ v.Mountpoint = p ∧
      w.mounts p = [v.device]

/-- The options of the end-to-end scenario with the option names as the scenario writes
them: `image` and `user` where the code reads `rbd` and `username`. -/
def scenarioOptions : List (String × String) :=
  [("pool", "rbd"), ("image", "img1"), ("hosts", "10.0.0.1"), ("user", "admin"),
    ("secret", "AQA...")]

/-- Options for the image `img1` in another pool, on another cluster, with another user. -/
def otherPoolOptions : List (String × String) :=
  [("pool", "backup"), ("rbd", "img1"), ("hosts", "10.0.0.2"), ("username", "guest"),
    ("secret", "BQB...")]

/-- A `Mount` environment in which every step succeeds and the device found is `rbd3`. -/
def okMountRbd3 : mountEnv :=
  { lstat := .found true, mkdirAll := none, attach := none, newDevice := 3,
    findOut := .ok "3\n", mountCmd := none }

/-- The calls `Create v1`, a successful `Mount` that finds `rbd3`, and a successful
`Unmount`. -/
def createMountUnmount : List Call :=
  [.create ⟨"v1", sampleOptions⟩ .ok, .mount ⟨"v1", "c1"⟩ okMountRbd3,
    .unmount ⟨"v1", "c1"⟩ okUnmount]

/-- The call `Create v1` alone. -/
def createOnly : List Call := [.create ⟨"v1", sampleOptions⟩ .ok]

/-- The sample driver with `v1` created and then `v2` created for the same image in
another pool. -/
def twoVolumeDriver : cephRbdDriver :=
  (createdDriver.Create sampleLib ⟨"v2", otherPoolOptions⟩ .ok).d

/-- The record has every connection parameter and a mountpoint: none of the six texts is
empty. -/
def cephRbdVolume.complete (v : cephRbdVolume) : Prop :=
  v.Pool ≠ "" ∧ v.Rbd ≠ "" ∧ v.Hosts ≠ "" ∧ v.Username ≠ "" ∧ v.Secret ≠ "" ∧
    v.Mountpoint ≠ ""

/-- The encoded record has every connection parameter and a mountpoint. -/
def volumeJSON.complete (j : volumeJSON) : Prop :=
  j.Pool ≠ "" ∧ j.Rbd ≠ "" ∧ j.Hosts ≠ "" ∧ j.Username ≠ "" ∧ j.Secret ≠ "" ∧
    j.Mountpoint ≠ ""

/-- The data of a state file write, when the step is one. -/
def Effect.written : Effect → Option (List (String × volumeJSON))
  | .writeState _ data _ => some data
  | _ => none

/-- The options map with the single unknown option `size`, after the five known ones. -/
def sizeOptions : List (String × String) := sampleOptions ++ [("size", "10G")]

/-- The same options map with the unknown option named `quota` and iterated first. -/
def quotaOptions : List (String × String) := ("quota", "10G") :: sampleOptions

/-- Two records agree on what `Create` fixed: pool, image, hosts, user, secret and
mountpoint. -/
def cephRbdVolume.sameParams (v v1 : cephRbdVolume) : Prop :=
  v1.Pool = v.Pool ∧ v1.Rbd = v.Rbd ∧ v1.Hosts = v.Hosts ∧ v1.Username = v.Username ∧
    v1.Secret = v.Secret ∧ v1.Mountpoint = v.Mountpoint

/-- The calls `Create v1`, `Create v2` for the same image in another pool, a successful
`Mount` of `v1` and a successful `Unmount` of `v2`. -/
def sharedImageCalls : List Call :=
  [.create ⟨"v1", sampleOptions⟩ .ok, .create ⟨"v2", otherPoolOptions⟩ .ok,
    .mount ⟨"v1", "c1"⟩ okMount, .unmount ⟨"v2", "c2"⟩ okUnmount]

/-- The calls `Create v1`, `Create v2` for the same image in another pool, a successful
`Mount` of each (devices `rbd0` and `rbd3`) and a successful `Unmount` of `v1`. -/
def sharedImageStacked : List Call :=
  [.create ⟨"v1", sampleOptions⟩ .ok, .create ⟨"v2", otherPoolOptions⟩ .ok,
    .mount ⟨"v1", "c1"⟩ okMount, .mount ⟨"v2", "c2"⟩ okMountRbd3,
    .unmount ⟨"v1", "c1"⟩ okUnmount]

/-- A `Mount` environment in which every step succeeds, the kernel gives the new device the
number 1 and the lookup returns 0, the number of a device of the image attached before. -/
def staleLookupMount : mountEnv :=
  { lstat := .found true, mkdirAll := none, attach := none, newDevice := 1,
    findOut := .ok "0\n", mountCmd := none }

/-- The calls `Create v1`, a successful `Mount`, an `Unmount` whose `umount` fails, and a
`Mount` whose lookup returns the device that is still attached. -/
def failedUnmountThenMount : List Call :=
  createMountFailedUnmount ++ [.mount ⟨"v1", "c2"⟩ staleLookupMount]

/-- The calls `Create v1`, a successful `Mount`, an `Unmount` whose `umount` fails, and a
second `Unmount` whose steps succeed. -/
def failedUnmountRetried : List Call :=
  createMountFailedUnmount ++ [.unmount ⟨"v1", "c1"⟩ okUnmount]

/-- A `Mount` environment in which the attach write succeeds and the device lookup finds
nothing (the pipeline prints an empty line). -/
def failLookup : mountEnv :=
  { lstat := .found true, mkdirAll := none, attach := none, newDevice := 0,
    findOut := .ok "\n", mountCmd := none }

/-! ## Lemmas on the table and on machine integers -/

theorem volumeTable.get_put (t : volumeTable) (k m : String) (v : cephRbdVolume) :
    (t.put k v).get m = if m = k then some v else t.get m := by
  induction t with
  | nil =>
    by_cases h : m = k
    · simp [volumeTable.put, volumeTable.get, h]
    · have h2 : ¬ k = m := fun e => h e.symm
      simp [volumeTable.put, volumeTable.get, h, h2]
  | cons e t ih =>
    obtain ⟨k0, x⟩ := e
    by_cases h0 : k0 = k
    · subst h0
      by_cases h : m = k0
      · simp [volumeTable.put, volumeTable.get, h]
      · have h2 : ¬ k0 = m := fun e => h e.symm
        simp [volumeTable.put, volumeTable.get, h, h2]
    · by_cases h : k0 = m
      · subst h
        simp [volumeTable.put, volumeTable.get, h0]
      · simp [volumeTable.put, volumeTable.get, h0, h, ih]

theorem volumeTable.get_delete (t : volumeTable) (k m : String) :
    (t.delete k).get m = if m = k then none else t.get m := by
  induction t with
  | nil => simp [volumeTable.delete, volumeTable.get]
  | cons e t ih =>
    obtain ⟨k0, x⟩ := e
    by_cases h0 : k0 = k
    · subst h0
      by_cases h : m = k0
      · subst h
        simpa [volumeTable.delete, volumeTable.get] using ih
      · have h2 : ¬ k0 = m := fun e => h e.symm
        simp [volumeTable.delete, volumeTable.get, h, h2, ih]
    · by_cases h : k0 = m
      · subst h
        simp [volumeTable.delete, volumeTable.get, h0]
      · simp [volumeTable.delete, volumeTable.get, h0, h, ih]

theorem volumeTable.put_get_self (t : volumeTable) (k : String) (v : cephRbdVolume)
    (h : t.get k = some v) : t.put k v = t := by
  induction t with
  | nil => simp [volumeTable.get] at h
  | cons e t ih =>
    obtain ⟨k0, x⟩ := e
    by_cases h0 : k0 = k
    · subst h0
      simp [volumeTable.get] at h
      simp [volumeTable.put, h]
    · simp [volumeTable.get, h0] at h
      simp [volumeTable.put, h0, ih h]

theorem wrapInt_eq (x : Int) (h1 : -9223372036854775808 ≤ x) (h2 : x < 9223372036854775808) :
    wrapInt x = x := by
  unfold wrapInt
  omega

theorem OsError.msg_ne (e : OsError) : e.msg ≠ "" := e.nonempty

theorem Mount_ok (lib : GoLib) (d : cephRbdDriver) (r : MountRequest) (env : mountEnv)
    (v : cephRbdVolume) (hget : d.volumes.get r.Name = some v)
    (hdir : env.dirReady = true) (hatt : env.attachOk lib = true) :
    ∃ v1, (d.Mount lib r env).d.volumes.get r.Name = some v1 ∧
      v1.connections = wrapInt (v.connections + 1) ∧ (d.Mount lib r env).resp.Err = "" := by
  obtain ⟨ls, mk, att, nd, fo, mc⟩ := env
  simp only [mountEnv.attachOk, Bool.and_eq_true, Option.isNone_iff_eq_none] at hatt
  obtain ⟨⟨ha, hf⟩, hm⟩ := hatt
  subst ha hm
  cases hfind : findRbdNum lib fo with
  | error e => simp [hfind, Except.toBool] at hf
  | ok num =>
    unfold cephRbdDriver.Mount
    rw [hget]
    by_cases hc : v.connections = 0
    · simp only [hc, if_true]
      cases ls with
      | notExist =>
        cases mk with
        | some e => simp [mountEnv.dirReady] at hdir
        | none =>
          simp [Mount.directory, cephRbdDriver.mountVolume, hfind, volumeTable.get_put, hc]
      | failed e => simp [mountEnv.dirReady] at hdir
      | found isDir =>
        cases isDir with
        | false => simp [mountEnv.dirReady] at hdir
        | true =>
          simp [Mount.directory, cephRbdDriver.mountVolume, hfind, volumeTable.get_put, hc]
    · simp [hc, volumeTable.get_put]

theorem Unmount_ok (d : cephRbdDriver) (r : UnmountRequest) (env : unmountEnv)
    (v : cephRbdVolume) (hget : d.volumes.get r.Name = some v) (hok : env.ok = true) :
    ∃ v1, (d.Unmount r env).d.volumes.get r.Name = some v1 ∧
      v1.connections = (if wrapInt (v.connections - 1) ≤ 0 then 0
        else wrapInt (v.connections - 1)) ∧ (d.Unmount r env).resp.Err = "" := by
  obtain ⟨um, dt⟩ := env
  simp only [unmountEnv.ok, Bool.and_eq_true, Option.isNone_iff_eq_none] at hok
  obtain ⟨hu, hd⟩ := hok
  subst hu hd
  unfold cephRbdDriver.Unmount
  rw [hget]
  by_cases hc : wrapInt (v.connections - 1) ≤ 0
  · simp [hc, cephRbdDriver.unmountVolume, volumeTable.get_put]
  · simp [hc, volumeTable.get_put]

theorem append_ne_empty_left (a b : String) (h : a ≠ "") : a ++ b ≠ "" := by
  intro hab
  apply h
  have h1 := congrArg String.length hab
  rw [String.length_append] at h1
  have h3 : "".length = 0 := rfl
  have h2 : a.length = 0 := by omega
  exact String.ext (List.length_eq_zero.mp h2)

theorem append_ne_empty_right (a b : String) (h : b ≠ "") : a ++ b ≠ "" := by
  intro hab
  apply h
  have h1 := congrArg String.length hab
  rw [String.length_append] at h1
  have h3 : "".length = 0 := rfl
  have h2 : b.length = 0 := by omega
  exact String.ext (List.length_eq_zero.mp h2)

theorem wrapInt_two : wrapInt (1 + 1) = 2 := by decide

/-! ## One call seen from the surroundings -/

theorem observe_d (effs : List Effect) :
    ∀ w : World, (effs.foldl World.observe w).d = w.d := by
  induction effs with
  | nil => intro w; rfl
  | cons e es ih =>
    intro w
    simp only [List.foldl_cons]
    rw [ih]
    unfold World.observe
    split <;> rfl

theorem step_d (lib : GoLib) (w : World) (c : Call) :
    (w.step lib c).d = (c.exec lib w.d).d := by
  unfold World.step
  rw [observe_d]

/-- A `Create` leaves the host as it is. -/
theorem step_host_create (lib : GoLib) (w : World) (r : Request) (s : writeOutcome) :
    (w.step lib (.create r s)).attached = w.attached ∧
      (w.step lib (.create r s)).mounts = w.mounts := by
  simp only [World.step, Call.exec, cephRbdDriver.Create]
  split
  · exact ⟨rfl, rfl⟩
  · (repeat' split) <;> try exact ⟨rfl, rfl⟩
    cases s <;> exact ⟨rfl, rfl⟩

/-- A `Remove` leaves the host as it is. -/
theorem step_host_remove (lib : GoLib) (w : World) (r : Request) (e : removeEnv) :
    (w.step lib (.remove r e)).attached = w.attached ∧
      (w.step lib (.remove r e)).mounts = w.mounts := by
  obtain ⟨ra, sv⟩ := e
  simp only [World.step, Call.exec, cephRbdDriver.Remove]
  (repeat' split) <;> try exact ⟨rfl, rfl⟩
  cases sv <;> exact ⟨rfl, rfl⟩

theorem wrapInt_one : wrapInt 1 = 1 := by decide

theorem exec_frame (lib : GoLib) (d : cephRbdDriver) (c : Call) (m : String)
    (hm : m ≠ c.name) : (c.exec lib d).d.volumes.get m = d.volumes.get m := by
  cases c with
  | create r s =>
    simp only [Call.name] at hm
    simp only [Call.exec, cephRbdDriver.Create]
    split
    · rfl
    · (repeat' split) <;> simp [volumeTable.get_put, hm]
  | remove r e =>
    simp only [Call.name] at hm
    simp only [Call.exec, cephRbdDriver.Remove]
    (repeat' split) <;> simp [volumeTable.get_delete, hm]
  | mount r e =>
    simp only [Call.name] at hm
    simp only [Call.exec, cephRbdDriver.Mount]
    (repeat' split) <;> simp [volumeTable.get_put, hm]
  | unmount r e =>
    simp only [Call.name] at hm
    simp only [Call.exec, cephRbdDriver.Unmount]
    (repeat' split) <;> simp [volumeTable.get_put, hm]

/-- The option loop sets the five option fields only. -/
theorem loop_keeps (lib : GoLib) (opts : List (String × String)) :
    ∀ v v1 : cephRbdVolume, Create.loop lib opts v = .ok v1 →
      v1.connections = v.connections ∧ v1.RbdNum = v.RbdNum ∧
        v1.Mountpoint = v.Mountpoint := by
  induction opts with
  | nil =>
    intro v v1 h
    simp only [Create.loop, Except.ok.injEq] at h
    subst h
    exact ⟨rfl, rfl, rfl⟩
  | cons e es ih =>
    intro v v1 h
    obtain ⟨key, val⟩ := e
    simp only [Create.loop] at h
    split at h
    · exact (ih _ _ h : _)
    · split at h
      · exact (ih _ _ h : _)
      · split at h
        · exact (ih _ _ h : _)
        · split at h
          · exact (ih _ _ h : _)
          · split at h
            · exact (ih _ _ h : _)
            · cases h

/-- What `Create` does to the record under its own name: nothing, or a record with count 0. -/
theorem create_own (lib : GoLib) (d : cephRbdDriver) (r : Request) (s : writeOutcome) :
    (d.Create lib r s).d = d ∨
      ∃ v1, (d.Create lib r s).d.volumes.get r.Name = some v1 ∧ v1.connections = 0 := by
  simp only [cephRbdDriver.Create]
  split
  · exact Or.inl rfl
  · rename_i v hv
    (repeat' split) <;> try exact Or.inl rfl
    right
    exact ⟨{ v with Mountpoint := lib.join [d.root, lib.md5hex v.Rbd] },
      by simp [volumeTable.get_put], (loop_keeps lib _ _ _ hv).1⟩

/-- What `Remove` does to the record under its own name: nothing, or the record is gone and
its count was 0. -/
theorem remove_own (d : cephRbdDriver) (r : Request) (e : removeEnv) :
    (d.Remove r e).d = d ∨
      ((d.Remove r e).d.volumes.get r.Name = none ∧
        ∃ v, d.volumes.get r.Name = some v ∧ v.connections = 0) := by
  simp only [cephRbdDriver.Remove]
  split
  · exact Or.inl rfl
  · rename_i v hv
    split
    · exact Or.inl rfl
    · rename_i hc
      split
      · exact Or.inl rfl
      · right
        exact ⟨by simp [volumeTable.get_delete], v, hv, by simpa using hc⟩

/-! ## C1: reference counting -/

/-- The count after a run of successful `Mount` and `Unmount` calls on one volume. -/
theorem runCalls_count (lib : GoLib) (name : String) (cs : List Call) :
    ∀ (d : cephRbdDriver) (v : cephRbdVolume) (n : Nat),
      d.volumes.get name = some v → v.connections = (n : Int) →
      (∀ c ∈ cs, c.name = name ∧ (c.isMount = true ∨ c.isUnmount = true) ∧
        c.succeeds lib = true) →
      n + cs.length < 9223372036854775808 →
      ∃ v1, (runCalls lib d cs).volumes.get name = some v1 ∧
        v1.connections = (saturatingCount n cs : Int) := by
  induction cs with
  | nil =>
    intro d v n hget hn _ _
    exact ⟨v, hget, hn⟩
  | cons c cs ih =>
    intro d v n hget hn hcs hlen
    have hc := hcs c (List.mem_cons_self _ _)
    have htl : ∀ c1 ∈ cs, c1.name = name ∧ (c1.isMount = true ∨ c1.isUnmount = true) ∧
        c1.succeeds lib = true := fun c1 h1 => hcs c1 (List.mem_cons_of_mem _ h1)
    simp only [List.length_cons] at hlen
    cases c with
    | create r s => simp [Call.isMount, Call.isUnmount] at hc
    | remove r e => simp [Call.isMount, Call.isUnmount] at hc
    | mount r env =>
      obtain ⟨hname, _, hs⟩ := hc
      simp only [Call.name] at hname
      simp only [Call.succeeds, Bool.and_eq_true] at hs
      rw [← hname] at hget
      obtain ⟨v1, hg1, hc1, _⟩ := Mount_ok lib d r env v hget hs.1 hs.2
      rw [hname] at hg1
      have hw : v1.connections = ((n + 1 : Nat) : Int) := by
        rw [hc1, hn, wrapInt_eq] <;> omega
      obtain ⟨v2, hg2, hc2⟩ := ih _ v1 (n + 1) hg1 hw htl (by omega)
      exact ⟨v2, by simpa [runCalls, Call.exec] using hg2,
        by simpa [saturatingCount, Call.isMount] using hc2⟩
    | unmount r env =>
      obtain ⟨hname, _, hs⟩ := hc
      simp only [Call.name] at hname
      simp only [Call.succeeds] at hs
      rw [← hname] at hget
      obtain ⟨v1, hg1, hc1, _⟩ := Unmount_ok d r env v hget hs
      rw [hname] at hg1
      have hw : v1.connections = ((n - 1 : Nat) : Int) := by
        rw [hc1, hn, wrapInt_eq] <;> [skip; omega; omega]
        split <;> omega
      obtain ⟨v2, hg2, hc2⟩ := ih _ v1 (n - 1) hg1 hw htl (by omega)
      exact ⟨v2, by simpa [runCalls, Call.exec] using hg2,
        by simpa [saturatingCount, Call.isMount, Call.isUnmount] using hc2⟩

/-- The saturating count is never below the plain difference. -/
theorem saturatingCount_ge (cs : List Call) :
    ∀ n : Nat, (n : Int) + cs.countP Call.isMount - cs.countP Call.isUnmount ≤
      (saturatingCount n cs : Int) := by
  induction cs with
  | nil => intro n; simp [saturatingCount]
  | cons c cs ih =>
    intro n
    cases c with
    | create r s =>
      have := ih n
      simpa [saturatingCount, Call.isMount, Call.isUnmount, List.countP_cons] using this
    | remove r e =>
      have := ih n
      simpa [saturatingCount, Call.isMount, Call.isUnmount, List.countP_cons] using this
    | mount r env =>
      have := ih (n + 1)
      simp only [saturatingCount, Call.isMount, Call.isUnmount, List.countP_cons, if_true]
      push_cast at this ⊢
      simp
      omega
    | unmount r env =>
      have := ih (n - 1)
      simp only [saturatingCount, Call.isMount, Call.isUnmount, List.countP_cons, if_true]
      push_cast at this ⊢
      simp
      omega

/-- When no `Unmount` meets a count of 0 the saturating count is the plain difference. -/
theorem saturatingCount_eq (cs : List Call) :
    ∀ n : Nat, (∀ k, (cs.take k).countP Call.isUnmount ≤
        n + (cs.take k).countP Call.isMount) →
      (saturatingCount n cs : Int) =
        (n : Int) + cs.countP Call.isMount - cs.countP Call.isUnmount := by
  induction cs with
  | nil => intro n _; simp [saturatingCount]
  | cons c cs ih =>
    intro n h
    cases c with
    | create r s =>
      have := ih n (fun k => by
        simpa [Call.isMount, Call.isUnmount, List.countP_cons] using h (k + 1))
      simpa [saturatingCount, Call.isMount, Call.isUnmount, List.countP_cons] using this
    | remove r e =>
      have := ih n (fun k => by
        simpa [Call.isMount, Call.isUnmount, List.countP_cons] using h (k + 1))
      simpa [saturatingCount, Call.isMount, Call.isUnmount, List.countP_cons] using this
    | mount r env =>
      have := ih (n + 1) (fun k => by
        have := h (k + 1)
        simp [Call.isMount, Call.isUnmount, List.countP_cons] at this
        omega)
      simp only [saturatingCount, Call.isMount, Call.isUnmount, List.countP_cons, if_true]
      push_cast at this ⊢
      simp
      omega
    | unmount r env =>
      have h1 := h 1
      simp [Call.isMount, Call.isUnmount, List.countP_cons] at h1
      have := ih (n - 1) (fun k => by
        have := h (k + 1)
        simp [Call.isMount, Call.isUnmount, List.countP_cons] at this
        omega)
      simp only [saturatingCount, Call.isMount, Call.isUnmount, List.countP_cons, if_true]
      push_cast at this ⊢
      simp
      omega

/-- C1 (amended). For a volume whose count is 0 and every sequence of fewer than `2^63`
`Mount` and `Unmount` calls on it whose external steps all succeed, the count after the
sequence is the saturating count (one up per `Mount`, one down per `Unmount` unless it is
already 0); it is at least `max(0, N - M)`, and it equals `max(0, N - M)` when no prefix
of the sequence holds more `Unmount` than `Mount` calls. -/
theorem mount_unmount_count (lib : GoLib) (d : cephRbdDriver) (name : String)
    (v : cephRbdVolume) (cs : List Call)
    (hget : d.volumes.get name = some v) (hfresh : v.connections = 0)
    (hcalls : ∀ c ∈ cs, c.name = name ∧ (c.isMount = true ∨ c.isUnmount = true) ∧
      c.succeeds lib = true)
    (hlen : cs.length < 9223372036854775808) :
    ∃ v1, (runCalls lib d cs).volumes.get name = some v1 ∧
      v1.connections = (saturatingCount 0 cs : Int) ∧
      max 0 ((cs.countP Call.isMount : Int) - cs.countP Call.isUnmount) ≤ v1.connections ∧
      ((∀ k, (cs.take k).countP Call.isUnmount ≤ (cs.take k).countP Call.isMount) →
        v1.connections =
          max 0 ((cs.countP Call.isMount : Int) - cs.countP Call.isUnmount)) := by
  obtain ⟨v1, hg, hc⟩ := runCalls_count lib name cs d v 0 hget (by simpa using hfresh)
    hcalls (by omega)
  refine ⟨v1, hg, hc, ?_, ?_⟩
  · have := saturatingCount_ge cs 0
    rw [hc]
    simp only [Nat.cast_zero, zero_add] at this
    omega
  · intro hpre
    have := saturatingCount_eq cs 0 (fun k => by simpa using hpre k)
    have h2 := saturatingCount_ge cs 0
    rw [hc]
    simp only [Nat.cast_zero, zero_add] at this h2
    omega

/-- C1, witness: `Create`, then two mounts and one unmount of `v1`. -/
theorem mount_unmount_count_witness :
    ∃ v1, (runCalls sampleLib createdDriver mountMountUnmount).volumes.get "v1" = some v1 ∧
      v1.connections = (saturatingCount 0 mountMountUnmount : Int) ∧
      max 0 ((mountMountUnmount.countP Call.isMount : Int) -
        mountMountUnmount.countP Call.isUnmount) ≤ v1.connections ∧
      ((∀ k, (mountMountUnmount.take k).countP Call.isUnmount ≤
          (mountMountUnmount.take k).countP Call.isMount) →
        v1.connections = max 0 ((mountMountUnmount.countP Call.isMount : Int) -
          mountMountUnmount.countP Call.isUnmount)) :=
  mount_unmount_count sampleLib createdDriver "v1" sampleVolume mountMountUnmount
    (by decide) (by decide) (by decide) (by decide)

/-- C1 as stated fails: on the freshly created `v1`, one successful `Unmount` followed by one
successful `Mount` (N = M = 1) leaves the count at 1, not at `max(0, N - M) = 0`. -/
theorem mount_unmount_count_counterexample :
    createdDriver.volumes.get "v1" = some sampleVolume ∧ sampleVolume.connections = 0 ∧
    (∀ c ∈ unmountThenMount, c.name = "v1" ∧ (c.isMount = true ∨ c.isUnmount = true) ∧
      c.succeeds sampleLib = true) ∧
    ((runCalls sampleLib createdDriver unmountThenMount).volumes.get "v1").map
      (fun v => v.connections) = some 1 ∧
    max 0 ((unmountThenMount.countP Call.isMount : Int) -
      unmountThenMount.countP Call.isUnmount) = 0 := by
  decide

/-! ## C3: a failed first mount -/

/-- C3. For a record whose count is 0: when the mountpoint exists and is not a directory,
or the attach step fails (the write to `rbd/add` fails, or the lookup of the device number
that follows it fails), or the `mount` step fails, and also when the `Lstat` of the
mountpoint fails or the mountpoint does not exist and cannot be made, `Mount` returns an
error, with no mountpoint in the response, and the count of the record is still 0; the
record is as before, except that its device number may have been set by the lookup. -/
theorem mount_failure_keeps_zero (lib : GoLib) (d : cephRbdDriver) (r : MountRequest)
    (env : mountEnv) (v : cephRbdVolume)
    (hget : d.volumes.get r.Name = some v) (hzero : v.connections = 0)
    (hfail : env.lstat = .found false ∨ env.attach.isSome = true ∨
      (findRbdNum lib env.findOut).toBool = false ∨ env.mountCmd.isSome = true ∨
      (∃ e, env.lstat = .failed e) ∨
      (env.lstat = .notExist ∧ env.mkdirAll.isSome = true)) :
    (d.Mount lib r env).resp.Err ≠ "" ∧ (d.Mount lib r env).resp.Mountpoint = "" ∧
      ∃ v1, (d.Mount lib r env).d.volumes.get r.Name = some v1 ∧ v1.connections = 0 ∧
        { v1 with RbdNum := v.RbdNum } = v := by
  obtain ⟨ls, mk, att, nd, fo, mc⟩ := env
  simp only at hfail
  have hnd : v.Mountpoint ++ " already exist and it's not a directory" ≠ "" :=
    append_ne_empty_right _ _ (by decide)
  cases ls with
  | failed e =>
    exact ⟨by simpa [cephRbdDriver.Mount, hget, hzero, Mount.directory, responseError]
      using e.nonempty, by
      simp [cephRbdDriver.Mount, hget, hzero, Mount.directory, responseError,
        cephRbdDriver.mountVolume], v, by
      simp [cephRbdDriver.Mount, hget, hzero, Mount.directory], hzero, by cases v; rfl⟩
  | found isDir =>
    cases isDir with
    | false =>
      exact ⟨by simpa [cephRbdDriver.Mount, hget, hzero, Mount.directory, responseError]
        using hnd, by
        simp [cephRbdDriver.Mount, hget, hzero, Mount.directory, responseError], v, by
        simp [cephRbdDriver.Mount, hget, hzero, Mount.directory], hzero, by cases v; rfl⟩
    | true =>
      cases att with
      | some e =>
        exact ⟨by simpa [cephRbdDriver.Mount, hget, hzero, Mount.directory, responseError,
          cephRbdDriver.mountVolume] using e.nonempty, by
      simp [cephRbdDriver.Mount, hget, hzero, Mount.directory, responseError,
        cephRbdDriver.mountVolume], v, by
          simp [cephRbdDriver.Mount, hget, hzero, Mount.directory,
            cephRbdDriver.mountVolume, volumeTable.get_put], hzero, by cases v; rfl⟩
      | none =>
        cases hfind : findRbdNum lib fo with
        | error e =>
          exact ⟨by simpa [cephRbdDriver.Mount, hget, hzero, Mount.directory, responseError,
            cephRbdDriver.mountVolume, hfind] using e.nonempty, by
            simp [cephRbdDriver.Mount, hget, hzero, Mount.directory, responseError,
              cephRbdDriver.mountVolume, hfind], v, by
            simp [cephRbdDriver.Mount, hget, hzero, Mount.directory,
              cephRbdDriver.mountVolume, volumeTable.get_put, hfind], hzero, by cases v; rfl⟩
        | ok num =>
          cases mc with
          | some e =>
            exact ⟨by simpa [cephRbdDriver.Mount, hget, hzero, Mount.directory,
              responseError, cephRbdDriver.mountVolume, hfind] using e.nonempty, by
              simp [cephRbdDriver.Mount, hget, hzero, Mount.directory, responseError,
                cephRbdDriver.mountVolume, hfind],
              { v with RbdNum := num }, by
              simp [cephRbdDriver.Mount, hget, hzero, Mount.directory,
                cephRbdDriver.mountVolume, volumeTable.get_put, hfind], hzero, by cases v; rfl⟩
          | none => simp [hfind, Except.toBool] at hfail
  | notExist =>
    cases mk with
    | some e =>
      exact ⟨by simpa [cephRbdDriver.Mount, hget, hzero, Mount.directory, responseError]
        using e.nonempty, by
      simp [cephRbdDriver.Mount, hget, hzero, Mount.directory, responseError,
        cephRbdDriver.mountVolume], v, by
        simp [cephRbdDriver.Mount, hget, hzero, Mount.directory], hzero, by cases v; rfl⟩
    | none =>
      cases att with
      | some e =>
        exact ⟨by simpa [cephRbdDriver.Mount, hget, hzero, Mount.directory, responseError,
          cephRbdDriver.mountVolume] using e.nonempty, by
      simp [cephRbdDriver.Mount, hget, hzero, Mount.directory, responseError,
        cephRbdDriver.mountVolume], v, by
          simp [cephRbdDriver.Mount, hget, hzero, Mount.directory,
            cephRbdDriver.mountVolume, volumeTable.get_put], hzero, by cases v; rfl⟩
      | none =>
        cases hfind : findRbdNum lib fo with
        | error e =>
          exact ⟨by simpa [cephRbdDriver.Mount, hget, hzero, Mount.directory, responseError,
            cephRbdDriver.mountVolume, hfind] using e.nonempty, by
            simp [cephRbdDriver.Mount, hget, hzero, Mount.directory, responseError,
              cephRbdDriver.mountVolume, hfind], v, by
            simp [cephRbdDriver.Mount, hget, hzero, Mount.directory,
              cephRbdDriver.mountVolume, volumeTable.get_put, hfind], hzero, by cases v; rfl⟩
        | ok num =>
          cases mc with
          | some e =>
            exact ⟨by simpa [cephRbdDriver.Mount, hget, hzero, Mount.directory,
              responseError, cephRbdDriver.mountVolume, hfind] using e.nonempty, by
              simp [cephRbdDriver.Mount, hget, hzero, Mount.directory, responseError,
                cephRbdDriver.mountVolume, hfind],
              { v with RbdNum := num }, by
              simp [cephRbdDriver.Mount, hget, hzero, Mount.directory,
                cephRbdDriver.mountVolume, volumeTable.get_put, hfind], hzero, by cases v; rfl⟩
          | none => simp [hfind, Except.toBool] at hfail

/-- C3, witness: on the freshly created `v1`, a `Mount` whose write to `rbd/add` succeeds
and whose lookup of the device number finds nothing. -/
theorem mount_failure_keeps_zero_witness :
    (createdDriver.Mount sampleLib ⟨"v1", "c1"⟩ failLookup).resp.Err ≠ "" ∧
      (createdDriver.Mount sampleLib ⟨"v1", "c1"⟩ failLookup).resp.Mountpoint = "" ∧
      ∃ v1, (createdDriver.Mount sampleLib ⟨"v1", "c1"⟩ failLookup).d.volumes.get "v1"
        = some v1 ∧ v1.connections = 0 ∧
          { v1 with RbdNum := sampleVolume.RbdNum } = sampleVolume :=
  mount_failure_keeps_zero sampleLib createdDriver ⟨"v1", "c1"⟩ failLookup sampleVolume
    (by decide) (by decide) (Or.inr (Or.inr (Or.inl (by decide))))

/-! ## C4: attach and mount on the first reference only -/

/-- A `Mount` of a record whose count is not 0 makes no external step. -/
theorem Mount_positive (lib : GoLib) (d : cephRbdDriver) (r : MountRequest) (env : mountEnv)
    (v : cephRbdVolume) (hget : d.volumes.get r.Name = some v) (hc : v.connections ≠ 0) :
    (d.Mount lib r env).resp = { Mountpoint := v.Mountpoint } ∧
      (d.Mount lib r env).d.volumes =
        d.volumes.put r.Name { v with connections := wrapInt (v.connections + 1) } ∧
      (d.Mount lib r env).effects = [] := by
  simp [cephRbdDriver.Mount, hget, hc]

/-- A `Mount` of a record whose count is 0 that returns no error has attached, looked up
and mounted exactly once. -/
theorem Mount_zero_success (lib : GoLib) (d : cephRbdDriver) (r : MountRequest)
    (env : mountEnv) (v : cephRbdVolume) (hget : d.volumes.get r.Name = some v)
    (hzero : v.connections = 0) (hok : (d.Mount lib r env).resp.Err = "") :
    ∃ num, findRbdNum lib env.findOut = .ok num ∧
      (d.Mount lib r env).resp = { Mountpoint := v.Mountpoint } ∧
      (d.Mount lib r env).d.volumes =
        d.volumes.put r.Name { v with RbdNum := num, connections := 1 } ∧
      (d.Mount lib r env).effects.countP Effect.isAttach = 1 ∧
      (d.Mount lib r env).effects.countP Effect.isFindNum = 1 ∧
      (d.Mount lib r env).effects.countP Effect.isMountFs = 1 := by
  obtain ⟨ls, mk, att, nd, fo, mc⟩ := env
  have hnd : v.Mountpoint ++ " already exist and it's not a directory" ≠ "" :=
    append_ne_empty_right _ _ (by decide)
  cases ls with
  | failed e =>
    simp [cephRbdDriver.Mount, hget, hzero, Mount.directory, responseError] at hok
    exact absurd hok e.nonempty
  | found isDir =>
    cases isDir with
    | false =>
      simp [cephRbdDriver.Mount, hget, hzero, Mount.directory, responseError] at hok
      exact absurd hok hnd
    | true =>
      cases att with
      | some e =>
        simp [cephRbdDriver.Mount, hget, hzero, Mount.directory, responseError,
          cephRbdDriver.mountVolume] at hok
        exact absurd hok e.nonempty
      | none =>
        cases hfind : findRbdNum lib fo with
        | error e =>
          simp [cephRbdDriver.Mount, hget, hzero, Mount.directory, responseError,
            cephRbdDriver.mountVolume, hfind] at hok
          exact absurd hok e.nonempty
        | ok num =>
          cases mc with
          | some e =>
            simp [cephRbdDriver.Mount, hget, hzero, Mount.directory, responseError,
              cephRbdDriver.mountVolume, hfind] at hok
            exact absurd hok e.nonempty
          | none =>
            refine ⟨num, rfl, ?_⟩
            simp [cephRbdDriver.Mount, hget, hzero, Mount.directory,
              cephRbdDriver.mountVolume, hfind, wrapInt_one, Effect.isAttach,
              Effect.isFindNum, Effect.isMountFs]
  | notExist =>
    cases mk with
    | some e =>
      simp [cephRbdDriver.Mount, hget, hzero, Mount.directory, responseError] at hok
      exact absurd hok e.nonempty
    | none =>
      cases att with
      | some e =>
        simp [cephRbdDriver.Mount, hget, hzero, Mount.directory, responseError,
          cephRbdDriver.mountVolume] at hok
        exact absurd hok e.nonempty
      | none =>
        cases hfind : findRbdNum lib fo with
        | error e =>
          simp [cephRbdDriver.Mount, hget, hzero, Mount.directory, responseError,
            cephRbdDriver.mountVolume, hfind] at hok
          exact absurd hok e.nonempty
        | ok num =>
          cases mc with
          | some e =>
            simp [cephRbdDriver.Mount, hget, hzero, Mount.directory, responseError,
              cephRbdDriver.mountVolume, hfind] at hok
            exact absurd hok e.nonempty
          | none =>
            refine ⟨num, rfl, ?_⟩
            simp [cephRbdDriver.Mount, hget, hzero, Mount.directory,
              cephRbdDriver.mountVolume, hfind, wrapInt_one, Effect.isAttach,
              Effect.isFindNum, Effect.isMountFs]

/-- C4. Attach and mount happen on the 0 to 1 transition only. For a record whose count is
0, two consecutive `Mount` calls of which the first returns no error: the second returns no
error either and makes no external step, the two calls together make exactly one attach,
one device lookup and one `mount`, both return the mountpoint of the record, the device
number is the one found by the first call and the count ends at 2. For a record whose
count is above 0, `Mount` returns no error, makes no external step (no attach, no mount)
and leaves the device number as it is. -/
theorem mount_attaches_once (lib : GoLib) (d : cephRbdDriver) (r : MountRequest)
    (env1 env2 : mountEnv) (v : cephRbdVolume) (hget : d.volumes.get r.Name = some v) :
    (v.connections = 0 → (d.Mount lib r env1).resp.Err = "" →
      ((d.Mount lib r env1).d.Mount lib r env2).resp.Err = "" ∧
      ((d.Mount lib r env1).d.Mount lib r env2).effects = [] ∧
      ((d.Mount lib r env1).effects ++
        ((d.Mount lib r env1).d.Mount lib r env2).effects).countP Effect.isAttach = 1 ∧
      ((d.Mount lib r env1).effects ++
        ((d.Mount lib r env1).d.Mount lib r env2).effects).countP Effect.isFindNum = 1 ∧
      ((d.Mount lib r env1).effects ++
        ((d.Mount lib r env1).d.Mount lib r env2).effects).countP Effect.isMountFs = 1 ∧
      (d.Mount lib r env1).resp.Mountpoint = v.Mountpoint ∧
      ((d.Mount lib r env1).d.Mount lib r env2).resp.Mountpoint = v.Mountpoint ∧
      ∃ num v1 v2, findRbdNum lib env1.findOut = .ok num ∧
        (d.Mount lib r env1).d.volumes.get r.Name = some v1 ∧
        v1.RbdNum = num ∧ v1.connections = 1 ∧
        ((d.Mount lib r env1).d.Mount lib r env2).d.volumes.get r.Name = some v2 ∧
        v2.RbdNum = num ∧ v2.connections = 2) ∧
    (0 < v.connections →
      (d.Mount lib r env1).resp.Err = "" ∧
      (d.Mount lib r env1).resp.Mountpoint = v.Mountpoint ∧
      (d.Mount lib r env1).effects = [] ∧
      ∃ v1, (d.Mount lib r env1).d.volumes.get r.Name = some v1 ∧ v1.RbdNum = v.RbdNum) := by
  constructor
  · intro hzero hok
    obtain ⟨num, hfind, hresp, hvol, ha, hf, hm⟩ :=
      Mount_zero_success lib d r env1 v hget hzero hok
    have hget1 : (d.Mount lib r env1).d.volumes.get r.Name =
        some { v with RbdNum := num, connections := 1 } := by
      rw [hvol, volumeTable.get_put]
      simp
    obtain ⟨hresp2, hvol2, heff2⟩ :=
      Mount_positive lib (d.Mount lib r env1).d r env2 _ hget1 (by simp)
    refine ⟨by rw [hresp2], heff2, ?_, ?_, ?_, by rw [hresp], by rw [hresp2], num,
      { v with RbdNum := num, connections := 1 },
      { v with RbdNum := num, connections := wrapInt (1 + 1) },
      hfind, hget1, rfl, rfl, ?_, ?_, ?_⟩
    · rw [heff2, List.append_nil, ha]
    · rw [heff2, List.append_nil, hf]
    · rw [heff2, List.append_nil, hm]
    · rw [hvol2, volumeTable.get_put]
      simp
    · rfl
    · exact wrapInt_two
  · intro hpos
    obtain ⟨hresp, hvol, heff⟩ := Mount_positive lib d r env1 v hget (by omega)
    refine ⟨by rw [hresp], by rw [hresp], heff,
      { v with connections := wrapInt (v.connections + 1) }, ?_, ?_⟩
    · rw [hvol, volumeTable.get_put]
      simp
    · rfl

/-- C4, witness: two successful mounts of the freshly created `v1`, and a mount of `v1`
when it is already mounted once. -/
theorem mount_attaches_once_witness :
    ((createdDriver.Mount sampleLib ⟨"v1", "c1"⟩ okMount).d.Mount sampleLib ⟨"v1", "c1"⟩
        okMount).resp.Err = "" ∧
      (mountedDriver.Mount sampleLib ⟨"v1", "c1"⟩ okMount).effects = [] :=
  ⟨((mount_attaches_once sampleLib createdDriver ⟨"v1", "c1"⟩ okMount okMount sampleVolume
      (by decide)).1 (by decide) (by decide)).1,
    ((mount_attaches_once sampleLib mountedDriver ⟨"v1", "c1"⟩ okMount okMount
      { sampleVolume with connections := 1 } (by decide)).2 (by decide)).2.2.1⟩

/-! ## C5: Remove -/

/-- C5. For a name present in the table: when the count of its record is above 0, `Remove`
returns the in-use error, makes no external step and leaves the driver, hence the whole
table, unchanged; when the count is 0 and the deletion of the mountpoint directory
succeeds, `Remove` returns no error, the name is no longer in the table and the record
under every other name is unchanged. -/
theorem remove_in_use_or_gone (d : cephRbdDriver) (r : Request) (env : removeEnv)
    (v : cephRbdVolume) (hget : d.volumes.get r.Name = some v) :
    (0 < v.connections →
      (d.Remove r env).resp.Err =
          "volume " ++ r.Name ++ " is currently used by a container" ∧
        (d.Remove r env).resp.Err ≠ "" ∧
        (d.Remove r env).d = d ∧ (d.Remove r env).effects = []) ∧
    (v.connections = 0 → env.removeAll = none →
      (d.Remove r env).resp.Err = "" ∧
        (d.Remove r env).d.volumes.get r.Name = none ∧
        (∀ m, m ≠ r.Name → (d.Remove r env).d.volumes.get m = d.volumes.get m) ∧
        (d.Remove r env).effects =
          [.removeAll v.Mountpoint none, (d.Remove r env).d.saveState env.save]) := by
  constructor
  · intro hpos
    have hne : v.connections ≠ 0 := by omega
    have herr : (d.Remove r env).resp.Err =
        "volume " ++ r.Name ++ " is currently used by a container" := by
      simp [cephRbdDriver.Remove, hget, hne, responseError]
    refine ⟨herr, ?_, ?_, ?_⟩
    · rw [herr, String.append_assoc]
      exact append_ne_empty_left _ _ (by decide)
    · simp [cephRbdDriver.Remove, hget, hne]
    · simp [cephRbdDriver.Remove, hget, hne]
  · intro hzero hrm
    refine ⟨?_, ?_, ?_, ?_⟩
    · simp [cephRbdDriver.Remove, hget, hzero, hrm]
    · simp [cephRbdDriver.Remove, hget, hzero, hrm, volumeTable.get_delete]
    · intro m hm
      simp [cephRbdDriver.Remove, hget, hzero, hrm, volumeTable.get_delete, hm]
    · simp [cephRbdDriver.Remove, hget, hzero, hrm]

/-- C5, witness: `Remove v1` while `v1` is mounted, and on the freshly created `v1`. -/
theorem remove_in_use_or_gone_witness :
    (mountedDriver.Remove ⟨"v1", []⟩ okRemove).d = mountedDriver ∧
      (createdDriver.Remove ⟨"v1", []⟩ okRemove).d.volumes.get "v1" = none :=
  ⟨((remove_in_use_or_gone mountedDriver ⟨"v1", []⟩ okRemove
      { sampleVolume with connections := 1 } (by decide)).1 (by decide)).2.2.1,
    ((remove_in_use_or_gone createdDriver ⟨"v1", []⟩ okRemove sampleVolume
      (by decide)).2 (by decide) rfl).2.1⟩

/-! ## C6: a required option is missing -/

theorem optionValue_cons (key val : String) (rest : List (String × String)) (k : String) :
    optionValue ((key, val) :: rest) k = if key = k then val else optionValue rest k := by
  by_cases h : key = k
  · simp [optionValue, List.find?, h]
  · simp [optionValue, List.find?, h]

theorem optionValue_absent (opts : List (String × String)) (k : String)
    (h : k ∉ optionKeys opts) : optionValue opts k = "" := by
  induction opts with
  | nil => rfl
  | cons e es ih =>
    obtain ⟨key, val⟩ := e
    simp only [optionKeys, List.map_cons, List.mem_cons, not_or] at h
    rw [optionValue_cons, if_neg (fun e => h.1 e.symm)]
    exact ih h.2

theorem optionValue_of_mem (opts : List (String × String)) (k x : String)
    (hnd : (optionKeys opts).Nodup) (h : (k, x) ∈ opts) : optionValue opts k = x := by
  induction opts with
  | nil => cases h
  | cons e es ih =>
    obtain ⟨key, val⟩ := e
    simp only [optionKeys, List.map_cons, List.nodup_cons] at hnd
    rw [optionValue_cons]
    rcases List.mem_cons.mp h with h1 | h1
    · cases h1
      simp
    · have hne : key ≠ k := by
        intro e
        subst e
        exact hnd.1 (List.mem_map.mpr ⟨(key, x), h1, rfl⟩)
      rw [if_neg hne]
      exact ih hnd.2 h1

/-- On a map whose names are all recognised the option loop ends without error and each
option field holds the value supplied for it, or what it held before. -/
theorem loop_known (lib : GoLib) (opts : List (String × String)) :
    ∀ v : cephRbdVolume, (∀ e ∈ opts, e.1 ∈ requiredOptions) → (optionKeys opts).Nodup →
      ∃ v1, Create.loop lib opts v = .ok v1 ∧
        ∀ k ∈ requiredOptions,
          v1.field k = if k ∈ optionKeys opts then optionValue opts k else v.field k := by
  induction opts with
  | nil =>
    intro v _ _
    exact ⟨v, rfl, fun k _ => by simp [optionKeys]⟩
  | cons e es ih =>
    intro v hknown hnd
    obtain ⟨key, val⟩ := e
    have hkey := hknown (key, val) (List.mem_cons_self _ _)
    have hrest : ∀ e ∈ es, e.1 ∈ requiredOptions :=
      fun e he => hknown e (List.mem_cons_of_mem _ he)
    simp only [optionKeys, List.map_cons, List.nodup_cons] at hnd
    have hstep : ∃ v0 : cephRbdVolume,
        Create.loop lib ((key, val) :: es) v = Create.loop lib es v0 ∧
        ∀ k ∈ requiredOptions, v0.field k = if k = key then val else v.field k := by
      simp only [requiredOptions, List.mem_cons, List.mem_singleton, List.not_mem_nil,
        or_false] at hkey
      rcases hkey with h | h | h | h | h <;> subst h
      · refine ⟨{ v with Pool := val }, by simp [Create.loop], ?_⟩
        intro k hk
        simp only [requiredOptions, List.mem_cons, List.mem_singleton, List.not_mem_nil,
          or_false] at hk
        rcases hk with h | h | h | h | h <;> subst h <;> simp [cephRbdVolume.field]
      · refine ⟨{ v with Rbd := val }, by simp [Create.loop], ?_⟩
        intro k hk
        simp only [requiredOptions, List.mem_cons, List.mem_singleton, List.not_mem_nil,
          or_false] at hk
        rcases hk with h | h | h | h | h <;> subst h <;> simp [cephRbdVolume.field]
      · refine ⟨{ v with Hosts := val }, by simp [Create.loop], ?_⟩
        intro k hk
        simp only [requiredOptions, List.mem_cons, List.mem_singleton, List.not_mem_nil,
          or_false] at hk
        rcases hk with h | h | h | h | h <;> subst h <;> simp [cephRbdVolume.field]
      · refine ⟨{ v with Username := val }, by simp [Create.loop], ?_⟩
        intro k hk
        simp only [requiredOptions, List.mem_cons, List.mem_singleton, List.not_mem_nil,
          or_false] at hk
        rcases hk with h | h | h | h | h <;> subst h <;> simp [cephRbdVolume.field]
      · refine ⟨{ v with Secret := val }, by simp [Create.loop], ?_⟩
        intro k hk
        simp only [requiredOptions, List.mem_cons, List.mem_singleton, List.not_mem_nil,
          or_false] at hk
        rcases hk with h | h | h | h | h <;> subst h <;> simp [cephRbdVolume.field]
    obtain ⟨v0, hloop, hv0⟩ := hstep
    obtain ⟨v1, hv1, hf⟩ := ih v0 hrest hnd.2
    refine ⟨v1, by rw [hloop, hv1], ?_⟩
    intro k hk
    rw [hf k hk, hv0 k hk, optionValue_cons]
    simp only [optionKeys, List.map_cons, List.mem_cons]
    by_cases hkk : k = key
    · subst hkk
      have : k ∉ List.map Prod.fst es := hnd.1
      rw [if_neg this]
      simp
    · have hkk2 : ¬ key = k := fun e => hkk e.symm
      simp only [hkk, hkk2, false_or, if_false]

theorem field_empty (k : String) : ({} : cephRbdVolume).field k = "" := by
  simp [cephRbdVolume.field]

/-- On a map whose names are all recognised, the record built by `Create` holds under each
option the value read from the map. -/
theorem loop_known_fresh (lib : GoLib) (opts : List (String × String))
    (hknown : ∀ e ∈ opts, e.1 ∈ requiredOptions) (hnd : (optionKeys opts).Nodup) :
    Create.loop lib opts {} =
      .ok ⟨optionValue opts "pool", optionValue opts "rbd", optionValue opts "hosts",
        optionValue opts "username", optionValue opts "secret", 0, "", 0⟩ := by
  obtain ⟨v1, hv1, hf⟩ := loop_known lib opts {} hknown hnd
  obtain ⟨h1, h2, h3⟩ := loop_keeps lib opts {} v1 hv1
  have hval : ∀ k ∈ requiredOptions, v1.field k = optionValue opts k := by
    intro k hk
    rw [hf k hk]
    split
    · rfl
    · rename_i h
      rw [field_empty, optionValue_absent opts k h]
  have e1 := hval "pool" (by decide)
  have e2 := hval "rbd" (by decide)
  have e3 := hval "hosts" (by decide)
  have e4 := hval "username" (by decide)
  have e5 := hval "secret" (by decide)
  simp [cephRbdVolume.field] at e1 e2 e3 e4 e5
  rw [hv1]
  cases v1
  simp at h1 h2 h3 e1 e2 e3 e4 e5
  simp [h1, h2, h3, e1, e2, e3, e4, e5]

theorem firstEmpty_eq_firstAbsent (opts : List (String × String))
    (hvals : ∀ e ∈ opts, e.2 ≠ "") (hnd : (optionKeys opts).Nodup) :
    firstEmpty opts = firstAbsent opts := by
  have key : ∀ k, optionValue opts k = "" ↔ k ∉ optionKeys opts := by
    intro k
    constructor
    · intro h hk
      obtain ⟨e, he, hek⟩ := List.mem_map.mp hk
      have := optionValue_of_mem opts k e.2 hnd (by rw [← hek]; exact he)
      exact hvals e he (by rw [← this, h])
    · exact optionValue_absent opts k
  unfold firstEmpty firstAbsent
  congr 1
  funext k
  exact decide_eq_decide.mpr (key k)

/-- C6 (amended). For an options map whose names are all recognised and in which at least
one of the five required options is absent, `Create` returns an error naming the first
option, in the order pool, rbd, hosts, username, secret, that is absent or has an empty
value; it makes no external step and leaves the driver, hence the table, unchanged. When no
supplied value is empty that option is the first absent one. -/
theorem create_missing_option (lib : GoLib) (d : cephRbdDriver) (r : Request)
    (save : writeOutcome)
    (hnd : (optionKeys r.Options).Nodup)
    (hknown : ∀ e ∈ r.Options, e.1 ∈ requiredOptions)
    (habsent : ∃ k ∈ requiredOptions, k ∉ optionKeys r.Options) :
    ∃ k, firstEmpty r.Options = some k ∧
      (d.Create lib r save).resp.Err = "'" ++ k ++ "' option required" ∧
      (d.Create lib r save).resp.Err ≠ "" ∧
      (d.Create lib r save).d = d ∧ (d.Create lib r save).effects = [] ∧
      ((∀ e ∈ r.Options, e.2 ≠ "") → firstAbsent r.Options = some k) := by
  have hloop := loop_known_fresh lib r.Options hknown hnd
  obtain ⟨k0, hk0, hk0abs⟩ := habsent
  have hk0e := optionValue_absent r.Options k0 hk0abs
  have hsome : ∃ k, firstEmpty r.Options = some k := by
    cases h : firstEmpty r.Options with
    | some k => exact ⟨k, rfl⟩
    | none =>
      have := List.find?_eq_none.mp h k0 hk0
      simp [hk0e] at this
  obtain ⟨k, hk⟩ := hsome
  refine ⟨k, hk, ?_⟩
  have hfin : (d.Create lib r save).resp.Err = "'" ++ k ++ "' option required" ∧
      (d.Create lib r save).d = d ∧ (d.Create lib r save).effects = [] := by
    simp only [firstEmpty, requiredOptions, List.find?] at hk
    simp only [cephRbdDriver.Create, hloop]
    by_cases h1 : optionValue r.Options "pool" = ""
    · simp [h1] at hk
      subst hk
      simp [h1, responseError]
    · by_cases h2 : optionValue r.Options "rbd" = ""
      · simp [h1, h2] at hk
        subst hk
        simp [h1, h2, responseError]
      · by_cases h3 : optionValue r.Options "hosts" = ""
        · simp [h1, h2, h3] at hk
          subst hk
          simp [h1, h2, h3, responseError]
        · by_cases h4 : optionValue r.Options "username" = ""
          · simp [h1, h2, h3, h4] at hk
            subst hk
            simp [h1, h2, h3, h4, responseError]
          · by_cases h5 : optionValue r.Options "secret" = ""
            · simp [h1, h2, h3, h4, h5] at hk
              subst hk
              simp [h1, h2, h3, h4, h5, responseError]
            · simp [h1, h2, h3, h4, h5] at hk
  refine ⟨hfin.1, ?_, hfin.2.1, hfin.2.2, ?_⟩
  · rw [hfin.1, String.append_assoc]
    exact append_ne_empty_left _ _ (by decide)
  · intro hvals
    rw [← firstEmpty_eq_firstAbsent r.Options hvals hnd]
    exact hk

/-- C6, witness: the negative scenario `Create("v2", {pool: "rbd"})` names the `rbd`
option. -/
theorem create_missing_option_witness :
    ∃ k, firstEmpty poolOnlyOptions = some k ∧
      (sampleDriver.Create sampleLib ⟨"v2", poolOnlyOptions⟩ .ok).resp.Err =
        "'" ++ k ++ "' option required" ∧
      (sampleDriver.Create sampleLib ⟨"v2", poolOnlyOptions⟩ .ok).resp.Err ≠ "" ∧
      (sampleDriver.Create sampleLib ⟨"v2", poolOnlyOptions⟩ .ok).d = sampleDriver ∧
      (sampleDriver.Create sampleLib ⟨"v2", poolOnlyOptions⟩ .ok).effects = [] ∧
      ((∀ e ∈ poolOnlyOptions, e.2 ≠ "") → firstAbsent poolOnlyOptions = some k) :=
  create_missing_option sampleLib sampleDriver ⟨"v2", poolOnlyOptions⟩ .ok
    (by decide) (by decide) (by decide)

/-- C6 as stated fails: for the options map that supplies `pool` with an empty value and
nothing else, every name is recognised and the first absent option is `rbd`, yet the error
of `Create` names `pool`. -/
theorem create_missing_option_counterexample :
    (∀ e ∈ emptyPoolOptions, e.1 ∈ requiredOptions) ∧
    firstAbsent emptyPoolOptions = some "rbd" ∧
    (sampleDriver.Create sampleLib ⟨"v2", emptyPoolOptions⟩ .ok).resp.Err =
      "'pool' option required" ∧
    (sampleDriver.Create sampleLib ⟨"v2", emptyPoolOptions⟩ .ok).resp.Err ≠
      "'rbd' option required" := by
  decide

/-! ## C7: an unknown option -/

/-- On a map with an unrecognised name the option loop ends at the first such name met,
with the unknown-option text built from its value. -/
theorem loop_unknown (lib : GoLib) (opts : List (String × String)) :
    ∀ v : cephRbdVolume, (∃ e ∈ opts, e.1 ∉ requiredOptions) →
      ∃ pre e post, opts = pre ++ e :: post ∧ (∀ x ∈ pre, x.1 ∈ requiredOptions) ∧
        e.1 ∉ requiredOptions ∧
        Create.loop lib opts v = .error ("unknown option " ++ lib.quote e.2) := by
  induction opts with
  | nil =>
    intro v h
    obtain ⟨e, he, _⟩ := h
    cases he
  | cons e0 es ih =>
    intro v h
    obtain ⟨key, val⟩ := e0
    by_cases hkey : key ∈ requiredOptions
    · have hrest : ∃ e ∈ es, e.1 ∉ requiredOptions := by
        obtain ⟨e, he, hu⟩ := h
        rcases List.mem_cons.mp he with h1 | h1
        · subst h1
          exact absurd hkey hu
        · exact ⟨e, h1, hu⟩
      have hstep : ∃ v0 : cephRbdVolume,
          Create.loop lib ((key, val) :: es) v = Create.loop lib es v0 := by
        simp only [requiredOptions, List.mem_cons, List.mem_singleton, List.not_mem_nil,
          or_false] at hkey
        rcases hkey with h | h | h | h | h <;> subst h
        · exact ⟨{ v with Pool := val }, by simp [Create.loop]⟩
        · exact ⟨{ v with Rbd := val }, by simp [Create.loop]⟩
        · exact ⟨{ v with Hosts := val }, by simp [Create.loop]⟩
        · exact ⟨{ v with Username := val }, by simp [Create.loop]⟩
        · exact ⟨{ v with Secret := val }, by simp [Create.loop]⟩
      obtain ⟨v0, hv0⟩ := hstep
      obtain ⟨pre, e, post, hsplit, hpre, hu, hloop⟩ := ih v0 hrest
      refine ⟨(key, val) :: pre, e, post, by rw [hsplit]; rfl, ?_, hu, by rw [hv0, hloop]⟩
      intro x hx
      rcases List.mem_cons.mp hx with h1 | h1
      · subst h1
        exact hkey
      · exact hpre x h1
    · refine ⟨[], (key, val), es, rfl, fun x hx => absurd hx (List.not_mem_nil x), hkey, ?_⟩
      simp only [requiredOptions, List.mem_cons, List.mem_singleton, List.not_mem_nil,
        or_false, not_or] at hkey
      simp [Create.loop, hkey]

/-- C7. For an options map with at least one name outside pool, rbd, hosts, username and
secret, in whatever order the map is iterated and whatever else it holds or lacks,
`Create` returns the unknown-option error, built from the first such entry met, makes no
external step and leaves the driver, hence the table, unchanged. -/
theorem create_unknown_option (lib : GoLib) (d : cephRbdDriver) (r : Request)
    (save : writeOutcome) (hunk : ∃ e ∈ r.Options, e.1 ∉ requiredOptions) :
    ∃ pre e post, r.Options = pre ++ e :: post ∧ (∀ x ∈ pre, x.1 ∈ requiredOptions) ∧
      e.1 ∉ requiredOptions ∧
      (d.Create lib r save).resp.Err = "unknown option " ++ lib.quote e.2 ∧
      (d.Create lib r save).resp.Err ≠ "" ∧
      (d.Create lib r save).d = d ∧ (d.Create lib r save).effects = [] := by
  obtain ⟨pre, e, post, hsplit, hpre, hu, hloop⟩ := loop_unknown lib r.Options {} hunk
  have herr : (d.Create lib r save).resp.Err = "unknown option " ++ lib.quote e.2 := by
    simp [cephRbdDriver.Create, hloop, responseError]
  refine ⟨pre, e, post, hsplit, hpre, hu, herr, ?_, ?_, ?_⟩
  · rw [herr]
    exact append_ne_empty_left _ _ (by decide)
  · simp [cephRbdDriver.Create, hloop]
  · simp [cephRbdDriver.Create, hloop]

/-- C7, witness: `Create` with the options `pool` and `size`. -/
theorem create_unknown_option_witness :
    ∃ pre e post, unknownOptions = pre ++ e :: post ∧
      (∀ x ∈ pre, x.1 ∈ requiredOptions) ∧ e.1 ∉ requiredOptions ∧
      (createdDriver.Create sampleLib ⟨"v2", unknownOptions⟩ .ok).resp.Err =
        "unknown option " ++ sampleLib.quote e.2 ∧
      (createdDriver.Create sampleLib ⟨"v2", unknownOptions⟩ .ok).resp.Err ≠ "" ∧
      (createdDriver.Create sampleLib ⟨"v2", unknownOptions⟩ .ok).d = createdDriver ∧
      (createdDriver.Create sampleLib ⟨"v2", unknownOptions⟩ .ok).effects = [] :=
  create_unknown_option sampleLib createdDriver ⟨"v2", unknownOptions⟩ .ok (by decide)

/-! ## C8: a successful Create -/

/-- C8. For an options map holding exactly the five required options, all with non-empty
values, in whatever order it is iterated: `Create` returns no error; the table then maps
the name to the record of those five values with device number 0, count 0 and the
mountpoint `join(root, md5hex(rbd))`, whatever was stored under the name before; the
record under every other name is unchanged; the only external step is the write of the
state file (no attach, no mount). -/
theorem create_stores_record (lib : GoLib) (d : cephRbdDriver) (r : Request)
    (save : writeOutcome) (pool rbd hosts username secret : String)
    (hopts : r.Options.Perm [("pool", pool), ("rbd", rbd), ("hosts", hosts),
      ("username", username), ("secret", secret)])
    (hpool : pool ≠ "") (hrbd : rbd ≠ "") (hhosts : hosts ≠ "") (huser : username ≠ "")
    (hsecret : secret ≠ "") :
    (d.Create lib r save).resp.Err = "" ∧
      (d.Create lib r save).d.volumes.get r.Name =
        some ⟨pool, rbd, hosts, username, secret, 0, lib.join [d.root, lib.md5hex rbd], 0⟩ ∧
      (∀ m, m ≠ r.Name → (d.Create lib r save).d.volumes.get m = d.volumes.get m) ∧
      (d.Create lib r save).effects = [(d.Create lib r save).d.saveState save] ∧
      (d.Create lib r save).effects.countP Effect.isAttach = 0 ∧
      (d.Create lib r save).effects.countP Effect.isMountFs = 0 := by
  have hkeys : (optionKeys r.Options).Perm ["pool", "rbd", "hosts", "username", "secret"] :=
    hopts.map Prod.fst
  have hnd : (optionKeys r.Options).Nodup := hkeys.nodup_iff.mpr (by decide)
  have hknown : ∀ e ∈ r.Options, e.1 ∈ requiredOptions := by
    intro e he
    exact hkeys.mem_iff.mp (List.mem_map.mpr ⟨e, he, rfl⟩)
  have hmem : ∀ k x, (k, x) ∈ [("pool", pool), ("rbd", rbd), ("hosts", hosts),
      ("username", username), ("secret", secret)] → optionValue r.Options k = x :=
    fun k x h => optionValue_of_mem r.Options k x hnd (hopts.mem_iff.mpr h)
  have e1 := hmem "pool" pool (by simp)
  have e2 := hmem "rbd" rbd (by simp)
  have e3 := hmem "hosts" hosts (by simp)
  have e4 := hmem "username" username (by simp)
  have e5 := hmem "secret" secret (by simp)
  have hloop := loop_known_fresh lib r.Options hknown hnd
  rw [e1, e2, e3, e4, e5] at hloop
  refine ⟨?_, ?_, ?_, ?_, ?_, ?_⟩
  · simp [cephRbdDriver.Create, hloop, hpool, hrbd, hhosts, huser, hsecret]
  · simp [cephRbdDriver.Create, hloop, hpool, hrbd, hhosts, huser, hsecret,
      volumeTable.get_put]
  · intro m hm
    simp [cephRbdDriver.Create, hloop, hpool, hrbd, hhosts, huser, hsecret,
      volumeTable.get_put, hm]
  · simp [cephRbdDriver.Create, hloop, hpool, hrbd, hhosts, huser, hsecret]
  · simp [cephRbdDriver.Create, hloop, hpool, hrbd, hhosts, huser, hsecret,
      cephRbdDriver.saveState, Effect.isAttach]
  · simp [cephRbdDriver.Create, hloop, hpool, hrbd, hhosts, huser, hsecret,
      cephRbdDriver.saveState, Effect.isMountFs]

/-- C8, witness: `Create v1` over the mounted `v1`, the options iterated in another
order. -/
theorem create_stores_record_witness :
    (mountedDriver.Create sampleLib ⟨"v1", shuffledOptions⟩ .ok).resp.Err = "" ∧
      (mountedDriver.Create sampleLib ⟨"v1", shuffledOptions⟩ .ok).d.volumes.get "v1" =
        some sampleVolume :=
  have h := create_stores_record sampleLib mountedDriver ⟨"v1", shuffledOptions⟩ .ok
    "rbd" "img1" "10.0.0.1" "admin" "AQA..." (by decide) (by decide) (by decide)
    (by decide) (by decide) (by decide)
  ⟨h.1, h.2.1⟩

/-! ## C9: what a restart finds -/

theorem observe_file (effs : List Effect) :
    ∀ w : World, (∀ e ∈ effs, e.isWriteState = false) →
      (effs.foldl World.observe w).file = w.file := by
  induction effs with
  | nil => intro w _; rfl
  | cons e es ih =>
    intro w h
    simp only [List.foldl_cons]
    rw [ih _ (fun x hx => h x (List.mem_cons_of_mem _ hx))]
    have he := h e (List.mem_cons_self _ _)
    cases e <;> first | rfl | simp [Effect.isWriteState] at he
    all_goals (unfold World.observe; split <;> first | rfl | simp_all)

theorem directory_no_write (v : cephRbdVolume) (env : mountEnv) :
    ∀ e ∈ (Mount.directory v env).2, e.isWriteState = false := by
  obtain ⟨ls, mk, att, nd, fo, mc⟩ := env
  cases ls with
  | notExist => cases mk <;> simp [Mount.directory, Effect.isWriteState]
  | failed e => simp [Mount.directory, Effect.isWriteState]
  | found isDir => cases isDir <;> simp [Mount.directory, Effect.isWriteState]

theorem mountVolume_no_write (lib : GoLib) (v : cephRbdVolume) (env : mountEnv) :
    ∀ e ∈ (cephRbdDriver.mountVolume lib v env).2.2, e.isWriteState = false := by
  obtain ⟨ls, mk, att, nd, fo, mc⟩ := env
  cases att with
  | some e => simp [cephRbdDriver.mountVolume, Effect.isWriteState]
  | none =>
    cases hfind : findRbdNum lib fo <;>
      simp [cephRbdDriver.mountVolume, Effect.isWriteState, hfind]

theorem mount_no_write (lib : GoLib) (d : cephRbdDriver) (r : MountRequest) (env : mountEnv) :
    ∀ e ∈ (d.Mount lib r env).effects, e.isWriteState = false := by
  have h1 := fun v => directory_no_write v env
  have h2 := fun v => mountVolume_no_write lib v env
  unfold cephRbdDriver.Mount
  split
  · simp
  · rename_i v hv
    split
    · split
      · rename_i msg effs heq
        have := h1 v
        rw [heq] at this
        exact this
      · rename_i effs heq
        have hd := h1 v
        rw [heq] at hd
        split
        · rename_i v1 err effs2 heq2
          have hm := h2 v
          rw [heq2] at hm
          intro e he
          rcases List.mem_append.mp he with h | h
          · exact hd e h
          · exact hm e h
        · rename_i v1 effs2 heq2
          have hm := h2 v
          rw [heq2] at hm
          intro e he
          rcases List.mem_append.mp he with h | h
          · exact hd e h
          · exact hm e h
    · simp

theorem get_unmarshal_marshal (t : volumeTable) (name : String) :
    (unmarshal (marshal t)).get name =
      (t.get name).map (fun v => { v with connections := 0 }) := by
  induction t with
  | nil => rfl
  | cons e es ih =>
    obtain ⟨k, v⟩ := e
    by_cases h : k = name
    · simp [unmarshal, marshal, volumeTable.get, h, cephRbdVolume.toJSON,
        volumeJSON.toVolume]
    · have := ih
      simp only [unmarshal, marshal, List.map_map] at this
      simp [unmarshal, marshal, volumeTable.get, h, this]

/-- An error of the option loop is the unknown-option text. -/
theorem loop_error (lib : GoLib) (opts : List (String × String)) :
    ∀ (v : cephRbdVolume) (err : String), Create.loop lib opts v = .error err →
      ∃ val, err = "unknown option " ++ lib.quote val := by
  induction opts with
  | nil => intro v err h; cases h
  | cons e es ih =>
    intro v err h
    obtain ⟨key, val⟩ := e
    simp only [Create.loop] at h
    split at h
    · exact ih _ _ h
    · split at h
      · exact ih _ _ h
      · split at h
        · exact ih _ _ h
        · split at h
          · exact ih _ _ h
          · split at h
            · exact ih _ _ h
            · cases h
              exact ⟨val, rfl⟩

/-- A `Create` that returns no error stores the record read from the options and writes
the state file. -/
theorem Create_success (lib : GoLib) (d : cephRbdDriver) (r : Request) (save : writeOutcome)
    (hok : (d.Create lib r save).resp.Err = "") :
    ∃ v0, Create.loop lib r.Options {} = .ok v0 ∧
      (d.Create lib r save).d.volumes =
        d.volumes.put r.Name { v0 with Mountpoint := lib.join [d.root, lib.md5hex v0.Rbd] } ∧
      (d.Create lib r save).effects = [(d.Create lib r save).d.saveState save] := by
  cases hloop : Create.loop lib r.Options {} with
  | error err =>
    exfalso
    have h1 : (d.Create lib r save).resp.Err = err := by
      simp [cephRbdDriver.Create, hloop, responseError]
    obtain ⟨val, hval⟩ := loop_error lib _ _ _ hloop
    rw [h1, hval] at hok
    exact append_ne_empty_left _ _ (by decide) hok
  | ok v0 =>
    refine ⟨v0, rfl, ?_⟩
    simp only [cephRbdDriver.Create, hloop] at hok ⊢
    split at hok
    · simp [responseError] at hok
    · split at hok
      · simp [responseError] at hok
      · split at hok
        · simp [responseError] at hok
        · split at hok
          · simp [responseError] at hok
          · split at hok
            · simp [responseError] at hok
            · simp [*]

/-- C9 (amended). After a successful `Create` (state file written) followed by a successful
`Mount` of the same volume, `Mount` has not written the state file, the count in memory is
1, and a restarted driver loads the table as `Create` encoded it: its record for the volume
has the pool, image, hosts, user, secret and mountpoint of the record in memory, device
number 0 and count 0. -/
theorem restart_after_mount (lib : GoLib) (w : World) (r : Request) (rm : MountRequest)
    (env : mountEnv) (root : String) (hname : rm.Name = r.Name)
    (hcreate : (w.d.Create lib r .ok).resp.Err = "")
    (hmount : ((w.step lib (.create r .ok)).d.Mount lib rm env).resp.Err = "") :
    ((w.step lib (.create r .ok)).d.Mount lib rm env).effects.countP
        Effect.isWriteState = 0 ∧
      ((w.step lib (.create r .ok)).step lib (.mount rm env)).reload lib root =
        some (unmarshal (marshal (w.step lib (.create r .ok)).d.volumes)) ∧
      ∃ vmem, ((w.step lib (.create r .ok)).step lib (.mount rm env)).d.volumes.get r.Name
          = some vmem ∧
        vmem.connections = 1 ∧
        (((w.step lib (.create r .ok)).step lib (.mount rm env)).reload lib root).map
            (fun t => t.get r.Name) =
          some (some { vmem with RbdNum := 0, connections := 0 }) := by
  obtain ⟨v0, hloop, hvol, heff⟩ := Create_success lib w.d r .ok hcreate
  obtain ⟨hk1, hk2, hk3⟩ := loop_keeps lib _ _ _ hloop
  have hd1 : (w.step lib (.create r .ok)).d = (w.d.Create lib r .ok).d := step_d lib w _
  have hfile1 : (w.step lib (.create r .ok)).file =
      .json (marshal (w.d.Create lib r .ok).d.volumes) := by
    simp only [World.step, Call.exec, Call.name]
    rw [heff]
    simp [cephRbdDriver.saveState, World.observe]
  have hget1 : (w.step lib (.create r .ok)).d.volumes.get rm.Name =
      some { v0 with Mountpoint := lib.join [w.d.root, lib.md5hex v0.Rbd] } := by
    rw [hd1, hvol, volumeTable.get_put, hname]
    simp
  obtain ⟨num, _, _, hvol2, _, _, _⟩ :=
    Mount_zero_success lib _ rm env _ hget1 hk1 hmount
  have hnw := mount_no_write lib (w.step lib (.create r .ok)).d rm env
  have hfile2 : ((w.step lib (.create r .ok)).step lib (.mount rm env)).file =
      (w.step lib (.create r .ok)).file := by
    unfold World.step
    exact observe_file _ _ hnw
  have hreload : ((w.step lib (.create r .ok)).step lib (.mount rm env)).reload lib root =
      some (unmarshal (marshal (w.step lib (.create r .ok)).d.volumes)) := by
    simp only [World.reload, hfile2, hfile1, newCephRbdDriver, hd1]
  refine ⟨?_, hreload, ⟨v0.Pool, v0.Rbd, v0.Hosts, v0.Username, v0.Secret, num,
    lib.join [w.d.root, lib.md5hex v0.Rbd], 1⟩, ?_, rfl, ?_⟩
  · rw [List.countP_eq_zero]
    intro e he
    simp [hnw e he]
  · rw [step_d, Call.exec, hvol2, volumeTable.get_put, hname]
    simp
  · rw [hreload, Option.map_some', get_unmarshal_marshal, ← hname, hget1]
    simp only [Option.map_some']
    simp only [cephRbdVolume.connections] at hk1
    have hk2' : v0.RbdNum = 0 := hk2
    simp [hk2']

/-- C9, witness: `Create v1` and a successful `Mount` on the driver started at `/mnt`. -/
theorem restart_after_mount_witness :
    (((World.init sampleLib "/mnt").step sampleLib (.create ⟨"v1", sampleOptions⟩ .ok)).step
        sampleLib (.mount ⟨"v1", "c1"⟩ okMount)).reload sampleLib "/mnt" =
      some (unmarshal (marshal
        ((World.init sampleLib "/mnt").step sampleLib
          (.create ⟨"v1", sampleOptions⟩ .ok)).d.volumes)) :=
  (restart_after_mount sampleLib (World.init sampleLib "/mnt") ⟨"v1", sampleOptions⟩
    ⟨"v1", "c1"⟩ okMount "/mnt" rfl (by decide) (by decide)).2.1

/-- C9 as stated fails: after `Create v1` and a successful `Mount`, the record in memory has
count 1, the record a restarted driver loads has count 0, and the two records differ. -/
theorem restart_after_mount_counterexample :
    ((World.init sampleLib "/mnt").run sampleLib createMount).d.volumes.get "v1" =
      some { sampleVolume with connections := 1 } ∧
    (((World.init sampleLib "/mnt").run sampleLib createMount).reload sampleLib "/mnt").map
      (fun t => t.get "v1") = some (some { sampleVolume with connections := 0 }) ∧
    (((World.init sampleLib "/mnt").run sampleLib createMount).reload sampleLib "/mnt").map
      (fun t => t.get "v1") ≠
      some (((World.init sampleLib "/mnt").run sampleLib createMount).d.volumes.get "v1") := by
  decide

/-! ## C10: the sign of the count -/

/-- C10, the code at the failing input: after `Create v1` and an `Unmount` of `v1` whose
`umount` command fails, `Unmount` has returned the error and the count of `v1` is -1; a
`Mount` made next returns no error and makes no external step (nothing is attached or
mounted), and leaves the count at 0. -/
theorem unmount_failure_negative_count :
    ((World.init sampleLib "/mnt").run sampleLib createFailedUnmount).d.volumes.get "v1" =
      some { sampleVolume with connections := -1 } ∧
    (createdDriver.Unmount ⟨"v1", "c1"⟩ failUmount).resp.Err = "exit status 32" ∧
    (((World.init sampleLib "/mnt").run sampleLib createFailedUnmount).d.Mount sampleLib
      ⟨"v1", "c1"⟩ okMount).resp.Err = "" ∧
    (((World.init sampleLib "/mnt").run sampleLib createFailedUnmount).d.Mount sampleLib
      ⟨"v1", "c1"⟩ okMount).effects.length = 0 ∧
    (((World.init sampleLib "/mnt").run sampleLib createFailedUnmount).d.Mount sampleLib
      ⟨"v1", "c1"⟩ okMount).d.volumes.get "v1" = some { sampleVolume with connections := 0 } := by
  decide

/-! ## C11: the first step of the scenario -/

/-- An options map that holds exactly the five required options: its names are distinct and
recognised, and each option reads as supplied. -/
theorem five_options (opts : List (String × String)) (pool rbd hosts username secret : String)
    (hopts : opts.Perm [("pool", pool), ("rbd", rbd), ("hosts", hosts),
      ("username", username), ("secret", secret)]) :
    (optionKeys opts).Nodup ∧ (∀ e ∈ opts, e.1 ∈ requiredOptions) ∧
      optionValue opts "pool" = pool ∧ optionValue opts "rbd" = rbd ∧
      optionValue opts "hosts" = hosts ∧ optionValue opts "username" = username ∧
      optionValue opts "secret" = secret := by
  have hkeys : (optionKeys opts).Perm ["pool", "rbd", "hosts", "username", "secret"] :=
    hopts.map Prod.fst
  have hnd : (optionKeys opts).Nodup := hkeys.nodup_iff.mpr (by decide)
  have hmem : ∀ k x, (k, x) ∈ [("pool", pool), ("rbd", rbd), ("hosts", hosts),
      ("username", username), ("secret", secret)] → optionValue opts k = x :=
    fun k x h => optionValue_of_mem opts k x hnd (hopts.mem_iff.mpr h)
  refine ⟨hnd, ?_, hmem _ _ (by simp), hmem _ _ (by simp), hmem _ _ (by simp),
    hmem _ _ (by simp), hmem _ _ (by simp)⟩
  intro e he
  exact hkeys.mem_iff.mp (List.mem_map.mpr ⟨e, he, rfl⟩)

/-- The outcome of `Create` on a map of recognised names whose five values are not empty. -/
theorem Create_values (lib : GoLib) (d : cephRbdDriver) (r : Request) (save : writeOutcome)
    (hnd : (optionKeys r.Options).Nodup) (hknown : ∀ e ∈ r.Options, e.1 ∈ requiredOptions)
    (h1 : optionValue r.Options "pool" ≠ "") (h2 : optionValue r.Options "rbd" ≠ "")
    (h3 : optionValue r.Options "hosts" ≠ "") (h4 : optionValue r.Options "username" ≠ "")
    (h5 : optionValue r.Options "secret" ≠ "") :
    (d.Create lib r save).resp = {} ∧
      (d.Create lib r save).d.volumes = d.volumes.put r.Name
        ⟨optionValue r.Options "pool", optionValue r.Options "rbd",
          optionValue r.Options "hosts", optionValue r.Options "username",
          optionValue r.Options "secret", 0,
          lib.join [d.root, lib.md5hex (optionValue r.Options "rbd")], 0⟩ ∧
      (d.Create lib r save).d.root = d.root ∧
      (d.Create lib r save).d.statePath = d.statePath ∧
      (d.Create lib r save).effects = [(d.Create lib r save).d.saveState save] := by
  have hloop := loop_known_fresh lib r.Options hknown hnd
  simp [cephRbdDriver.Create, hloop, h1, h2, h3, h4, h5]

/-- C11 (amended). On the driver at first start (empty table), `Create("v1", ...)` with the
options of the scenario under the names the code reads (pool `rbd`, rbd `img1`, hosts
`10.0.0.1`, username `admin`, secret `AQA...`), iterated in any order, returns no error,
leaves a table holding exactly the record of `v1` with count 0, makes no attach step, and
afterwards no device is attached and nothing is mounted on the host. -/
theorem scenario_create (lib : GoLib) (root : String) (save : writeOutcome)
    (opts : List (String × String)) (hopts : opts.Perm sampleOptions) :
    ((World.init lib root).d.Create lib ⟨"v1", opts⟩ save).resp.Err = "" ∧
      ((World.init lib root).d.Create lib ⟨"v1", opts⟩ save).d.volumes =
        [("v1", ⟨"rbd", "img1", "10.0.0.1", "admin", "AQA...", 0,
          lib.join [lib.join [root, "volumes"], lib.md5hex "img1"], 0⟩)] ∧
      ((World.init lib root).d.Create lib ⟨"v1", opts⟩ save).effects.countP
        Effect.isAttach = 0 ∧
      (∀ n,
        ((World.init lib root).step lib (.create ⟨"v1", opts⟩ save)).attached n = false) ∧
      ∀ p, ((World.init lib root).step lib (.create ⟨"v1", opts⟩ save)).mounts p = [] := by
  obtain ⟨hnd, hknown, e1, e2, e3, e4, e5⟩ :=
    five_options opts "rbd" "img1" "10.0.0.1" "admin" "AQA..." hopts
  obtain ⟨hresp, hvol, _, _, heff⟩ := Create_values lib (World.init lib root).d ⟨"v1", opts⟩
    save hnd hknown (by rw [e1]; decide) (by rw [e2]; decide) (by rw [e3]; decide)
    (by rw [e4]; decide) (by rw [e5]; decide)
  simp only [e1, e2, e3, e4, e5] at hvol
  refine ⟨by rw [hresp], ?_, ?_, ?_⟩
  · rw [hvol]
    rfl
  · rw [heff]
    simp [cephRbdDriver.saveState, Effect.isAttach]
  · have h := step_host_create lib (World.init lib root) ⟨"v1", opts⟩ save
    exact ⟨fun n => by rw [h.1]; rfl, fun p => by rw [h.2]; rfl⟩

/-- C11, witness: the scenario options in the order of the sample. -/
theorem scenario_create_witness :
    ((World.init sampleLib "/mnt").d.Create sampleLib ⟨"v1", sampleOptions⟩ .ok).resp.Err
        = "" ∧
      ((World.init sampleLib "/mnt").d.Create sampleLib ⟨"v1", sampleOptions⟩ .ok).d.volumes
        = [("v1", sampleVolume)] :=
  have h := scenario_create sampleLib "/mnt" .ok sampleOptions (List.Perm.refl _)
  ⟨h.1, h.2.1⟩

/-- C11 as stated fails: with the option names `image` and `user` that the scenario
writes, `Create("v1", ...)` on the empty table returns the unknown-option error (for the
value of `image`, met first in this order) and stores no record. -/
theorem scenario_create_counterexample :
    ((World.init sampleLib "/mnt").d.Create sampleLib ⟨"v1", scenarioOptions⟩ .ok).resp.Err =
      "unknown option \"img1\"" ∧
    ((World.init sampleLib "/mnt").d.Create sampleLib ⟨"v1", scenarioOptions⟩ .ok).resp.Err
      ≠ "" ∧
    ((World.init sampleLib "/mnt").d.Create sampleLib ⟨"v1", scenarioOptions⟩ .ok).d.volumes
      = [] := by
  decide

/-! ## C12: the mountpoint is a function of the image name -/

/-- An option loop that ends without error has met recognised names only. -/
theorem loop_ok_known (lib : GoLib) (opts : List (String × String)) (v v1 : cephRbdVolume)
    (h : Create.loop lib opts v = .ok v1) : ∀ e ∈ opts, e.1 ∈ requiredOptions := by
  intro e he
  by_contra hu
  obtain ⟨_, _, _, _, _, _, herr⟩ := loop_unknown lib opts v ⟨e, he, hu⟩
  rw [h] at herr
  cases herr

/-- The record a `Create` without error stores, for a map of distinct names. -/
theorem Create_stored (lib : GoLib) (d : cephRbdDriver) (r : Request) (save : writeOutcome)
    (hnd : (optionKeys r.Options).Nodup) (hok : (d.Create lib r save).resp.Err = "") :
    (d.Create lib r save).d.volumes.get r.Name =
      some ⟨optionValue r.Options "pool", optionValue r.Options "rbd",
        optionValue r.Options "hosts", optionValue r.Options "username",
        optionValue r.Options "secret", 0,
        lib.join [d.root, lib.md5hex (optionValue r.Options "rbd")], 0⟩ := by
  obtain ⟨v0, hloop, hvol, _⟩ := Create_success lib d r save hok
  have hknown := loop_ok_known lib _ _ _ hloop
  rw [loop_known_fresh lib r.Options hknown hnd] at hloop
  cases hloop
  rw [hvol, volumeTable.get_put]
  simp

/-- C12. The mountpoint `Create` records is the driver root joined with the hexadecimal MD5
digest of the image name, and of nothing else: two `Create` calls without error on drivers
of the same root whose options carry the same image name record the same mountpoint,
whatever the volume names, pools, hosts, users and secrets. -/
theorem mountpoint_from_image (lib : GoLib) (d1 d2 : cephRbdDriver) (r1 r2 : Request)
    (s1 s2 : writeOutcome) (hroot : d1.root = d2.root)
    (hnd1 : (optionKeys r1.Options).Nodup) (hnd2 : (optionKeys r2.Options).Nodup)
    (hok1 : (d1.Create lib r1 s1).resp.Err = "") (hok2 : (d2.Create lib r2 s2).resp.Err = "")
    (himg : optionValue r1.Options "rbd" = optionValue r2.Options "rbd") :
    ∃ v1 v2, (d1.Create lib r1 s1).d.volumes.get r1.Name = some v1 ∧
      (d2.Create lib r2 s2).d.volumes.get r2.Name = some v2 ∧
      v1.Rbd = optionValue r1.Options "rbd" ∧ v2.Rbd = optionValue r1.Options "rbd" ∧
      v1.Mountpoint = lib.join [d1.root, lib.md5hex (optionValue r1.Options "rbd")] ∧
      v2.Mountpoint = v1.Mountpoint := by
  refine ⟨_, _, Create_stored lib d1 r1 s1 hnd1 hok1, Create_stored lib d2 r2 s2 hnd2 hok2,
    rfl, himg.symm, rfl, ?_⟩
  simp only [hroot, himg]

/-- C12, witness: `v1` for `img1` in pool `rbd` and, after it, `v2` for `img1` in pool
`backup` get the same mountpoint. -/
theorem mountpoint_from_image_witness :
    ∃ v1 v2, (sampleDriver.Create sampleLib ⟨"v1", sampleOptions⟩ .ok).d.volumes.get "v1"
        = some v1 ∧
      (createdDriver.Create sampleLib ⟨"v2", otherPoolOptions⟩ .ok).d.volumes.get "v2"
        = some v2 ∧
      v1.Rbd = optionValue sampleOptions "rbd" ∧ v2.Rbd = optionValue sampleOptions "rbd" ∧
      v1.Mountpoint =
        sampleLib.join [sampleDriver.root, sampleLib.md5hex (optionValue sampleOptions "rbd")] ∧
      v2.Mountpoint = v1.Mountpoint :=
  mountpoint_from_image sampleLib sampleDriver createdDriver ⟨"v1", sampleOptions⟩
    ⟨"v2", otherPoolOptions⟩ .ok .ok (by decide) (by decide) (by decide) (by decide)
    (by decide) (by decide)

/-! ## C13: a name that is not in the table -/

/-- C13. For a name that is not in the table, each of `Remove`, `Path`, `Mount`, `Unmount`
and `Get` returns the not-found error for that name, leaves the driver, hence the table,
unchanged and makes no external step. -/
theorem absent_name_not_found (lib : GoLib) (d : cephRbdDriver) (name id : String)
    (options : List (String × String)) (renv : removeEnv) (menv : mountEnv)
    (uenv : unmountEnv) (habs : d.volumes.get name = none) :
    "volume " ++ name ++ " not found" ≠ "" ∧
    ((d.Remove ⟨name, options⟩ renv).resp = responseError ("volume " ++ name ++ " not found") ∧
      (d.Remove ⟨name, options⟩ renv).d = d ∧ (d.Remove ⟨name, options⟩ renv).effects = []) ∧
    ((d.Path ⟨name, options⟩).resp = responseError ("volume " ++ name ++ " not found") ∧
      (d.Path ⟨name, options⟩).d = d ∧ (d.Path ⟨name, options⟩).effects = []) ∧
    ((d.Mount lib ⟨name, id⟩ menv).resp = responseError ("volume " ++ name ++ " not found") ∧
      (d.Mount lib ⟨name, id⟩ menv).d = d ∧ (d.Mount lib ⟨name, id⟩ menv).effects = []) ∧
    ((d.Unmount ⟨name, id⟩ uenv).resp = responseError ("volume " ++ name ++ " not found") ∧
      (d.Unmount ⟨name, id⟩ uenv).d = d ∧ (d.Unmount ⟨name, id⟩ uenv).effects = []) ∧
    ((d.Get ⟨name, options⟩).resp = responseError ("volume " ++ name ++ " not found") ∧
      (d.Get ⟨name, options⟩).d = d ∧ (d.Get ⟨name, options⟩).effects = []) := by
  refine ⟨?_, ?_, ?_, ?_, ?_, ?_⟩
  · rw [String.append_assoc]
    exact append_ne_empty_left _ _ (by decide)
  · simp [cephRbdDriver.Remove, habs]
  · simp [cephRbdDriver.Path, habs]
  · simp [cephRbdDriver.Mount, habs]
  · simp [cephRbdDriver.Unmount, habs]
  · simp [cephRbdDriver.Get, habs]

/-- C13, witness: the name `v9` on the driver that holds `v1` mounted. -/
theorem absent_name_not_found_witness :
    (mountedDriver.Mount sampleLib ⟨"v9", "c1"⟩ okMount).resp =
        responseError ("volume " ++ "v9" ++ " not found") ∧
      (mountedDriver.Mount sampleLib ⟨"v9", "c1"⟩ okMount).d = mountedDriver ∧
      (mountedDriver.Mount sampleLib ⟨"v9", "c1"⟩ okMount).effects = [] :=
  (absent_name_not_found sampleLib mountedDriver "v9" "c1" [] okRemove okMount okUnmount
    (by decide)).2.2.2.1

/-! ## C14: Get and List -/

theorem volumeTable.mem_of_get (t : volumeTable) (k : String) (v : cephRbdVolume)
    (h : t.get k = some v) : (k, v) ∈ t := by
  induction t with
  | nil => simp [volumeTable.get] at h
  | cons e es ih =>
    obtain ⟨k0, x⟩ := e
    by_cases h0 : k0 = k
    · simp [volumeTable.get, h0] at h
      subst h0 h
      exact List.mem_cons_self _ _
    · simp [volumeTable.get, h0] at h
      exact List.mem_cons_of_mem _ (ih h)

theorem volumeTable.get_of_mem (t : volumeTable) (k : String) (v : cephRbdVolume)
    (hnd : (t.map Prod.fst).Nodup) (h : (k, v) ∈ t) : t.get k = some v := by
  induction t with
  | nil => cases h
  | cons e es ih =>
    obtain ⟨k0, x⟩ := e
    simp only [List.map_cons, List.nodup_cons] at hnd
    rcases List.mem_cons.mp h with h1 | h1
    · cases h1
      simp [volumeTable.get]
    · have hne : k0 ≠ k := by
        intro e
        subst e
        exact hnd.1 (List.mem_map.mpr ⟨(k0, v), h1, rfl⟩)
      simp [volumeTable.get, hne, ih hnd.2 h1]

/-- C14. `Get` and `List` are read-only projections of the table. For a table with one
record per name, `List` returns no error and as many entries as there are records, no name
twice, and an entry with a name and a mountpoint is listed exactly when the table holds a
record with that mountpoint under that name. For a name in the table, `Get` returns that
name with the mountpoint of its record, which is also what `Path` returns and what a
`Mount` without error returns. Neither `Get` nor `List` changes the driver or makes an
external step. -/
theorem get_list_projections (lib : GoLib) (d : cephRbdDriver)
    (hnd : (d.volumes.map Prod.fst).Nodup) :
    ((d.List).resp.Err = "" ∧ (d.List).d = d ∧ (d.List).effects = [] ∧
      (d.List).resp.Volumes.length = d.volumes.length ∧
      ((d.List).resp.Volumes.map Volume.Name).Nodup ∧
      ∀ name mp, ⟨name, mp⟩ ∈ (d.List).resp.Volumes ↔
        ∃ v, d.volumes.get name = some v ∧ v.Mountpoint = mp) ∧
    ∀ name options v, d.volumes.get name = some v →
      (d.Get ⟨name, options⟩).resp = { Volume := some ⟨name, v.Mountpoint⟩ } ∧
      (d.Get ⟨name, options⟩).d = d ∧ (d.Get ⟨name, options⟩).effects = [] ∧
      (d.Path ⟨name, options⟩).resp.Mountpoint = v.Mountpoint ∧
      ∀ id env, (d.Mount lib ⟨name, id⟩ env).resp.Err = "" →
        (d.Mount lib ⟨name, id⟩ env).resp.Mountpoint = v.Mountpoint := by
  constructor
  · refine ⟨rfl, rfl, rfl, by simp [cephRbdDriver.List], ?_, ?_⟩
    · have : (d.List).resp.Volumes.map Volume.Name = d.volumes.map Prod.fst := by
        simp [cephRbdDriver.List, Function.comp_def]
      rw [this]
      exact hnd
    · intro name mp
      simp only [cephRbdDriver.List, List.mem_map]
      constructor
      · rintro ⟨e, he, heq⟩
        obtain ⟨k, v⟩ := e
        simp only [Volume.mk.injEq] at heq
        obtain ⟨h1, h2⟩ := heq
        subst h1
        exact ⟨v, volumeTable.get_of_mem _ _ _ hnd he, h2⟩
      · rintro ⟨v, hv, hmp⟩
        exact ⟨(name, v), volumeTable.mem_of_get _ _ _ hv, by simp [hmp]⟩
  · intro name options v hget
    refine ⟨by simp [cephRbdDriver.Get, hget], by simp [cephRbdDriver.Get, hget],
      by simp [cephRbdDriver.Get, hget], by simp [cephRbdDriver.Path, hget], ?_⟩
    intro id env hok
    by_cases hc : v.connections = 0
    · obtain ⟨_, _, hresp, _⟩ := Mount_zero_success lib d ⟨name, id⟩ env v hget hc hok
      rw [hresp]
    · rw [(Mount_positive lib d ⟨name, id⟩ env v hget hc).1]

/-- C14, witness: the driver holding `v1` and `v2`. -/
theorem get_list_projections_witness :
    (twoVolumeDriver.List).resp.Volumes.length = twoVolumeDriver.volumes.length ∧
      ((twoVolumeDriver.List).resp.Volumes.map Volume.Name).Nodup ∧
      (twoVolumeDriver.Get ⟨"v1", []⟩).resp =
        { Volume := some ⟨"v1", sampleVolume.Mountpoint⟩ } :=
  have h := get_list_projections sampleLib twoVolumeDriver (by decide)
  ⟨h.1.2.2.2.1, h.1.2.2.2.2.1, (h.2 "v1" [] sampleVolume (by decide)).1⟩

/-! ## C15: the device number at count 0 -/

/-- C15 (amended). There is no unassigned value. A `Create` without error stores device
number 0 with count 0; `Unmount`, whatever its outcome and whether or not it brings the
count to 0, leaves the device number of the record as it is; `Mount` leaves it as it is
unless the count is 0 and the attach and the device lookup succeed, in which case it
becomes the number found. -/
theorem device_number_kept (lib : GoLib) (d : cephRbdDriver) :
    (∀ r save, (d.Create lib r save).resp.Err = "" →
      ∃ v1, (d.Create lib r save).d.volumes.get r.Name = some v1 ∧
        v1.RbdNum = 0 ∧ v1.connections = 0) ∧
    (∀ r env v, d.volumes.get r.Name = some v →
      ∃ v1, (d.Unmount r env).d.volumes.get r.Name = some v1 ∧ v1.RbdNum = v.RbdNum) ∧
    (∀ r env v, d.volumes.get r.Name = some v →
      ∃ v1, (d.Mount lib r env).d.volumes.get r.Name = some v1 ∧
        (v1.RbdNum = v.RbdNum ∨
          (v.connections = 0 ∧ env.attach = none ∧
            findRbdNum lib env.findOut = .ok v1.RbdNum))) := by
  refine ⟨?_, ?_, ?_⟩
  · intro r save hok
    obtain ⟨v0, hloop, hvol, _⟩ := Create_success lib d r save hok
    obtain ⟨h1, h2, _⟩ := loop_keeps lib _ _ _ hloop
    exact ⟨⟨v0.Pool, v0.Rbd, v0.Hosts, v0.Username, v0.Secret, v0.RbdNum,
      lib.join [d.root, lib.md5hex v0.Rbd], v0.connections⟩,
      by rw [hvol, volumeTable.get_put]; simp, h2, h1⟩
  · intro r env v hget
    obtain ⟨um, dt⟩ := env
    unfold cephRbdDriver.Unmount
    rw [hget]
    by_cases hc : wrapInt (v.connections - 1) ≤ 0
    · cases um with
      | some e => simp [hc, cephRbdDriver.unmountVolume, volumeTable.get_put]
      | none =>
        cases dt <;> simp [hc, cephRbdDriver.unmountVolume, volumeTable.get_put]
    · simp [hc, volumeTable.get_put]
  · intro r env v hget
    obtain ⟨ls, mk, att, nd, fo, mc⟩ := env
    by_cases hc : v.connections = 0
    · unfold cephRbdDriver.Mount
      rw [hget]
      simp only [hc, if_true]
      cases hd : Mount.directory v ⟨ls, mk, att, nd, fo, mc⟩ with
      | mk o effs =>
        cases o with
        | some msg => exact ⟨v, hget, Or.inl rfl⟩
        | none =>
          simp only
          cases att with
          | some e =>
            simp [cephRbdDriver.mountVolume, volumeTable.get_put]
          | none =>
            cases hfind : findRbdNum lib fo with
            | error e => simp [cephRbdDriver.mountVolume, volumeTable.get_put, hfind]
            | ok num =>
              cases mc <;>
                simp [cephRbdDriver.mountVolume, volumeTable.get_put, hfind, hc]
    · simp [cephRbdDriver.Mount, hget, hc, volumeTable.get_put]

/-- C15, witness: the freshly created `v1` has device number 0, and after a mount that
finds `rbd3` an `Unmount` keeps device number 3. -/
theorem device_number_kept_witness :
    (∃ v1, (sampleDriver.Create sampleLib ⟨"v1", sampleOptions⟩ .ok).d.volumes.get "v1"
        = some v1 ∧ v1.RbdNum = 0 ∧ v1.connections = 0) ∧
      ∃ v1, ((createdDriver.Mount sampleLib ⟨"v1", "c1"⟩ okMountRbd3).d.Unmount ⟨"v1", "c1"⟩
          okUnmount).d.volumes.get "v1" = some v1 ∧
        v1.RbdNum = 3 :=
  ⟨(device_number_kept sampleLib sampleDriver).1 ⟨"v1", sampleOptions⟩ .ok (by decide),
    (device_number_kept sampleLib
      (createdDriver.Mount sampleLib ⟨"v1", "c1"⟩ okMountRbd3).d).2.1 ⟨"v1", "c1"⟩ okUnmount
      ⟨"rbd", "img1", "10.0.0.1", "admin", "AQA...", 3,
        "/mnt/volumes/a8a63b4d63a08aed720d0f5f249e07d9", 1⟩ (by decide)⟩

/-- C15 as stated fails: no single value is the device number of every record with count
0. From the empty table, the freshly created `v1` has count 0 and device number 0, and
after a mount that finds `rbd3` and an unmount `v1` has count 0 and device number 3. -/
theorem device_number_unassigned_counterexample :
    ¬ ∃ u : Int, ∀ cs name v,
      ((World.init sampleLib "/mnt").run sampleLib cs).d.volumes.get name = some v →
        v.connections = 0 → v.RbdNum = u := by
  rintro ⟨u, h⟩
  have h0 := h createOnly "v1" sampleVolume (by decide) (by decide)
  have h3 := h createMountUnmount "v1"
    ⟨"rbd", "img1", "10.0.0.1", "admin", "AQA...", 3,
      "/mnt/volumes/a8a63b4d63a08aed720d0f5f249e07d9", 0⟩ (by decide) (by decide)
  have e0 : u = 0 := h0.symm
  have e3 : u = 3 := h3.symm
  omega

/-! ## C16: Unmount and the count -/

/-- C16. For a record whose count `c` is a Go `int` above the smallest one: when `c >= 2`,
`Unmount` returns no error, makes no external step (no `umount`, no detach) and leaves the
count at `c - 1`; when `c <= 1` and the `umount` and detach steps succeed, `Unmount` runs
exactly these two steps, the `umount` of the record's mountpoint and then the detach of its
device number, returns no error and leaves the count at 0; when `c <= 1` and the `umount`
or the detach step fails, `Unmount` returns the text of that error and leaves the count at
`c - 1`, having run the failed `umount` alone, or the `umount` and the failed detach. In
every case the other fields of the record are as before. -/
theorem unmount_count (d : cephRbdDriver) (r : UnmountRequest) (env : unmountEnv)
    (v : cephRbdVolume) (hget : d.volumes.get r.Name = some v)
    (hmin : -9223372036854775808 < v.connections)
    (hmax : v.connections < 9223372036854775808) :
    (2 ≤ v.connections →
      (d.Unmount r env).resp.Err = "" ∧ (d.Unmount r env).effects = [] ∧
        (d.Unmount r env).d.volumes.get r.Name =
          some { v with connections := v.connections - 1 }) ∧
    (v.connections ≤ 1 → env.ok = true →
      (d.Unmount r env).resp.Err = "" ∧
        (d.Unmount r env).effects =
          [.umountFs v.Mountpoint none, .detach v.RbdNum none] ∧
        (d.Unmount r env).d.volumes.get r.Name = some { v with connections := 0 }) ∧
    (v.connections ≤ 1 → env.ok = false →
      (d.Unmount r env).resp.Err ≠ "" ∧
        (∃ e, ((env.umount = some e ∧
              (d.Unmount r env).effects = [.umountFs v.Mountpoint (some e)]) ∨
            (env.umount = none ∧ env.detach = some e ∧
              (d.Unmount r env).effects =
                [.umountFs v.Mountpoint none, .detach v.RbdNum (some e)])) ∧
          (d.Unmount r env).resp.Err = e.msg) ∧
        (d.Unmount r env).d.volumes.get r.Name =
          some { v with connections := v.connections - 1 }) := by
  have hw : wrapInt (v.connections - 1) = v.connections - 1 :=
    wrapInt_eq _ (by omega) (by omega)
  obtain ⟨um, dt⟩ := env
  refine ⟨?_, ?_, ?_⟩
  · intro hc
    have hpos : ¬ v.connections - 1 ≤ 0 := by omega
    simp [cephRbdDriver.Unmount, hget, hw, hpos, volumeTable.get_put]
  · intro hc hok
    simp only [unmountEnv.ok, Bool.and_eq_true, Option.isNone_iff_eq_none] at hok
    obtain ⟨h1, h2⟩ := hok
    subst h1 h2
    have hle : v.connections - 1 ≤ 0 := by omega
    simp [cephRbdDriver.Unmount, hget, hw, hle, cephRbdDriver.unmountVolume,
      volumeTable.get_put]
  · intro hc hfail
    have hle : v.connections - 1 ≤ 0 := by omega
    cases um with
    | some e =>
      refine ⟨?_, ⟨e, Or.inl ⟨rfl, ?_⟩, ?_⟩, ?_⟩
      · simpa [cephRbdDriver.Unmount, hget, hw, hle, cephRbdDriver.unmountVolume,
          responseError] using e.nonempty
      · simp [cephRbdDriver.Unmount, hget, hw, hle, cephRbdDriver.unmountVolume]
      · simp [cephRbdDriver.Unmount, hget, hw, hle, cephRbdDriver.unmountVolume,
          responseError]
      · simp [cephRbdDriver.Unmount, hget, hw, hle, cephRbdDriver.unmountVolume,
          volumeTable.get_put]
    | none =>
      cases dt with
      | none => simp [unmountEnv.ok] at hfail
      | some e =>
        refine ⟨?_, ⟨e, Or.inr ⟨rfl, rfl, ?_⟩, ?_⟩, ?_⟩
        · simpa [cephRbdDriver.Unmount, hget, hw, hle, cephRbdDriver.unmountVolume,
            responseError] using e.nonempty
        · simp [cephRbdDriver.Unmount, hget, hw, hle, cephRbdDriver.unmountVolume]
        · simp [cephRbdDriver.Unmount, hget, hw, hle, cephRbdDriver.unmountVolume,
            responseError]
        · simp [cephRbdDriver.Unmount, hget, hw, hle, cephRbdDriver.unmountVolume,
            volumeTable.get_put]

/-- C16, witness: on `v1` mounted once, an `Unmount` whose steps succeed runs the `umount`
of the mountpoint of `v1` and the detach of `rbd0`, returns no error and leaves the count
at 0; one whose `umount` fails runs that step alone, returns its error and leaves the count
at 0 as well. -/
theorem unmount_count_witness :
    ((mountedDriver.Unmount ⟨"v1", "c1"⟩ okUnmount).resp.Err = "" ∧
      (mountedDriver.Unmount ⟨"v1", "c1"⟩ okUnmount).effects =
        [.umountFs sampleVolume.Mountpoint none, .detach 0 none] ∧
      (mountedDriver.Unmount ⟨"v1", "c1"⟩ okUnmount).d.volumes.get "v1" =
        some sampleVolume) ∧
    ((mountedDriver.Unmount ⟨"v1", "c1"⟩ failUmount).resp.Err ≠ "" ∧
      (∃ e, ((failUmount.umount = some e ∧
            (mountedDriver.Unmount ⟨"v1", "c1"⟩ failUmount).effects =
              [.umountFs sampleVolume.Mountpoint (some e)]) ∨
          (failUmount.umount = none ∧ failUmount.detach = some e ∧
            (mountedDriver.Unmount ⟨"v1", "c1"⟩ failUmount).effects =
              [.umountFs sampleVolume.Mountpoint none, .detach 0 (some e)])) ∧
        (mountedDriver.Unmount ⟨"v1", "c1"⟩ failUmount).resp.Err = e.msg) ∧
      (mountedDriver.Unmount ⟨"v1", "c1"⟩ failUmount).d.volumes.get "v1" =
        some sampleVolume) :=
  ⟨(unmount_count mountedDriver ⟨"v1", "c1"⟩ okUnmount { sampleVolume with connections := 1 }
      (by decide) (by decide) (by decide)).2.1 (by decide) (by decide),
    (unmount_count mountedDriver ⟨"v1", "c1"⟩ failUmount { sampleVolume with connections := 1 }
      (by decide) (by decide) (by decide)).2.2 (by decide) (by decide)⟩

/-! ## The table after a call -/

theorem volumeTable.mem_put (t : volumeTable) (k : String) (v : cephRbdVolume)
    (e : String × cephRbdVolume) (h : e ∈ t.put k v) : e ∈ t ∨ e = (k, v) := by
  induction t with
  | nil =>
    simp only [volumeTable.put, List.mem_singleton] at h
    exact Or.inr h
  | cons e0 es ih =>
    obtain ⟨k0, x⟩ := e0
    by_cases h0 : k0 = k
    · simp only [volumeTable.put, h0, if_true] at h
      rcases List.mem_cons.mp h with h1 | h1
      · exact Or.inr h1
      · exact Or.inl (List.mem_cons_of_mem _ h1)
    · simp only [volumeTable.put, h0, if_false] at h
      rcases List.mem_cons.mp h with h1 | h1
      · exact Or.inl (h1 ▸ List.mem_cons_self _ _)
      · rcases ih h1 with h2 | h2
        · exact Or.inl (List.mem_cons_of_mem _ h2)
        · exact Or.inr h2

theorem volumeTable.mem_delete (t : volumeTable) (k : String)
    (e : String × cephRbdVolume) (h : e ∈ t.delete k) : e ∈ t := by
  induction t with
  | nil => simp [volumeTable.delete] at h
  | cons e0 es ih =>
    obtain ⟨k0, x⟩ := e0
    by_cases h0 : k0 = k
    · simp only [volumeTable.delete, h0, if_true] at h
      exact List.mem_cons_of_mem _ (ih h)
    · simp only [volumeTable.delete, h0, if_false] at h
      rcases List.mem_cons.mp h with h1 | h1
      · exact h1 ▸ List.mem_cons_self _ _
      · exact List.mem_cons_of_mem _ (ih h1)

theorem volumeTable.keys_put (t : volumeTable) (k : String) (v v1 : cephRbdVolume)
    (h : t.get k = some v) : (t.put k v1).map Prod.fst = t.map Prod.fst := by
  induction t with
  | nil => simp [volumeTable.get] at h
  | cons e0 es ih =>
    obtain ⟨k0, x⟩ := e0
    by_cases h0 : k0 = k
    · simp [volumeTable.put, h0]
    · simp only [volumeTable.get, h0, if_false] at h
      simp [volumeTable.put, h0, ih h]

/-- The table after `Mount`: the record of the name is replaced by one that agrees with it
on everything `Create` fixed. -/
theorem Mount_shape (lib : GoLib) (d : cephRbdDriver) (r : MountRequest) (env : mountEnv)
    (v : cephRbdVolume) (hget : d.volumes.get r.Name = some v) :
    ∃ v1, v.sameParams v1 ∧ (d.Mount lib r env).d.volumes = d.volumes.put r.Name v1 := by
  have hself := volumeTable.put_get_self d.volumes r.Name v hget
  obtain ⟨ls, mk, att, nd, fo, mc⟩ := env
  by_cases hc : v.connections = 0
  · unfold cephRbdDriver.Mount
    rw [hget]
    simp only [hc, if_true]
    cases hd : Mount.directory v ⟨ls, mk, att, nd, fo, mc⟩ with
    | mk o effs =>
      cases o with
      | some msg => exact ⟨v, ⟨rfl, rfl, rfl, rfl, rfl, rfl⟩, hself.symm⟩
      | none =>
        simp only
        cases att with
        | some e =>
          exact ⟨v, ⟨rfl, rfl, rfl, rfl, rfl, rfl⟩, by simp [cephRbdDriver.mountVolume]⟩
        | none =>
          cases hfind : findRbdNum lib fo with
          | error e =>
            exact ⟨v, ⟨rfl, rfl, rfl, rfl, rfl, rfl⟩, by
              simp [cephRbdDriver.mountVolume, hfind]⟩
          | ok num =>
            cases mc with
            | some e =>
              exact ⟨{ v with RbdNum := num }, ⟨rfl, rfl, rfl, rfl, rfl, rfl⟩, by
                simp [cephRbdDriver.mountVolume, hfind]⟩
            | none =>
              exact ⟨{ v with RbdNum := num, connections := wrapInt (v.connections + 1) },
                ⟨rfl, rfl, rfl, rfl, rfl, rfl⟩, by
                simp [cephRbdDriver.mountVolume, hfind]⟩
  · exact ⟨{ v with connections := wrapInt (v.connections + 1) },
      ⟨rfl, rfl, rfl, rfl, rfl, rfl⟩, by simp [cephRbdDriver.Mount, hget, hc]⟩

/-- The table after `Unmount`: the record of the name is replaced by one that agrees with
it on everything `Create` fixed. -/
theorem Unmount_shape (d : cephRbdDriver) (r : UnmountRequest) (env : unmountEnv)
    (v : cephRbdVolume) (hget : d.volumes.get r.Name = some v) :
    ∃ v1, v.sameParams v1 ∧ (d.Unmount r env).d.volumes = d.volumes.put r.Name v1 := by
  obtain ⟨um, dt⟩ := env
  by_cases hc : wrapInt (v.connections - 1) ≤ 0
  · cases um with
    | some e =>
      exact ⟨{ v with connections := wrapInt (v.connections - 1) },
        ⟨rfl, rfl, rfl, rfl, rfl, rfl⟩, by
        simp [cephRbdDriver.Unmount, hget, hc, cephRbdDriver.unmountVolume]⟩
    | none =>
      cases dt with
      | some e =>
        exact ⟨{ v with connections := wrapInt (v.connections - 1) },
          ⟨rfl, rfl, rfl, rfl, rfl, rfl⟩, by
          simp [cephRbdDriver.Unmount, hget, hc, cephRbdDriver.unmountVolume]⟩
      | none =>
        exact ⟨{ v with connections := 0 }, ⟨rfl, rfl, rfl, rfl, rfl, rfl⟩, by
          simp [cephRbdDriver.Unmount, hget, hc, cephRbdDriver.unmountVolume]⟩
  · exact ⟨{ v with connections := wrapInt (v.connections - 1) },
      ⟨rfl, rfl, rfl, rfl, rfl, rfl⟩, by simp [cephRbdDriver.Unmount, hget, hc]⟩

/-! ## C17: every record is complete -/

theorem complete_of_sameParams (v v1 : cephRbdVolume) (h : v.sameParams v1)
    (hv : v.complete) : v1.complete := by
  obtain ⟨h1, h2, h3, h4, h5, h6⟩ := h
  unfold cephRbdVolume.complete
  rw [h1, h2, h3, h4, h5, h6]
  exact hv

/-- The table after `Create`: as before, or with a complete record put under the name. -/
theorem Create_shape (lib : GoLib) (d : cephRbdDriver) (r : Request) (save : writeOutcome)
    (hmd5 : ∀ s, lib.md5hex s ≠ "") (hjoin : ∀ a b, b ≠ "" → lib.join [a, b] ≠ "") :
    (d.Create lib r save).d.volumes = d.volumes ∨
      ∃ v1, v1.complete ∧ (d.Create lib r save).d.volumes = d.volumes.put r.Name v1 := by
  simp only [cephRbdDriver.Create]
  split
  · exact Or.inl rfl
  · rename_i v hv
    by_cases h1 : v.Pool = ""
    · simp [h1]
    · by_cases h2 : v.Rbd = ""
      · simp [h1, h2]
      · by_cases h3 : v.Hosts = ""
        · simp [h1, h2, h3]
        · by_cases h4 : v.Username = ""
          · simp [h1, h2, h3, h4]
          · by_cases h5 : v.Secret = ""
            · simp [h1, h2, h3, h4, h5]
            · right
              refine ⟨⟨v.Pool, v.Rbd, v.Hosts, v.Username, v.Secret, v.RbdNum,
                lib.join [d.root, lib.md5hex v.Rbd], v.connections⟩,
                ⟨h1, h2, h3, h4, h5, hjoin _ _ (hmd5 _)⟩, ?_⟩
              simp [h1, h2, h3, h4, h5]

/-- A call keeps every record of the table complete. -/
theorem exec_complete (lib : GoLib) (d : cephRbdDriver) (c : Call)
    (hmd5 : ∀ s, lib.md5hex s ≠ "") (hjoin : ∀ a b, b ≠ "" → lib.join [a, b] ≠ "")
    (hd : ∀ e ∈ d.volumes, e.2.complete) : ∀ e ∈ (c.exec lib d).d.volumes, e.2.complete := by
  intro e he
  cases c with
  | create r s =>
    simp only [Call.exec] at he
    rcases Create_shape lib d r s hmd5 hjoin with h | ⟨v1, hv1, h⟩
    · rw [h] at he
      exact hd e he
    · rw [h] at he
      rcases volumeTable.mem_put _ _ _ _ he with h1 | h1
      · exact hd e h1
      · rw [h1]
        exact hv1
  | remove r env =>
    simp only [Call.exec, cephRbdDriver.Remove] at he
    split at he
    · exact hd e he
    · split at he
      · exact hd e he
      · split at he
        · exact hd e he
        · exact hd e (volumeTable.mem_delete _ _ _ he)
  | mount r env =>
    simp only [Call.exec] at he
    cases hget : d.volumes.get r.Name with
    | none =>
      have : (d.Mount lib r env).d = d := by simp [cephRbdDriver.Mount, hget]
      rw [this] at he
      exact hd e he
    | some v =>
      obtain ⟨v1, hsame, hvol⟩ := Mount_shape lib d r env v hget
      rw [hvol] at he
      rcases volumeTable.mem_put _ _ _ _ he with h1 | h1
      · exact hd e h1
      · rw [h1]
        exact complete_of_sameParams v v1 hsame
          (hd _ (volumeTable.mem_of_get _ _ _ hget))
  | unmount r env =>
    simp only [Call.exec] at he
    cases hget : d.volumes.get r.Name with
    | none =>
      have : (d.Unmount r env).d = d := by simp [cephRbdDriver.Unmount, hget]
      rw [this] at he
      exact hd e he
    | some v =>
      obtain ⟨v1, hsame, hvol⟩ := Unmount_shape d r env v hget
      rw [hvol] at he
      rcases volumeTable.mem_put _ _ _ _ he with h1 | h1
      · exact hd e h1
      · rw [h1]
        exact complete_of_sameParams v v1 hsame
          (hd _ (volumeTable.mem_of_get _ _ _ hget))

theorem run_complete (lib : GoLib) (cs : List Call)
    (hmd5 : ∀ s, lib.md5hex s ≠ "") (hjoin : ∀ a b, b ≠ "" → lib.join [a, b] ≠ "") :
    ∀ w : World, (∀ e ∈ w.d.volumes, e.2.complete) →
      ∀ e ∈ (w.run lib cs).d.volumes, e.2.complete := by
  induction cs with
  | nil => intro w hw; simpa [World.run] using hw
  | cons c cs ih =>
    intro w hw
    have h1 : ∀ e ∈ (w.step lib c).d.volumes, e.2.complete := by
      rw [step_d]
      exact exec_complete lib w.d c hmd5 hjoin hw
    have h2 := ih _ h1
    simpa [World.run] using h2

theorem Create_effects (lib : GoLib) (d : cephRbdDriver) (r : Request) (save : writeOutcome) :
    (d.Create lib r save).effects = [] ∨
      (d.Create lib r save).effects = [(d.Create lib r save).d.saveState save] := by
  simp only [cephRbdDriver.Create]
  split
  · exact Or.inl rfl
  · (repeat' split) <;> first | exact Or.inl rfl | exact Or.inr rfl

theorem Remove_effects (d : cephRbdDriver) (r : Request) (env : removeEnv) :
    (d.Remove r env).effects = [] ∨
      (∃ p err, (d.Remove r env).effects = [.removeAll p (some err)]) ∨
      ∃ p, (d.Remove r env).effects =
        [.removeAll p none, (d.Remove r env).d.saveState env.save] := by
  simp only [cephRbdDriver.Remove]
  split
  · exact Or.inl rfl
  · split
    · exact Or.inl rfl
    · split
      · exact Or.inr (Or.inl ⟨_, _, rfl⟩)
      · exact Or.inr (Or.inr ⟨_, rfl⟩)

theorem unmount_no_write (d : cephRbdDriver) (r : UnmountRequest) (env : unmountEnv) :
    ∀ e ∈ (d.Unmount r env).effects, e.isWriteState = false := by
  obtain ⟨um, dt⟩ := env
  cases hget : d.volumes.get r.Name with
  | none => simp [cephRbdDriver.Unmount, hget]
  | some v =>
    by_cases hc : wrapInt (v.connections - 1) ≤ 0
    · cases um with
      | some e =>
        simp [cephRbdDriver.Unmount, hget, hc, cephRbdDriver.unmountVolume,
          Effect.isWriteState]
      | none =>
        cases dt <;>
          simp [cephRbdDriver.Unmount, hget, hc, cephRbdDriver.unmountVolume,
            Effect.isWriteState]
    · simp [cephRbdDriver.Unmount, hget, hc]

theorem written_isWriteState (e : Effect) (data : List (String × volumeJSON))
    (h : e.written = some data) : e.isWriteState = true := by
  cases e <;> simp [Effect.written] at h
  rfl

/-- What a call writes to the state file is the encoding of the table it leaves. -/
theorem exec_written (lib : GoLib) (d : cephRbdDriver) (c : Call) (e : Effect)
    (data : List (String × volumeJSON)) (he : e ∈ (c.exec lib d).effects)
    (hw : e.written = some data) : data = marshal (c.exec lib d).d.volumes := by
  cases c with
  | create r s =>
    simp only [Call.exec] at he ⊢
    rcases Create_effects lib d r s with h | h
    · rw [h] at he
      cases he
    · rw [h, List.mem_singleton] at he
      subst he
      simp only [cephRbdDriver.saveState, Effect.written, Option.some.injEq] at hw
      exact hw.symm
  | remove r env =>
    simp only [Call.exec] at he ⊢
    rcases Remove_effects d r env with h | ⟨p, err, h⟩ | ⟨p, h⟩
    · rw [h] at he
      cases he
    · rw [h, List.mem_singleton] at he
      subst he
      simp [Effect.written] at hw
    · rw [h] at he
      simp only [List.mem_cons, List.mem_singleton, List.not_mem_nil, or_false] at he
      rcases he with h1 | h1
      · subst h1
        simp [Effect.written] at hw
      · subst h1
        simp only [cephRbdDriver.saveState, Effect.written, Option.some.injEq] at hw
        exact hw.symm
  | mount r env =>
    have h1 := mount_no_write lib d r env e he
    rw [written_isWriteState e data hw] at h1
    cases h1
  | unmount r env =>
    have h1 := unmount_no_write d r env e he
    rw [written_isWriteState e data hw] at h1
    cases h1

/-- C17. Every record of the table is complete. For library functions as Go has them (the
hexadecimal digest is never empty and `filepath.Join` of a path with a non-empty element is
not empty): after every sequence of `Create`, `Mount`, `Unmount` and `Remove` calls from the
empty table, whatever the outcomes of their external steps, every record in the table has a
non-empty pool, image, hosts, user, secret and mountpoint, and so has every record that a
further call writes to the state file. -/
theorem records_complete (lib : GoLib) (root : String) (cs : List Call)
    (hmd5 : ∀ s, lib.md5hex s ≠ "") (hjoin : ∀ a b, b ≠ "" → lib.join [a, b] ≠ "") :
    (∀ name v, ((World.init lib root).run lib cs).d.volumes.get name = some v →
      v.complete) ∧
    ∀ c e data, e ∈ (Call.exec lib ((World.init lib root).run lib cs).d c).effects →
      e.written = some data → ∀ x ∈ data, x.2.complete := by
  have hinit : ∀ e ∈ (World.init lib root).d.volumes, e.2.complete := by
    intro e he
    cases he
  have hrun := run_complete lib cs hmd5 hjoin (World.init lib root) hinit
  constructor
  · intro name v hget
    exact hrun _ (volumeTable.mem_of_get _ _ _ hget)
  · intro c e data he hw x hx
    have hdata := exec_written lib _ c e data he hw
    have hnext := exec_complete lib _ c hmd5 hjoin hrun
    rw [hdata] at hx
    obtain ⟨y, hy, hxy⟩ := List.mem_map.mp hx
    have := hnext y hy
    rw [← hxy]
    exact this

theorem sampleLib_md5hex : ∀ s, sampleLib.md5hex s ≠ "" := by
  intro s
  simp only [sampleLib]
  split <;> decide

theorem sampleLib_join : ∀ a b, b ≠ "" → sampleLib.join [a, b] ≠ "" := by
  intro a b hb
  have : sampleLib.join [a, b] = a ++ ("/" ++ b) := by
    simp [sampleLib, String.intercalate, String.intercalate.go, String.append_assoc]
  rw [this]
  exact append_ne_empty_right _ _ (append_ne_empty_right _ _ hb)

/-- C17, witness: after `Create v1`, a mount and an unmount, the record of `v1` is
complete. -/
theorem records_complete_witness :
    ((World.init sampleLib "/mnt").run sampleLib createMountUnmount).d.volumes.get "v1" =
        some ⟨"rbd", "img1", "10.0.0.1", "admin", "AQA...", 3,
          "/mnt/volumes/a8a63b4d63a08aed720d0f5f249e07d9", 0⟩ ∧
      cephRbdVolume.complete ⟨"rbd", "img1", "10.0.0.1", "admin", "AQA...", 3,
        "/mnt/volumes/a8a63b4d63a08aed720d0f5f249e07d9", 0⟩ :=
  ⟨by decide,
    (records_complete sampleLib "/mnt" createMountUnmount sampleLib_md5hex sampleLib_join).1
      "v1" _ (by decide)⟩

/-! ## C18: what Mount and Unmount leave alone -/

/-- C18. `Mount` and `Unmount` on a name change at most the count and the device number of
the record under that name: whatever the outcome of the call, the table holds the same
names, the record under every other name is unchanged, and the record under the name, if
there is one, keeps its pool, image, hosts, user, secret and mountpoint. -/
theorem mount_unmount_frame (lib : GoLib) (d : cephRbdDriver) (name id : String)
    (menv : mountEnv) (uenv : unmountEnv) :
    ((d.Mount lib ⟨name, id⟩ menv).d.volumes.map Prod.fst = d.volumes.map Prod.fst ∧
      (∀ m, m ≠ name → (d.Mount lib ⟨name, id⟩ menv).d.volumes.get m = d.volumes.get m) ∧
      (∀ v, d.volumes.get name = some v →
        ∃ v1, (d.Mount lib ⟨name, id⟩ menv).d.volumes.get name = some v1 ∧
          v.sameParams v1) ∧
      (d.volumes.get name = none → (d.Mount lib ⟨name, id⟩ menv).d.volumes.get name = none)) ∧
    ((d.Unmount ⟨name, id⟩ uenv).d.volumes.map Prod.fst = d.volumes.map Prod.fst ∧
      (∀ m, m ≠ name → (d.Unmount ⟨name, id⟩ uenv).d.volumes.get m = d.volumes.get m) ∧
      (∀ v, d.volumes.get name = some v →
        ∃ v1, (d.Unmount ⟨name, id⟩ uenv).d.volumes.get name = some v1 ∧
          v.sameParams v1) ∧
      (d.volumes.get name = none → (d.Unmount ⟨name, id⟩ uenv).d.volumes.get name = none)) := by
  constructor
  · cases hget : d.volumes.get name with
    | none =>
      have hd : (d.Mount lib ⟨name, id⟩ menv).d = d := by
        simp [cephRbdDriver.Mount, hget]
      rw [hd]
      exact ⟨rfl, fun _ _ => rfl, fun v hv => Option.noConfusion hv, fun _ => hget⟩
    | some v =>
      obtain ⟨v1, hsame, hvol⟩ := Mount_shape lib d ⟨name, id⟩ menv v hget
      rw [hvol]
      refine ⟨volumeTable.keys_put _ _ v v1 hget, ?_, ?_, fun h => Option.noConfusion h⟩
      · intro m hm
        rw [volumeTable.get_put, if_neg hm]
      · intro v0 hv0
        cases hv0
        exact ⟨v1, by rw [volumeTable.get_put, if_pos rfl], hsame⟩
  · cases hget : d.volumes.get name with
    | none =>
      have hd : (d.Unmount ⟨name, id⟩ uenv).d = d := by
        simp [cephRbdDriver.Unmount, hget]
      rw [hd]
      exact ⟨rfl, fun _ _ => rfl, fun v hv => Option.noConfusion hv, fun _ => hget⟩
    | some v =>
      obtain ⟨v1, hsame, hvol⟩ := Unmount_shape d ⟨name, id⟩ uenv v hget
      rw [hvol]
      refine ⟨volumeTable.keys_put _ _ v v1 hget, ?_, ?_, fun h => Option.noConfusion h⟩
      · intro m hm
        rw [volumeTable.get_put, if_neg hm]
      · intro v0 hv0
        cases hv0
        exact ⟨v1, by rw [volumeTable.get_put, if_pos rfl], hsame⟩

/-- C18, witness: on `v1` mounted once, a `Mount` and an `Unmount` that fails. -/
theorem mount_unmount_frame_witness :
    (mountedDriver.Unmount ⟨"v1", "c1"⟩ failUmount).d.volumes.map Prod.fst =
        mountedDriver.volumes.map Prod.fst ∧
      ∃ v1, (mountedDriver.Mount sampleLib ⟨"v1", "c1"⟩ okMountRbd3).d.volumes.get "v1"
          = some v1 ∧
        ({ sampleVolume with connections := 1 } : cephRbdVolume).sameParams v1 :=
  have h := mount_unmount_frame sampleLib mountedDriver "v1" "c1" okMountRbd3 failUmount
  ⟨h.2.1, h.1.2.2.1 { sampleVolume with connections := 1 } (by decide)⟩

/-! ## C19: the text of the unknown-option error -/

/-- The option loop ends at the first unrecognised name it meets, with the text built from
the value stored under it. -/
theorem loop_first_unknown (lib : GoLib) (pre post : List (String × String))
    (k val : String) (hk : k ∉ requiredOptions) :
    ∀ v : cephRbdVolume, (∀ x ∈ pre, x.1 ∈ requiredOptions) →
      Create.loop lib (pre ++ (k, val) :: post) v =
        .error ("unknown option " ++ lib.quote val) := by
  induction pre with
  | nil =>
    intro v _
    simp only [requiredOptions, List.mem_cons, List.mem_singleton, List.not_mem_nil,
      or_false, not_or] at hk
    simp [Create.loop, hk]
  | cons e es ih =>
    intro v hpre
    obtain ⟨key, x⟩ := e
    have hkey := hpre (key, x) (List.mem_cons_self _ _)
    have hrest : ∀ y ∈ es, y.1 ∈ requiredOptions :=
      fun y hy => hpre y (List.mem_cons_of_mem _ hy)
    simp only [requiredOptions, List.mem_cons, List.mem_singleton, List.not_mem_nil,
      or_false] at hkey
    rcases hkey with h | h | h | h | h <;> subst h <;>
      simp only [List.cons_append, Create.loop] <;> simp [ih _ hrest]

/-- C19. The unknown-option text of `Create` is built from the value of the offending
option, not from its name. For two options maps, each with one unrecognised name met after
recognised ones only, that store the same value under their unrecognised names, whatever
these names are and in whatever order the maps are iterated: `Create` returns the same
error text for both, and that text is the quoted value after `unknown option `. -/
theorem unknown_option_text (lib : GoLib) (d1 d2 : cephRbdDriver) (r1 r2 : Request)
    (s1 s2 : writeOutcome) (pre1 post1 pre2 post2 : List (String × String))
    (k1 k2 val : String)
    (h1 : r1.Options = pre1 ++ (k1, val) :: post1)
    (h2 : r2.Options = pre2 ++ (k2, val) :: post2)
    (hpre1 : ∀ x ∈ pre1, x.1 ∈ requiredOptions) (hpre2 : ∀ x ∈ pre2, x.1 ∈ requiredOptions)
    (hk1 : k1 ∉ requiredOptions) (hk2 : k2 ∉ requiredOptions) :
    (d1.Create lib r1 s1).resp.Err = (d2.Create lib r2 s2).resp.Err ∧
      (d1.Create lib r1 s1).resp.Err = "unknown option " ++ lib.quote val := by
  have e1 : (d1.Create lib r1 s1).resp.Err = "unknown option " ++ lib.quote val := by
    simp [cephRbdDriver.Create, h1, loop_first_unknown lib pre1 post1 k1 val hk1 {} hpre1,
      responseError]
  have e2 : (d2.Create lib r2 s2).resp.Err = "unknown option " ++ lib.quote val := by
    simp [cephRbdDriver.Create, h2, loop_first_unknown lib pre2 post2 k2 val hk2 {} hpre2,
      responseError]
  exact ⟨by rw [e1, e2], e1⟩

/-- C19, witness: the unknown option `size` iterated last and the unknown option `quota`
iterated first, both with the value `10G`. -/
theorem unknown_option_text_witness :
    (sampleDriver.Create sampleLib ⟨"v1", sizeOptions⟩ .ok).resp.Err =
        (sampleDriver.Create sampleLib ⟨"v1", quotaOptions⟩ .ok).resp.Err ∧
      (sampleDriver.Create sampleLib ⟨"v1", sizeOptions⟩ .ok).resp.Err =
        "unknown option " ++ sampleLib.quote "10G" :=
  unknown_option_text sampleLib sampleDriver sampleDriver ⟨"v1", sizeOptions⟩
    ⟨"v1", quotaOptions⟩ .ok .ok sampleOptions [] [] sampleOptions "size" "quota" "10G"
    rfl rfl (by decide) (by decide) (by decide) (by decide)

/-! ## C2: the count against what is attached and mounted -/

/-- The host after a `Mount` of a record that is in the table. -/
theorem step_mount (lib : GoLib) (w : World) (r : MountRequest) (env : mountEnv)
    (v : cephRbdVolume) (hget : w.d.volumes.get r.Name = some v) :
    ∃ v1, (w.step lib (.mount r env)).d.volumes = w.d.volumes.put r.Name v1 ∧
      v1.Mountpoint = v.Mountpoint ∧
      ((v.connections ≠ 0 ∧ v1.RbdNum = v.RbdNum ∧
          v1.connections = wrapInt (v.connections + 1) ∧
          (w.step lib (.mount r env)).attached = w.attached ∧
          (w.step lib (.mount r env)).mounts = w.mounts) ∨
        (v.connections = 0 ∧ v1 = v ∧
          (w.step lib (.mount r env)).attached = w.attached ∧
          (w.step lib (.mount r env)).mounts = w.mounts) ∨
        (v.connections = 0 ∧ v1.connections = 0 ∧
          (w.d.Mount lib r env).effects.any Effect.attachOk = true ∧
          (w.d.Mount lib r env).effects.all (Effect.clean lib) = false ∧
          (w.step lib (.mount r env)).attached =
            (fun n => if n = env.newDevice then true else w.attached n) ∧
          (w.step lib (.mount r env)).mounts = w.mounts) ∨
        (v.connections = 0 ∧ v1.connections = 1 ∧
          (w.d.Mount lib r env).effects.any Effect.attachOk = true ∧
          findRbdNum lib env.findOut = .ok v1.RbdNum ∧
          (w.step lib (.mount r env)).attached =
            (fun n => if n = env.newDevice then true else w.attached n) ∧
          (w.step lib (.mount r env)).mounts =
            (fun p => if p = v.Mountpoint then v1.device :: w.mounts p else w.mounts p))) := by
  have hself := (volumeTable.put_get_self w.d.volumes r.Name v hget).symm
  obtain ⟨ls, mk, att, nd, fo, mc⟩ := env
  by_cases hc : v.connections = 0
  · cases ls with
    | notExist =>
      cases mk with
      | some e =>
        refine ⟨v, ?_, rfl, Or.inr (Or.inl ⟨hc, rfl, ?_, ?_⟩)⟩ <;>
          simp [World.step, Call.exec, cephRbdDriver.Mount, hget, hc,
            Mount.directory, World.observe, ← hself]
      | none =>
        cases att with
        | some e =>
          refine ⟨v, ?_, rfl, Or.inr (Or.inl ⟨hc, rfl, ?_, ?_⟩)⟩ <;>
            simp [World.step, Call.exec, cephRbdDriver.Mount, hget, hc,
              Mount.directory, cephRbdDriver.mountVolume, World.observe]
        | none =>
          cases hfind : findRbdNum lib fo with
          | error e =>
            refine ⟨v, ?_, rfl, Or.inr (Or.inr (Or.inl ⟨hc, hc, ?_, ?_, ?_, ?_⟩))⟩ <;>
              simp [World.step, Call.exec, cephRbdDriver.Mount, hget, hc,
                Mount.directory, cephRbdDriver.mountVolume, World.observe, hfind,
                Effect.attachOk, Effect.clean, Except.toBool]
          | ok num =>
            cases mc with
            | some e =>
              refine ⟨{ v with RbdNum := num }, ?_, rfl,
                Or.inr (Or.inr (Or.inl ⟨hc, hc, ?_, ?_, ?_, ?_⟩))⟩ <;>
                simp [World.step, Call.exec, cephRbdDriver.Mount, hget, hc,
                  Mount.directory, cephRbdDriver.mountVolume, World.observe, hfind,
                  Effect.attachOk, Effect.clean, Except.toBool]
            | none =>
              refine ⟨{ v with RbdNum := num, connections := 1 }, ?_, rfl,
                Or.inr (Or.inr (Or.inr ⟨hc, rfl, ?_, ?_, ?_, ?_⟩))⟩ <;>
                simp [World.step, Call.exec, cephRbdDriver.Mount, hget, hc,
                  Mount.directory, cephRbdDriver.mountVolume, World.observe, hfind,
                  Effect.attachOk, wrapInt_one, cephRbdVolume.device]
    | failed e =>
      refine ⟨v, ?_, rfl, Or.inr (Or.inl ⟨hc, rfl, ?_, ?_⟩)⟩ <;>
        simp [World.step, Call.exec, cephRbdDriver.Mount, hget, hc,
          Mount.directory, World.observe, ← hself]
    | found isDir =>
      cases isDir with
      | false =>
        refine ⟨v, ?_, rfl, Or.inr (Or.inl ⟨hc, rfl, ?_, ?_⟩)⟩ <;>
          simp [World.step, Call.exec, cephRbdDriver.Mount, hget, hc,
            Mount.directory, World.observe, ← hself]
      | true =>
        cases att with
        | some e =>
          refine ⟨v, ?_, rfl, Or.inr (Or.inl ⟨hc, rfl, ?_, ?_⟩)⟩ <;>
            simp [World.step, Call.exec, cephRbdDriver.Mount, hget, hc,
              Mount.directory, cephRbdDriver.mountVolume, World.observe]
        | none =>
          cases hfind : findRbdNum lib fo with
          | error e =>
            refine ⟨v, ?_, rfl, Or.inr (Or.inr (Or.inl ⟨hc, hc, ?_, ?_, ?_, ?_⟩))⟩ <;>
              simp [World.step, Call.exec, cephRbdDriver.Mount, hget, hc,
                Mount.directory, cephRbdDriver.mountVolume, World.observe, hfind,
                Effect.attachOk, Effect.clean, Except.toBool]
          | ok num =>
            cases mc with
            | some e =>
              refine ⟨{ v with RbdNum := num }, ?_, rfl,
                Or.inr (Or.inr (Or.inl ⟨hc, hc, ?_, ?_, ?_, ?_⟩))⟩ <;>
                simp [World.step, Call.exec, cephRbdDriver.Mount, hget, hc,
                  Mount.directory, cephRbdDriver.mountVolume, World.observe, hfind,
                  Effect.attachOk, Effect.clean, Except.toBool]
            | none =>
              refine ⟨{ v with RbdNum := num, connections := 1 }, ?_, rfl,
                Or.inr (Or.inr (Or.inr ⟨hc, rfl, ?_, ?_, ?_, ?_⟩))⟩ <;>
                simp [World.step, Call.exec, cephRbdDriver.Mount, hget, hc,
                  Mount.directory, cephRbdDriver.mountVolume, World.observe, hfind,
                  Effect.attachOk, wrapInt_one, cephRbdVolume.device]
  · refine ⟨{ v with connections := wrapInt (v.connections + 1) }, ?_, rfl,
      Or.inl ⟨hc, rfl, rfl, ?_, ?_⟩⟩ <;>
      simp [World.step, Call.exec, cephRbdDriver.Mount, hget, hc]

/-- The host after an `Unmount` of a record that is in the table. -/
theorem step_unmount (lib : GoLib) (w : World) (r : UnmountRequest) (env : unmountEnv)
    (v : cephRbdVolume) (hget : w.d.volumes.get r.Name = some v) :
    ∃ v1, (w.step lib (.unmount r env)).d.volumes = w.d.volumes.put r.Name v1 ∧
      v1.Mountpoint = v.Mountpoint ∧ v1.RbdNum = v.RbdNum ∧
      ((0 < wrapInt (v.connections - 1) ∧ v1.connections = wrapInt (v.connections - 1) ∧
          (w.step lib (.unmount r env)).attached = w.attached ∧
          (w.step lib (.unmount r env)).mounts = w.mounts) ∨
        (wrapInt (v.connections - 1) ≤ 0 ∧ env.ok = true ∧ v1.connections = 0 ∧
          (w.step lib (.unmount r env)).attached =
            (fun n => if n = v.RbdNum then false else w.attached n) ∧
          (w.step lib (.unmount r env)).mounts =
            (fun p => if p = v.Mountpoint then (w.mounts p).tail else w.mounts p)) ∨
        (wrapInt (v.connections - 1) ≤ 0 ∧ env.ok = false ∧
          v1.connections = wrapInt (v.connections - 1) ∧
          (w.d.Unmount r env).effects.all (Effect.clean lib) = false ∧
          (w.step lib (.unmount r env)).attached = w.attached ∧
          ((w.step lib (.unmount r env)).mounts = w.mounts ∨
            (w.step lib (.unmount r env)).mounts =
              (fun p => if p = v.Mountpoint then (w.mounts p).tail else w.mounts p)))) := by
  obtain ⟨um, dt⟩ := env
  by_cases hc : wrapInt (v.connections - 1) ≤ 0
  · cases um with
    | some e =>
      refine ⟨{ v with connections := wrapInt (v.connections - 1) }, ?_, rfl, rfl,
        Or.inr (Or.inr ⟨hc, rfl, rfl, ?_, ?_, Or.inl ?_⟩)⟩ <;>
        simp [World.step, Call.exec, cephRbdDriver.Unmount, hget, hc,
          cephRbdDriver.unmountVolume, World.observe, Effect.clean]
    | none =>
      cases dt with
      | some e =>
        refine ⟨{ v with connections := wrapInt (v.connections - 1) }, ?_, rfl, rfl,
          Or.inr (Or.inr ⟨hc, rfl, rfl, ?_, ?_, Or.inr ?_⟩)⟩ <;>
          simp [World.step, Call.exec, cephRbdDriver.Unmount, hget, hc,
            cephRbdDriver.unmountVolume, World.observe, Effect.clean]
      | none =>
        refine ⟨{ v with connections := 0 }, ?_, rfl, rfl,
          Or.inr (Or.inl ⟨hc, rfl, rfl, ?_, ?_⟩)⟩ <;>
          simp [World.step, Call.exec, cephRbdDriver.Unmount, hget, hc,
            cephRbdDriver.unmountVolume, World.observe]
  · refine ⟨{ v with connections := wrapInt (v.connections - 1) }, ?_, rfl, rfl,
      Or.inl ⟨by omega, rfl, ?_, ?_⟩⟩ <;>
      simp [World.step, Call.exec, cephRbdDriver.Unmount, hget, hc]

/-- A `Mount` or an `Unmount` of a name that is not in the table changes nothing. -/
theorem step_absent (lib : GoLib) (w : World) (c : Call)
    (h : w.d.volumes.get c.name = none) (hc : c.isMount = true ∨ c.isUnmount = true) :
    (w.step lib c).d = w.d ∧ (w.step lib c).attached = w.attached ∧
      (w.step lib c).mounts = w.mounts := by
  cases c with
  | create r s => simp [Call.isMount, Call.isUnmount] at hc
  | remove r e => simp [Call.isMount, Call.isUnmount] at hc
  | mount r e =>
    simp only [Call.name] at h
    simp [World.step, Call.exec, cephRbdDriver.Mount, h]
  | unmount r e =>
    simp only [Call.name] at h
    simp [World.step, Call.exec, cephRbdDriver.Unmount, h]

/-- A `Create` that returns an error leaves the driver as it is. -/
theorem Create_error_same (lib : GoLib) (d : cephRbdDriver) (r : Request) (s : writeOutcome)
    (h : (d.Create lib r s).resp.Err ≠ "") : (d.Create lib r s).d = d := by
  simp only [cephRbdDriver.Create] at h ⊢
  split
  · rfl
  · (repeat' split) <;> first | rfl | skip
    simp_all

/-- What `othersFree` says of a record read from the table. -/
theorem othersFree_get (t : volumeTable) (name : String) (num : Int)
    (h : t.othersFree name num = true) (m : String) (v : cephRbdVolume) (hm : m ≠ name)
    (hv : t.get m = some v) (hpos : 0 < v.connections) : v.RbdNum ≠ num := by
  have hmem := volumeTable.mem_of_get t m v hv
  simp only [volumeTable.othersFree, List.all_eq_true] at h
  have h1 := h (m, v) hmem
  simp only [Bool.or_eq_true, decide_eq_true_eq] at h1
  rcases h1 with (h1 | h1) | h1
  · exact absurd h1 hm
  · omega
  · exact h1

/-- The invariant `Safe` passes to a state that differs in the record of one name, when the
host still serves the other records and the new record obeys the invariant. -/
theorem safe_of_update (w w1 : World) (n : Nat) (name : String) (hw : w.Safe n)
    (hframe : ∀ m, m ≠ name → w1.d.volumes.get m = w.d.volumes.get m)
    (hhost : ∀ m v2, m ≠ name → w.d.volumes.get m = some v2 → 0 < v2.connections →
      w1.attached v2.RbdNum = true ∧ (w1.mounts v2.Mountpoint).head? = some v2.device)
    (hown : ∀ v1, w1.d.volumes.get name = some v1 →
      (0 ≤ v1.connections ∧ v1.connections ≤ ((n + 1 : Nat) : Int) ∧
        (0 < v1.connections →
          w1.attached v1.RbdNum = true ∧
            (w1.mounts v1.Mountpoint).head? = some v1.device)) ∧
      ∀ m v2, m ≠ name → w.d.volumes.get m = some v2 →
        v1.Mountpoint ≠ v2.Mountpoint ∧
          (0 < v1.connections → 0 < v2.connections → v1.RbdNum ≠ v2.RbdNum)) :
    w1.Safe (n + 1) := by
  obtain ⟨s1, s2, s3⟩ := hw
  refine ⟨?_, ?_, ?_⟩
  · intro m v hv
    by_cases hm : m = name
    · subst hm
      exact (hown v hv).1
    · rw [hframe m hm] at hv
      obtain ⟨a, b, _⟩ := s1 m v hv
      exact ⟨a, by push_cast; omega, fun hpos => hhost m v hm hv hpos⟩
  · intro n1 n2 v1 v2 hne h1 h2
    by_cases hm1 : n1 = name
    · subst hm1
      have hm2 : n2 ≠ n1 := fun e => hne e.symm
      rw [hframe n2 hm2] at h2
      exact ((hown v1 h1).2 n2 v2 hm2 h2).1
    · rw [hframe n1 hm1] at h1
      by_cases hm2 : n2 = name
      · subst hm2
        exact fun e => ((hown v2 h2).2 n1 v1 hm1 h1).1 e.symm
      · rw [hframe n2 hm2] at h2
        exact s2 n1 n2 v1 v2 hne h1 h2
  · intro n1 n2 v1 v2 hne h1 h2 p1 p2
    by_cases hm1 : n1 = name
    · subst hm1
      have hm2 : n2 ≠ n1 := fun e => hne e.symm
      rw [hframe n2 hm2] at h2
      exact ((hown v1 h1).2 n2 v2 hm2 h2).2 p1 p2
    · rw [hframe n1 hm1] at h1
      by_cases hm2 : n2 = name
      · subst hm2
        exact fun e => ((hown v2 h2).2 n1 v1 hm1 h1).2 p2 p1 e.symm
      · rw [hframe n2 hm2] at h2
        exact s3 n1 n2 v1 v2 hne h1 h2 p1 p2

/-- The part of `safe_of_update` on the record of the name, when neither that record nor
the host changes. -/
theorem safe_same (w w1 : World) (n : Nat) (name : String) (hw : w.Safe n)
    (hd : w1.d.volumes.get name = w.d.volumes.get name)
    (ha : w1.attached = w.attached) (hm : w1.mounts = w.mounts) :
    ∀ v1, w1.d.volumes.get name = some v1 →
      (0 ≤ v1.connections ∧ v1.connections ≤ ((n + 1 : Nat) : Int) ∧
        (0 < v1.connections →
          w1.attached v1.RbdNum = true ∧
            (w1.mounts v1.Mountpoint).head? = some v1.device)) ∧
      ∀ m v2, m ≠ name → w.d.volumes.get m = some v2 →
        v1.Mountpoint ≠ v2.Mountpoint ∧
          (0 < v1.connections → 0 < v2.connections → v1.RbdNum ≠ v2.RbdNum) := by
  intro v1 hv1
  rw [hd] at hv1
  rw [ha, hm]
  obtain ⟨s1, s2, s3⟩ := hw
  obtain ⟨a, b, c⟩ := s1 name v1 hv1
  refine ⟨⟨a, by push_cast; omega, c⟩, fun m v2 hne h2 => ⟨?_, ?_⟩⟩
  · exact s2 name m v1 v2 (fun e => hne e.symm) hv1 h2
  · exact s3 name m v1 v2 (fun e => hne e.symm) hv1 h2

/-- The part of `safe_of_update` on the other records, when the host does not change. -/
theorem host_same (w w1 : World) (n : Nat) (name : String) (hw : w.Safe n)
    (ha : w1.attached = w.attached) (hm : w1.mounts = w.mounts) :
    ∀ m v2, m ≠ name → w.d.volumes.get m = some v2 → 0 < v2.connections →
      w1.attached v2.RbdNum = true ∧ (w1.mounts v2.Mountpoint).head? = some v2.device := by
  intro m v2 _ h2 hpos
  rw [ha, hm]
  exact (hw.1 m v2 h2).2.2 hpos

/-- One call that keeps the volumes apart preserves `Safe`; the bound on the counts grows
by one. -/
theorem step_safe (lib : GoLib) (w : World) (c : Call) (n : Nat) (hw : w.Safe n)
    (hn : n + 1 < 9223372036854775808) (hc : c.apart lib w = true) :
    (w.step lib c).Safe (n + 1) := by
  have hframe : ∀ m, m ≠ c.name → (w.step lib c).d.volumes.get m = w.d.volumes.get m := by
    intro m hm
    rw [step_d]
    exact exec_frame lib w.d c m hm
  simp only [Call.apart, Bool.and_eq_true] at hc
  obtain ⟨⟨hzero, hkernel⟩, hmp⟩ := hc
  obtain ⟨s1, s2, s3⟩ := hw
  have hw : w.Safe n := ⟨s1, s2, s3⟩
  cases c with
  | create r s =>
    obtain ⟨ha, hm⟩ := step_host_create lib w r s
    refine safe_of_update w _ n r.Name hw hframe (host_same w _ n r.Name hw ha hm) ?_
    by_cases hok : (w.d.Create lib r s).resp.Err = ""
    · intro v1 hv1
      rw [step_d, Call.exec] at hv1
      obtain ⟨v0, hloop, hvol, _⟩ := Create_success lib w.d r s hok
      have hv1c : v1.connections = 0 := by
        rw [hvol, volumeTable.get_put, if_pos rfl] at hv1
        cases hv1
        exact (loop_keeps lib _ _ _ hloop).1
      simp only [Call.ownMountpoint, hok, ne_eq, not_true_eq_false, decide_False,
        Bool.false_or, hv1, List.all_eq_true, Bool.or_eq_true, decide_eq_true_eq] at hmp
      refine ⟨⟨by omega, by push_cast; omega, fun h => by omega⟩, fun m v2 hne h2 => ⟨?_, ?_⟩⟩
      · rcases hmp (m, v2) (volumeTable.mem_of_get _ _ _ h2) with h | h
        · exact absurd h hne
        · exact fun e => h e.symm
      · intro h
        omega
    · have hsame := Create_error_same lib w.d r s hok
      refine safe_same w _ n r.Name hw ?_ ha hm
      rw [step_d, Call.exec, hsame]
  | remove r e =>
    obtain ⟨ha, hm⟩ := step_host_remove lib w r e
    refine safe_of_update w _ n r.Name hw hframe (host_same w _ n r.Name hw ha hm) ?_
    rcases remove_own w.d r e with h | ⟨h, _⟩
    · refine safe_same w _ n r.Name hw ?_ ha hm
      rw [step_d, Call.exec, h]
    · intro v1 hv1
      rw [step_d, Call.exec, h] at hv1
      cases hv1
  | mount r env =>
    cases hget : w.d.volumes.get r.Name with
    | none =>
      obtain ⟨hd, ha, hm⟩ := step_absent lib w (.mount r env) hget (Or.inl rfl)
      refine safe_of_update w _ n r.Name hw hframe (host_same w _ n r.Name hw ha hm) ?_
      exact safe_same w _ n r.Name hw (by rw [hd]) ha hm
    | some v =>
      obtain ⟨g1, g2, g3⟩ := s1 _ _ hget
      obtain ⟨v1, hvol, hmpt, hcases⟩ := step_mount lib w r env v hget
      have hget1 : (w.step lib (.mount r env)).d.volumes.get r.Name = some v1 := by
        rw [hvol, volumeTable.get_put, if_pos rfl]
      rcases hcases with ⟨a1, a2, a3, ha, hm⟩ | ⟨a1, a2, ha, hm⟩ | ⟨a1, a2, a3, _, ha, hm⟩ |
        ⟨a1, a2, a3, a4, ha, hm⟩
      · refine safe_of_update w _ n r.Name hw hframe (host_same w _ n r.Name hw ha hm) ?_
        intro v1x hv1x
        rw [hget1] at hv1x
        cases hv1x
        rw [wrapInt_eq _ (by omega) (by omega)] at a3
        have hdev : v1.device = v.device := by simp [cephRbdVolume.device, a2]
        rw [ha, hm, hmpt, a2, hdev]
        refine ⟨⟨by omega, by push_cast; omega, fun _ => g3 (by omega)⟩,
          fun m v2 hne h2 => ⟨?_, fun _ p2 => ?_⟩⟩
        · exact s2 r.Name m v v2 (fun e => hne e.symm) hget h2
        · exact s3 r.Name m v v2 (fun e => hne e.symm) hget h2 (by omega) p2
      · subst a2
        refine safe_of_update w _ n r.Name hw hframe (host_same w _ n r.Name hw ha hm) ?_
        exact safe_same w _ n r.Name hw (by rw [hget1, hget]) ha hm
      · refine safe_of_update w _ n r.Name hw hframe ?_ ?_
        · intro m v2 _ h2 hpos
          rw [ha, hm]
          obtain ⟨b1, b2⟩ := (s1 m v2 h2).2.2 hpos
          refine ⟨?_, b2⟩
          simp only
          split
          · rfl
          · exact b1
        · intro v1x hv1x
          rw [hget1] at hv1x
          cases hv1x
          refine ⟨⟨by omega, by push_cast; omega, fun h => by omega⟩,
            fun m v2 hne h2 => ⟨?_, fun h => by omega⟩⟩
          rw [hmpt]
          exact s2 r.Name m v v2 (fun e => hne e.symm) hget h2
      · simp only [Call.kernelOk, a3, Bool.not_true, Bool.false_or, Bool.and_eq_true,
          Bool.not_eq_true', a4, Bool.or_eq_true, decide_eq_true_eq] at hkernel
        obtain ⟨hfresh, hnum, hfree⟩ := hkernel
        refine safe_of_update w _ n r.Name hw hframe ?_ ?_
        · intro m v2 hne h2 hpos
          rw [ha, hm]
          obtain ⟨b1, b2⟩ := (s1 m v2 h2).2.2 hpos
          refine ⟨?_, ?_⟩
          · simp only
            split
            · rfl
            · exact b1
          · simp only
            rw [if_neg (s2 m r.Name v2 v hne h2 hget)]
            exact b2
        · intro v1x hv1x
          rw [hget1] at hv1x
          cases hv1x
          rw [ha, hm, hmpt]
          refine ⟨⟨by omega, by push_cast; omega, fun _ => ⟨?_, by simp⟩⟩,
            fun m v2 hne h2 => ⟨?_, fun _ p2 => ?_⟩⟩
          · simp only
            split
            · rfl
            · rcases hnum with h | h
              · contradiction
              · exact h
          · exact s2 r.Name m v v2 (fun e => hne e.symm) hget h2
          · exact fun e => othersFree_get _ _ _ hfree m v2 hne h2 p2 e.symm
  | unmount r env =>
    cases hget : w.d.volumes.get r.Name with
    | none =>
      obtain ⟨hd, ha, hm⟩ := step_absent lib w (.unmount r env) hget (Or.inr rfl)
      refine safe_of_update w _ n r.Name hw hframe (host_same w _ n r.Name hw ha hm) ?_
      exact safe_same w _ n r.Name hw (by rw [hd]) ha hm
    | some v =>
      obtain ⟨g1, g2, g3⟩ := s1 _ _ hget
      simp only [Call.unmountOk, hget, Bool.or_eq_true, decide_eq_true_eq,
        Bool.and_eq_true] at hzero
      obtain ⟨v1, hvol, hmpt, hnum, hcases⟩ := step_unmount lib w r env v hget
      have hget1 : (w.step lib (.unmount r env)).d.volumes.get r.Name = some v1 := by
        rw [hvol, volumeTable.get_put, if_pos rfl]
      rw [wrapInt_eq _ (by omega) (by omega)] at hcases
      have hd1 : ∀ m v2, m ≠ r.Name → w.d.volumes.get m = some v2 → 0 < v2.connections →
          v2.RbdNum ≠ v.RbdNum := by
        intro m v2 hne h2 hpos
        rcases hzero with h | ⟨_, h⟩
        · exact s3 m r.Name v2 v hne h2 hget hpos h
        · exact othersFree_get _ _ _ h m v2 hne h2 hpos
      have hothers : ∀ m v2, m ≠ r.Name → w.d.volumes.get m = some v2 →
          0 < v2.connections →
          (if v2.RbdNum = v.RbdNum then false else w.attached v2.RbdNum) = true ∧
            (if v2.Mountpoint = v.Mountpoint then (w.mounts v2.Mountpoint).tail
              else w.mounts v2.Mountpoint).head? = some v2.device := by
        intro m v2 hne h2 hpos
        obtain ⟨b1, b2⟩ := (s1 m v2 h2).2.2 hpos
        have d2 := s2 m r.Name v2 v hne h2 hget
        rw [if_neg (hd1 m v2 hne h2 hpos), if_neg d2]
        exact ⟨b1, b2⟩
      rcases hcases with ⟨a1, a2, ha, hm⟩ | ⟨a1, _, a2, ha, hm⟩ | ⟨a1, a0, a2, _, ha, hm⟩
      · refine safe_of_update w _ n r.Name hw hframe (host_same w _ n r.Name hw ha hm) ?_
        intro v1x hv1x
        rw [hget1] at hv1x
        cases hv1x
        have hdev : v1.device = v.device := by simp [cephRbdVolume.device, hnum]
        rw [ha, hm, hmpt, hnum, hdev]
        refine ⟨⟨by omega, by push_cast; omega, fun _ => g3 (by omega)⟩,
          fun m v2 hne h2 => ⟨?_, fun _ p2 => ?_⟩⟩
        · exact s2 r.Name m v v2 (fun e => hne e.symm) hget h2
        · exact s3 r.Name m v v2 (fun e => hne e.symm) hget h2 (by omega) p2
      · refine safe_of_update w _ n r.Name hw hframe ?_ ?_
        · intro m v2 hne h2 hpos
          rw [ha, hm]
          exact hothers m v2 hne h2 hpos
        · intro v1x hv1x
          rw [hget1] at hv1x
          cases hv1x
          refine ⟨⟨by omega, by push_cast; omega, fun h => by omega⟩,
            fun m v2 hne h2 => ⟨?_, fun h => by omega⟩⟩
          rw [hmpt]
          exact s2 r.Name m v v2 (fun e => hne e.symm) hget h2
      · have hpos : 0 < v.connections := by
          rcases hzero with h | ⟨h, _⟩
          · exact h
          · rw [a0] at h
            cases h
        refine safe_of_update w _ n r.Name hw hframe ?_ ?_
        · intro m v2 hne h2 hpos2
          rw [ha]
          obtain ⟨b1, b2⟩ := (s1 m v2 h2).2.2 hpos2
          refine ⟨b1, ?_⟩
          rcases hm with hm | hm
          · rw [hm]
            exact b2
          · rw [hm]
            exact (hothers m v2 hne h2 hpos2).2
        · intro v1x hv1x
          rw [hget1] at hv1x
          cases hv1x
          refine ⟨⟨by omega, by push_cast; omega, fun h => by omega⟩,
            fun m v2 hne h2 => ⟨?_, fun h => by omega⟩⟩
          rw [hmpt]
          exact s2 r.Name m v v2 (fun e => hne e.symm) hget h2

/-- A record with a positive count that answers for a device or a path still does so after
a call, when the call is on another name or leaves the record of its name in use with the
same device number or mountpoint. -/
theorem witness_keeps (w w1 : World) (name : String) (Q : cephRbdVolume → Prop)
    (hframe : ∀ m, m ≠ name → w1.d.volumes.get m = w.d.volumes.get m)
    (hown : ∀ v, w.d.volumes.get name = some v → 0 < v.connections → Q v →
      ∃ v1, w1.d.volumes.get name = some v1 ∧ 0 < v1.connections ∧ Q v1)
    (h : ∃ m v, w.d.volumes.get m = some v ∧ 0 < v.connections ∧ Q v) :
    ∃ m v, w1.d.volumes.get m = some v ∧ 0 < v.connections ∧ Q v := by
  obtain ⟨m, v, hv, hpos, hq⟩ := h
  by_cases hm : m = name
  · subst hm
    obtain ⟨v1, h1, h2, h3⟩ := hown v hv hpos hq
    exact ⟨m, v1, h1, h2, h3⟩
  · exact ⟨m, v, by rw [hframe m hm]; exact hv, hpos, hq⟩

/-- One call that is tidy preserves `Exact`; the bound on the counts grows by one. -/
theorem step_exact (lib : GoLib) (w : World) (c : Call) (n : Nat) (hw : w.Exact n)
    (hn : n + 1 < 9223372036854775808) (hc : c.tidy lib w = true) :
    (w.step lib c).Exact (n + 1) := by
  have hframe : ∀ m, m ≠ c.name → (w.step lib c).d.volumes.get m = w.d.volumes.get m := by
    intro m hm
    rw [step_d]
    exact exec_frame lib w.d c m hm
  simp only [Call.tidy, Bool.and_eq_true] at hc
  obtain ⟨⟨hapart, hclean⟩, hover⟩ := hc
  obtain ⟨hsafe, e3, e4⟩ := hw
  refine ⟨step_safe lib w c n hsafe hn hapart, ?_⟩
  simp only [Call.apart, Bool.and_eq_true] at hapart
  obtain ⟨⟨_, hkernel⟩, _⟩ := hapart
  obtain ⟨s1, s2, s3⟩ := hsafe
  cases c with
  | create r s =>
    obtain ⟨ha, hm⟩ := step_host_create lib w r s
    have hown : ∀ (Q : cephRbdVolume → Prop) v, w.d.volumes.get r.Name = some v →
        0 < v.connections → Q v →
        ∃ v1, (w.step lib (.create r s)).d.volumes.get r.Name = some v1 ∧
          0 < v1.connections ∧ Q v1 := by
      intro Q v hv hpos _
      simp only [Call.noOverwriteInUse, hv, decide_eq_true_eq] at hover
      omega
    rw [ha, hm]
    exact ⟨fun k hk => witness_keeps w _ r.Name _ hframe (hown _) (e3 k hk),
      fun p hp => witness_keeps w _ r.Name _ hframe (hown _) (e4 p hp)⟩
  | remove r e =>
    obtain ⟨ha, hm⟩ := step_host_remove lib w r e
    have hown : ∀ (Q : cephRbdVolume → Prop) v, w.d.volumes.get r.Name = some v →
        0 < v.connections → Q v →
        ∃ v1, (w.step lib (.remove r e)).d.volumes.get r.Name = some v1 ∧
          0 < v1.connections ∧ Q v1 := by
      intro Q v hv hpos hq
      rcases remove_own w.d r e with h | ⟨_, v0, h0, hc0⟩
      · exact ⟨v, by rw [step_d, Call.exec, h]; exact hv, hpos, hq⟩
      · rw [hv] at h0
        cases h0
        omega
    rw [ha, hm]
    exact ⟨fun k hk => witness_keeps w _ r.Name _ hframe (hown _) (e3 k hk),
      fun p hp => witness_keeps w _ r.Name _ hframe (hown _) (e4 p hp)⟩
  | mount r env =>
    cases hget : w.d.volumes.get r.Name with
    | none =>
      obtain ⟨hd, ha, hm⟩ := step_absent lib w (.mount r env) hget (Or.inl rfl)
      rw [ha, hm, hd]
      exact ⟨e3, e4⟩
    | some v =>
      obtain ⟨g1, g2, g3⟩ := s1 _ _ hget
      obtain ⟨v1, hvol, hmpt, hcases⟩ := step_mount lib w r env v hget
      have hget1 : (w.step lib (.mount r env)).d.volumes.get r.Name = some v1 := by
        rw [hvol, volumeTable.get_put, if_pos rfl]
      rcases hcases with ⟨a1, a2, a3, ha, hm⟩ | ⟨a1, a2, ha, hm⟩ | ⟨a1, a2, a3, a4, ha, hm⟩ |
        ⟨a1, a2, a3, a4, ha, hm⟩
      · rw [wrapInt_eq _ (by omega) (by omega)] at a3
        have hdev : v1.device = v.device := by simp [cephRbdVolume.device, a2]
        have hown : ∀ (Q : cephRbdVolume → Prop) v0, w.d.volumes.get r.Name = some v0 →
            0 < v0.connections → Q v0 → (Q v → Q v1) →
            ∃ v1, (w.step lib (.mount r env)).d.volumes.get r.Name = some v1 ∧
              0 < v1.connections ∧ Q v1 := by
          intro Q v0 hv0 _ hq himp
          rw [hget] at hv0
          cases hv0
          exact ⟨v1, hget1, by omega, himp hq⟩
        rw [ha, hm]
        refine ⟨fun k hk => witness_keeps w _ r.Name _ hframe
            (fun v0 h0 p0 q0 => hown _ v0 h0 p0 q0 (fun q => by rw [a2]; exact q)) (e3 k hk),
          fun p hp => witness_keeps w _ r.Name _ hframe
            (fun v0 h0 p0 q0 => hown _ v0 h0 p0 q0 (fun q => by rw [hmpt, hdev]; exact q))
            (e4 p hp)⟩
      · subst a2
        have hown : ∀ (Q : cephRbdVolume → Prop) v0, w.d.volumes.get r.Name = some v0 →
            0 < v0.connections → Q v0 →
            ∃ v1, (w.step lib (.mount r env)).d.volumes.get r.Name = some v1 ∧
              0 < v1.connections ∧ Q v1 := by
          intro Q v0 hv0 hpos hq
          exact ⟨v0, by rw [hget1, ← hv0, hget], hpos, hq⟩
        rw [ha, hm]
        exact ⟨fun k hk => witness_keeps w _ r.Name _ hframe (hown _) (e3 k hk),
          fun p hp => witness_keeps w _ r.Name _ hframe (hown _) (e4 p hp)⟩
      · simp only [Call.exec] at hclean
        rw [a4] at hclean
        cases hclean
      · simp only [Call.kernelOk, a3, Bool.not_true, Bool.false_or, Bool.and_eq_true,
          Bool.not_eq_true', a4, Bool.or_eq_true, decide_eq_true_eq] at hkernel
        obtain ⟨hfresh, hnum, hfree⟩ := hkernel
        have hnew : v1.RbdNum = env.newDevice := by
          rcases hnum with h | h
          · exact h
          · obtain ⟨m, v2, h2, p2, q2⟩ := e3 _ h
            by_cases hm2 : m = r.Name
            · subst hm2
              rw [hget] at h2
              cases h2
              omega
            · exact absurd q2 (othersFree_get _ _ _ hfree m v2 hm2 h2 p2)
        have hown : ∀ (Q : cephRbdVolume → Prop) v0, w.d.volumes.get r.Name = some v0 →
            0 < v0.connections → Q v0 →
            ∃ v1, (w.step lib (.mount r env)).d.volumes.get r.Name = some v1 ∧
              0 < v1.connections ∧ Q v1 := by
          intro Q v0 hv0 hpos _
          rw [hget] at hv0
          cases hv0
          omega
        have hP : w.mounts v.Mountpoint = [] := by
          by_contra hne
          obtain ⟨m, v2, h2, p2, q2, _⟩ := e4 v.Mountpoint hne
          by_cases hm2 : m = r.Name
          · subst hm2
            rw [hget] at h2
            cases h2
            omega
          · exact s2 m r.Name v2 v hm2 h2 hget q2
        rw [ha, hm]
        refine ⟨fun k hk => ?_, fun p hp => ?_⟩
        · by_cases hk2 : k = env.newDevice
          · exact ⟨r.Name, v1, hget1, by omega, by rw [hnew, hk2]⟩
          · simp only [hk2, if_false] at hk
            exact witness_keeps w _ r.Name _ hframe (hown _) (e3 k hk)
        · by_cases hp2 : p = v.Mountpoint
          · subst hp2
            simp only [if_true]
            exact ⟨r.Name, v1, hget1, by omega, hmpt, by rw [hP]⟩
          · simp only [hp2, if_false] at hp ⊢
            exact witness_keeps w _ r.Name _ hframe (hown _) (e4 p hp)
  | unmount r env =>
    cases hget : w.d.volumes.get r.Name with
    | none =>
      obtain ⟨hd, ha, hm⟩ := step_absent lib w (.unmount r env) hget (Or.inr rfl)
      rw [ha, hm, hd]
      exact ⟨e3, e4⟩
    | some v =>
      obtain ⟨g1, g2, g3⟩ := s1 _ _ hget
      obtain ⟨v1, hvol, hmpt, hnum, hcases⟩ := step_unmount lib w r env v hget
      have hget1 : (w.step lib (.unmount r env)).d.volumes.get r.Name = some v1 := by
        rw [hvol, volumeTable.get_put, if_pos rfl]
      rw [wrapInt_eq _ (by omega) (by omega)] at hcases
      rcases hcases with ⟨a1, a2, ha, hm⟩ | ⟨a1, _, a2, ha, hm⟩ | ⟨a1, _, a2, a3, _, _⟩
      · have hdev : v1.device = v.device := by simp [cephRbdVolume.device, hnum]
        have hown : ∀ (Q : cephRbdVolume → Prop) v0, w.d.volumes.get r.Name = some v0 →
            0 < v0.connections → Q v0 → (Q v → Q v1) →
            ∃ v1, (w.step lib (.unmount r env)).d.volumes.get r.Name = some v1 ∧
              0 < v1.connections ∧ Q v1 := by
          intro Q v0 hv0 _ hq himp
          rw [hget] at hv0
          cases hv0
          exact ⟨v1, hget1, by omega, himp hq⟩
        rw [ha, hm]
        refine ⟨fun k hk => witness_keeps w _ r.Name _ hframe
            (fun v0 h0 p0 q0 => hown _ v0 h0 p0 q0 (fun q => by rw [hnum]; exact q)) (e3 k hk),
          fun p hp => witness_keeps w _ r.Name _ hframe
            (fun v0 h0 p0 q0 => hown _ v0 h0 p0 q0 (fun q => by rw [hmpt, hdev]; exact q))
            (e4 p hp)⟩
      · rw [ha, hm]
        refine ⟨fun k hk => ?_, fun p hp => ?_⟩
        · by_cases hk2 : k = v.RbdNum
          · simp [hk2] at hk
          · simp only [hk2, if_false] at hk
            refine witness_keeps w _ r.Name _ hframe ?_ (e3 k hk)
            intro v0 hv0 _ hq
            rw [hget] at hv0
            cases hv0
            exact absurd hq.symm hk2
        · by_cases hp2 : p = v.Mountpoint
          · subst hp2
            simp only [if_true] at hp
            have hne : w.mounts v.Mountpoint ≠ [] := by
              intro e
              rw [e] at hp
              exact hp rfl
            obtain ⟨_, v2, _, _, _, q2⟩ := e4 v.Mountpoint hne
            rw [q2] at hp
            exact absurd rfl hp
          · simp only [hp2, if_false] at hp ⊢
            refine witness_keeps w _ r.Name _ hframe ?_ (e4 p hp)
            intro v0 hv0 _ hq
            rw [hget] at hv0
            cases hv0
            exact absurd hq.1.symm hp2
      · simp only [Call.exec] at hclean
        rw [a3] at hclean
        cases hclean

/-- Calls that keep the volumes apart preserve `Safe`. -/
theorem run_safe (lib : GoLib) (cs : List Call) :
    ∀ (w : World) (n : Nat), w.Safe n → n + cs.length < 9223372036854775808 →
      World.allows lib (Call.apart lib) w cs = true →
      (w.run lib cs).Safe (n + cs.length) := by
  induction cs with
  | nil => intro w n hw _ _; simpa [World.run] using hw
  | cons c cs ih =>
    intro w n hw hn hall
    simp only [World.allows, Bool.and_eq_true] at hall
    simp only [List.length_cons] at hn
    have h1 := step_safe lib w c n hw (by omega) hall.1
    have h2 := ih _ (n + 1) h1 (by omega) hall.2
    have e : n + (c :: cs).length = n + 1 + cs.length := by simp; omega
    rw [e]
    simpa [World.run] using h2

/-- Tidy calls preserve `Exact`. -/
theorem run_exact (lib : GoLib) (cs : List Call) :
    ∀ (w : World) (n : Nat), w.Exact n → n + cs.length < 9223372036854775808 →
      World.allows lib (Call.tidy lib) w cs = true →
      (w.run lib cs).Exact (n + cs.length) := by
  induction cs with
  | nil => intro w n hw _ _; simpa [World.run] using hw
  | cons c cs ih =>
    intro w n hw hn hall
    simp only [World.allows, Bool.and_eq_true] at hall
    simp only [List.length_cons] at hn
    have h1 := step_exact lib w c n hw (by omega) hall.1
    have h2 := ih _ (n + 1) h1 (by omega) hall.2
    have e : n + (c :: cs).length = n + 1 + cs.length := by simp; omega
    rw [e]
    simpa [World.run] using h2

theorem init_safe (lib : GoLib) (root : String) : (World.init lib root).Safe 0 := by
  refine ⟨?_, ?_, ?_⟩
  · intro name v h
    simp [World.init, volumeTable.get] at h
  · intro n1 n2 v1 v2 _ h
    simp [World.init, volumeTable.get] at h
  · intro n1 n2 v1 v2 _ h
    simp [World.init, volumeTable.get] at h

theorem init_exact (lib : GoLib) (root : String) : (World.init lib root).Exact 0 := by
  refine ⟨init_safe lib root, ?_, ?_⟩
  · intro k h
    simp [World.init] at h
  · intro p h
    simp [World.init] at h

/-- C2 (amended). The host is followed by device number and by path: which device numbers
are attached, and which devices are mounted at each path, the last one mounted on top.
From the empty table, after fewer than `2^63` `Create`, `Mount`, `Unmount` and `Remove`
calls whose external steps succeed or fail arbitrarily, provided every call keeps the
volumes apart (an `Unmount` of a record whose count is 0 succeeds and does not detach the
device number of another record in use; no `Create` gives a record the mountpoint of a
record under another name; the kernel gives a new device a number that is not attached, and
a lookup that succeeds returns the number of an attached device that no other record in
use holds): every count is at least 0, and a record whose count is above 0 has its device
number attached and its device mounted on top at its mountpoint. When moreover no lookup,
`mount`, `umount` or detach step that runs fails and no `Create` overwrites a record in
use: the count of a record is above 0 exactly when its device number is attached and its
device is mounted on top at its mountpoint, a record with count 0 has nothing mounted at
its mountpoint, every attached device number is that of a record whose count is above 0,
and every path with a mount is the mountpoint of a record whose count is above 0 and holds
the device of that record and nothing else. -/
theorem attached_mounted_invariant (lib : GoLib) (root : String) (cs : List Call)
    (hlen : cs.length < 9223372036854775808) :
    (World.allows lib (Call.apart lib) (World.init lib root) cs = true →
      ∀ name v, ((World.init lib root).run lib cs).d.volumes.get name = some v →
        0 ≤ v.connections ∧
        (0 < v.connections →
          ((World.init lib root).run lib cs).attached v.RbdNum = true ∧
          (((World.init lib root).run lib cs).mounts v.Mountpoint).head? =
            some v.device)) ∧
    (World.allows lib (Call.tidy lib) (World.init lib root) cs = true →
      (∀ name v, ((World.init lib root).run lib cs).d.volumes.get name = some v →
        0 ≤ v.connections ∧
        (0 < v.connections ↔
          ((World.init lib root).run lib cs).attached v.RbdNum = true ∧
          (((World.init lib root).run lib cs).mounts v.Mountpoint).head? =
            some v.device) ∧
        (v.connections = 0 →
          ((World.init lib root).run lib cs).mounts v.Mountpoint = [])) ∧
      (∀ k, ((World.init lib root).run lib cs).attached k = true →
        ∃ name v, ((World.init lib root).run lib cs).d.volumes.get name = some v ∧
          0 < v.connections ∧ v.RbdNum = k) ∧
      ∀ p, ((World.init lib root).run lib cs).mounts p ≠ [] →
        ∃ name v, ((World.init lib root).run lib cs).d.volumes.get name = some v ∧
          0 < v.connections ∧ v.Mountpoint = p ∧
          ((World.init lib root).run lib cs).mounts p = [v.device]) := by
  constructor
  · intro hall name v hget
    obtain ⟨h1, _, h3⟩ :=
      (run_safe lib cs _ 0 (init_safe lib root) (by omega) hall).1 name v hget
    exact ⟨h1, h3⟩
  · intro hall
    obtain ⟨⟨s1, s2, _⟩, e3, e4⟩ := run_exact lib cs _ 0 (init_exact lib root) (by omega) hall
    have hback : ∀ name v, ((World.init lib root).run lib cs).d.volumes.get name = some v →
        ((World.init lib root).run lib cs).mounts v.Mountpoint ≠ [] →
        0 < v.connections := by
      intro name v hget hne
      obtain ⟨m, v2, h2, p2, q2, _⟩ := e4 _ hne
      by_cases hm : m = name
      · subst hm
        rw [hget] at h2
        cases h2
        exact p2
      · exact absurd q2 (s2 m name v2 v hm h2 hget)
    refine ⟨fun name v hget => ?_, e3, e4⟩
    obtain ⟨h1, _, h3⟩ := s1 name v hget
    refine ⟨h1, ⟨h3, fun h => hback name v hget ?_⟩, fun h0 => ?_⟩
    · intro e
      rw [e] at h
      exact Option.noConfusion h.2
    · by_contra hne
      have := hback name v hget hne
      omega

/-- C2, witness. First part: `Create v1`, a `Mount`, an `Unmount` whose `umount` fails and a
second `Mount`, whose lookup returns the device `rbd0` that is still attached; `v1` ends
with count 1, `rbd0` attached and mounted on top at its mountpoint. Second part:
`Create v1`, two mounts and one unmount, every step succeeding. -/
theorem attached_mounted_invariant_witness :
    (World.allows sampleLib (Call.apart sampleLib) (World.init sampleLib "/mnt")
        failedUnmountThenMount = true ∧
      ∀ name v, ((World.init sampleLib "/mnt").run sampleLib
          failedUnmountThenMount).d.volumes.get name = some v →
        0 ≤ v.connections ∧
        (0 < v.connections →
          ((World.init sampleLib "/mnt").run sampleLib failedUnmountThenMount).attached
              v.RbdNum = true ∧
            (((World.init sampleLib "/mnt").run sampleLib failedUnmountThenMount).mounts
              v.Mountpoint).head? = some v.device)) ∧
    (World.allows sampleLib (Call.tidy sampleLib) (World.init sampleLib "/mnt")
        createMountMountUnmount = true ∧
      ∀ name v, ((World.init sampleLib "/mnt").run sampleLib
          createMountMountUnmount).d.volumes.get name = some v →
        0 ≤ v.connections ∧
        (0 < v.connections ↔
          ((World.init sampleLib "/mnt").run sampleLib createMountMountUnmount).attached
              v.RbdNum = true ∧
            (((World.init sampleLib "/mnt").run sampleLib createMountMountUnmount).mounts
              v.Mountpoint).head? = some v.device) ∧
        (v.connections = 0 →
          ((World.init sampleLib "/mnt").run sampleLib createMountMountUnmount).mounts
            v.Mountpoint = [])) :=
  ⟨⟨by decide,
      (attached_mounted_invariant sampleLib "/mnt" failedUnmountThenMount (by decide)).1
        (by decide)⟩,
    ⟨by decide,
      ((attached_mounted_invariant sampleLib "/mnt" createMountMountUnmount (by decide)).2
        (by decide)).1⟩⟩

/-- C2 as stated fails: after `Create v1`, a successful `Mount` and an `Unmount` whose
`umount` command fails, the record of `v1` has count 0 while its device `rbd0` is still
attached and still mounted at its mountpoint. -/
theorem attached_mounted_invariant_counterexample :
    ((World.init sampleLib "/mnt").run sampleLib createMountFailedUnmount).d.volumes.get "v1"
      = some sampleVolume ∧
    sampleVolume.connections = 0 ∧
    ((World.init sampleLib "/mnt").run sampleLib createMountFailedUnmount).attached
      sampleVolume.RbdNum = true ∧
    ((World.init sampleLib "/mnt").run sampleLib createMountFailedUnmount).mounts
      sampleVolume.Mountpoint = [sampleVolume.device] := by
  decide

/-- After `Create v1`, a `Mount` and an `Unmount` whose `umount` fails: a second `Mount`
whose lookup returns the device still attached leaves `v1` with count 1 on the device
`rbd0`, and a second `Unmount` that succeeds leaves instead count 0, nothing attached and
nothing mounted. Both runs keep the volumes apart. -/
theorem failed_unmount_recovers :
    World.allows sampleLib (Call.apart sampleLib) (World.init sampleLib "/mnt")
      failedUnmountThenMount = true ∧
    (((World.init sampleLib "/mnt").run sampleLib failedUnmountThenMount).d.volumes.get
      "v1").map (fun v => (v.connections, v.RbdNum)) = some (1, 0) ∧
    ((World.init sampleLib "/mnt").run sampleLib failedUnmountThenMount).mounts
      sampleVolume.Mountpoint = ["/dev/rbd0", "/dev/rbd0"] ∧
    World.allows sampleLib (Call.apart sampleLib) (World.init sampleLib "/mnt")
      failedUnmountRetried = true ∧
    ((World.init sampleLib "/mnt").run sampleLib failedUnmountRetried).d.volumes.get "v1"
      = some sampleVolume ∧
    ((World.init sampleLib "/mnt").run sampleLib failedUnmountRetried).attached 0 = false ∧
    ((World.init sampleLib "/mnt").run sampleLib failedUnmountRetried).mounts
      sampleVolume.Mountpoint = [] := by
  decide

/-- Why the volumes must be kept apart. `v1` and `v2` of the same image share a mountpoint,
and a record that was never mounted holds the device number 0. After a successful `Mount`
of `v1`, a successful `Unmount` of `v2` unmounts that path and detaches the device `rbd0`:
`v1` is left with count 1, nothing attached and nothing mounted. When both are mounted
(`rbd0`, then `rbd3` on top), the `Unmount` of `v1` takes `rbd3` off the path and detaches
`rbd0`: `v2` is left with count 1 and the detached `rbd0` at its mountpoint; in that run
every `Unmount` is of a record in use and the kernel and the lookup are as expected. The
`Create` of `v2` is what `Call.apart` excludes in both. -/
theorem shared_image_unmount :
    ((((World.init sampleLib "/mnt").run sampleLib sharedImageCalls).d.volumes.get "v1").map
        (fun v => (v.connections, v.RbdNum, v.Mountpoint)) =
          some (1, 0, sampleVolume.Mountpoint) ∧
      ((World.init sampleLib "/mnt").run sampleLib sharedImageCalls).attached 0 = false ∧
      ((World.init sampleLib "/mnt").run sampleLib sharedImageCalls).mounts
        sampleVolume.Mountpoint = [] ∧
      World.allows sampleLib (Call.apart sampleLib) (World.init sampleLib "/mnt")
        sharedImageCalls = false) ∧
    ((((World.init sampleLib "/mnt").run sampleLib sharedImageStacked).d.volumes.get
        "v2").map (fun v => (v.connections, v.RbdNum, v.Mountpoint)) =
          some (1, 3, sampleVolume.Mountpoint) ∧
      ((World.init sampleLib "/mnt").run sampleLib sharedImageStacked).attached 0 = false ∧
      ((World.init sampleLib "/mnt").run sampleLib sharedImageStacked).mounts
        sampleVolume.Mountpoint = ["/dev/rbd0"] ∧
      World.allows sampleLib (fun w c => c.unmountOk w && c.kernelOk sampleLib w)
        (World.init sampleLib "/mnt") sharedImageStacked = true ∧
      World.allows sampleLib (Call.apart sampleLib) (World.init sampleLib "/mnt")
        sharedImageStacked = false) := by
  decide
